import Mathlib

/-!
# MIDI codec of `virtual_midi` (src/midi_event.c, src/midi_event.h)

A shallow embedding of the byte-level MIDI event parser and serializer.

Conventions of the embedding:
* `uint8_t`, `uint32_t` and `size_t` values are natural numbers; a store into a
  narrower type is written with an explicit `% 2 ^ w` (`size_t` is 64 bits wide).
* A pointer that may be `NULL` is an `Option`; `none` is `NULL`.
* `vm_event_parse` returns `&ep->event` or `NULL`.  The embedding returns the new
  parser state together with `some ep.event` (the contents the returned pointer
  designates at return time) or `none`.
* `ex_data` of a parsed SysEx event points at the parser accumulator `ep->data`;
  the embedding stores the contents of that accumulator (all
  `MIDI_SYSEX_MAX_MSG_SIZE` bytes), of which the first `p1` are the payload.
-/

namespace VirtualMidi

/-! ## Constants of midi_event.h and errno.h -/

def MIDI_SYSEX_MAX_MSG_SIZE : Nat := 1024

def MIDI_NOTEOFF : Nat := 0x80
def MIDI_NOTEON : Nat := 0x90
def MIDI_KEY_PRESSURE : Nat := 0xA0
def MIDI_CTL_CHANGE : Nat := 0xB0
def MIDI_PGM_CHANGE : Nat := 0xC0
def MIDI_CHN_PRESSURE : Nat := 0xD0
def MIDI_PITCH_BEND : Nat := 0xE0
def MIDI_SYSEX : Nat := 0xF0
def MIDI_TIME_CODE : Nat := 0xF1
def MIDI_SONG_POSITION : Nat := 0xF2
def MIDI_SONG_SELECT : Nat := 0xF3
def MIDI_TUNE_REQUEST : Nat := 0xF6
def MIDI_SYSEX_EOX : Nat := 0xF7
def MIDI_SYNC : Nat := 0xF8

/-- Value of `EINVAL` in the system header errno.h (FreeBSD numbering). -/
def EINVAL : Nat := 22
/-- Value of `EDOM` in the system header errno.h (FreeBSD numbering). -/
def EDOM : Nat := 33
/-- Value of `ENOBUFS` in the system header errno.h (FreeBSD numbering). -/
def ENOBUFS : Nat := 55

/-! ## Data model -/

/-- The C struct `virt_midi_event_s`: `type`, `chan` are `uint8_t`, `p1`, `p2` are
`uint32_t`, `ex_data` is a pointer to SysEx data (`none` is `NULL`). -/
structure vm_evt where
  type : Nat
  chan : Nat
  p1 : Nat
  p2 : Nat
  ex_data : Option (List Nat)
  deriving DecidableEq, Repr

/-- The event after `memset(&ep->event, 0x00, sizeof(ep->event))`. -/
def vm_evt.zero : vm_evt :=
  { type := 0, chan := 0, p1 := 0, p2 := 0, ex_data := none }

/-- Field ranges imposed by the C types of `virt_midi_event_s`. -/
def vm_evt.inRange (e : vm_evt) : Prop :=
  e.type < 256 ∧ e.chan < 256 ∧ e.p1 < 2 ^ 32 ∧ e.p2 < 2 ^ 32

instance (e : vm_evt) : Decidable e.inRange := by
  unfold vm_evt.inRange; infer_instance

/-- The C struct `virt_midi_event_parser_s`. -/
structure vm_ep where
  type : Nat
  chan : Nat
  data_used : Nat
  data_required : Nat
  event : vm_evt
  data : List Nat
  deriving DecidableEq, Repr

/-- A zero-initialised parser (all fields and all accumulator bytes are 0). -/
def vm_ep.zero : vm_ep :=
  { type := 0, chan := 0, data_used := 0, data_required := 0,
    event := vm_evt.zero, data := List.replicate MIDI_SYSEX_MAX_MSG_SIZE 0 }

/-! ## Payload length tables -/

/-- The table `midi_type2len_tbl`: payload length, status byte excluded. -/
def midi_type2len_tbl : List Nat := [2, 2, 2, 2, 1, 1, 2, 0]

/-- The C expression `MIDI_TYPE2LEN(_b)`. -/
def MIDI_TYPE2LEN (b : Nat) : Nat :=
  midi_type2len_tbl.getD ((b >>> 4) &&& 0x07) 0

/-- The table `midi_systype2len_tbl`: payload length, status byte excluded. -/
def midi_systype2len_tbl : List Nat :=
  [0, 1, 2, 1, 0, 0, 0, 0, 0, 0, 0, 0, 0, 0, 0, 0]

/-- The C expression `MIDI_SYSTYPE2LEN(_b)`. -/
def MIDI_SYSTYPE2LEN (b : Nat) : Nat :=
  midi_systype2len_tbl.getD (b &&& 0x0F) 0

/-! ## vm_event_sysex_data_chk -/

/-- The `for` loop of `vm_event_sysex_data_chk`, started at index `i`. -/
def vm_event_sysex_data_chk.loop (buf : List Nat) (buf_size : Nat) (i : Nat) : Nat :=
  if i < buf_size then
    if 0x7f < buf.getD i 0 then EDOM
    else vm_event_sysex_data_chk.loop buf buf_size (i + 1)
  else 0
termination_by buf_size - i

/-- The C function `vm_event_sysex_data_chk`. -/
def vm_event_sysex_data_chk (buf : Option (List Nat)) (buf_size : Nat) : Nat :=
  match buf with
  | none => if buf_size ≠ 0 then EINVAL else 0
  | some b => vm_event_sysex_data_chk.loop b buf_size 0

/-! ## vm_event_parse -/

/-- The label `flush_sys_event` of `vm_event_parse`: drop the previous
incomplete event and return a zero-payload event of type `c`. -/
def vm_event_parse.flush_sys_event (ep : vm_ep) (c : Nat) : vm_ep × Option vm_evt :=
  let ep1 := { ep with type := 0 }
  let ep2 := { ep1 with event := { vm_evt.zero with type := c } }
  (ep2, some ep2.event)

/-- The C function `vm_event_parse`, for a byte `c`. -/
def vm_event_parse (ep : vm_ep) (c : Nat) : vm_ep × Option vm_evt :=
  if 0x80 &&& c ≠ 0 then
    -- Status byte.
    if 0xF8 ≤ c then
      vm_event_parse.flush_sys_event ep c
    else
      -- Any status byte terminates SYSEX messages.
      let staged : Bool := decide (MIDI_SYSEX = ep.type ∧ 0 < ep.data_used)
      let ep1 :=
        if staged then
          { ep with event := { vm_evt.zero with
              type := MIDI_SYSEX, p1 := ep.data_used % 2 ^ 32, ex_data := some ep.data } }
        else ep
      -- Restart parser.
      let ep2 := { ep1 with data_used := 0 }
      if MIDI_SYSEX > c then
        let ty := 0xF0 &&& c
        let ep3 := { ep2 with type := ty, chan := 0x0F &&& c, data_required := MIDI_TYPE2LEN ty }
        (ep3, if staged then some ep3.event else none)
      else
        let ep3 := { ep2 with chan := 0 }
        if c = MIDI_SYSEX then
          let ep4 := { ep3 with type := MIDI_SYSEX, data_required := MIDI_SYSEX_MAX_MSG_SIZE }
          (ep4, if staged then some ep4.event else none)
        else if c = MIDI_SYSEX_EOX then
          let ep4 := { ep3 with type := 0 }
          (ep4, if staged then some ep4.event else none)
        else
          let ep4 := { ep3 with data_required := MIDI_SYSTYPE2LEN c }
          if 0 = ep4.data_required then
            vm_event_parse.flush_sys_event ep4 c
          else
            let ep5 := { ep4 with type := c }
            (ep5, if staged then some ep5.event else none)
  else
    -- Data/parameter byte.
    if 0 = ep.type then
      (ep, none)
    else if MIDI_SYSEX_MAX_MSG_SIZE ≤ ep.data_used then
      ({ ep with type := 0 }, none)
    else
      let ep1 := { ep with data := ep.data.set ep.data_used c, data_used := ep.data_used + 1 }
      if MIDI_SYSEX = ep1.type ∨ ep1.data_used < ep1.data_required then
        (ep1, none)
      else
        let ep2 := { ep1 with data_used := 0 }
        let ep3 := { ep2 with event := { vm_evt.zero with
            type := ep2.type, chan := ep2.chan, p1 := ep2.data.getD 0 0 } }
        if ep3.type = MIDI_NOTEOFF ∨ ep3.type = MIDI_NOTEON ∨
            ep3.type = MIDI_KEY_PRESSURE ∨ ep3.type = MIDI_CTL_CHANGE then
          let ep4 := { ep3 with event := { ep3.event with p2 := ep3.data.getD 1 0 } }
          (ep4, some ep4.event)
        else if ep3.type = MIDI_PGM_CHANGE ∨ ep3.type = MIDI_CHN_PRESSURE ∨
            ep3.type = MIDI_TIME_CODE ∨ ep3.type = MIDI_SONG_SELECT then
          (ep3, some ep3.event)
        else if ep3.type = MIDI_PITCH_BEND ∨ ep3.type = MIDI_SONG_POSITION then
          let ep4 := { ep3 with event := { ep3.event with
            p1 := (ep3.event.p1 ||| ((ep3.data.getD 1 0 <<< 7) % 2 ^ 32)) } }
          (ep4, some ep4.event)
        else
          (ep3, none)

/-- Feed the bytes `cs` to `vm_event_parse` one at a time, starting from `ep`.
Returns the final parser state and, per byte, what the call returned. -/
def parseBytes (ep : vm_ep) : List Nat → vm_ep × List (Option vm_evt)
  | [] => (ep, [])
  | c :: cs =>
    let r := vm_event_parse ep c
    let rest := parseBytes r.1 cs
    (rest.1, r.2 :: rest.2)

/-! ## vm_event_serialize -/

/-- The call `memcpy(&buf[off], src, n)`: byte `i` of `src` goes to `buf[off + i]`. -/
def memcpy (buf : List Nat) (off : Nat) (src : List Nat) (n : Nat) : List Nat :=
  (List.range n).foldl (fun b i => b.set (off + i) (src.getD i 0)) buf

/-- The part of `vm_event_serialize` below the comment "Do serialization...":
the stores into `buf`.  A store into `uint8_t` keeps the low 8 bits.  A store at
an index past the end of the list leaves the list unchanged (in C such a store
is out of bounds); the index `1 + evt->p1` is computed in `uint32_t`. -/
def vm_event_serialize.write (e : vm_evt) (buf : List Nat) : List Nat :=
  if MIDI_SYSEX > e.type then
    -- Channel messages.
    let b0 := buf.set 0 ((e.type ||| e.chan) % 256)
    let b1 := b0.set 1 ((0xF7 &&& e.p1) % 256)
    if e.type = MIDI_PGM_CHANGE ∨ e.type = MIDI_CHN_PRESSURE then
      b1
    else if e.type = MIDI_PITCH_BEND then
      b1.set 2 ((0xF7 &&& (e.p1 >>> 7)) % 256)
    else
      b1.set 2 ((0xF7 &&& e.p2) % 256)
  else
    -- System messages.
    let b0 := buf.set 0 e.type
    if e.type = MIDI_SYSEX then
      let b1 := memcpy b0 1 (e.ex_data.getD []) e.p1
      b1.set ((1 + e.p1) % 2 ^ 32) MIDI_SYSEX_EOX
    else if e.type = MIDI_TIME_CODE ∨ e.type = MIDI_SONG_SELECT then
      b0.set 1 ((0xF7 &&& e.p1) % 256)
    else if e.type = MIDI_SONG_POSITION then
      let b1 := b0.set 1 ((0xF7 &&& e.p1) % 256)
      b1.set 2 ((0xF7 &&& (e.p1 >>> 7)) % 256)
    else
      b0

/-- The required buffer size computed by `vm_event_serialize` (a `size_t`). -/
def vm_event_serialize.buf_size_req (e : vm_evt) : Nat :=
  if MIDI_SYSEX > e.type then
    (1 + MIDI_TYPE2LEN e.type) % 2 ^ 64
  else if MIDI_SYSEX = e.type then
    (1 + e.p1 + 1) % 2 ^ 64
  else
    (1 + MIDI_SYSTYPE2LEN e.type) % 2 ^ 64

/-- The C function `vm_event_serialize`.  The arguments are the event pointer, the
buffer pointer with the contents of the buffer, `buf_size`, and the pointer
`buf_size_ret` with the value it points at.  The result is the returned error
code, the buffer afterwards and the value at `buf_size_ret` afterwards. -/
def vm_event_serialize (evt : Option vm_evt) (buf : Option (List Nat)) (buf_size : Nat)
    (buf_size_ret : Option Nat) : Nat × Option (List Nat) × Option Nat :=
  match evt with
  | none => (EINVAL, buf, buf_size_ret)
  | some e =>
    if (buf = none ∧ 0 ≠ buf_size) ∨ buf_size_ret = none ∨
        (MIDI_SYSEX = e.type ∧ (e.ex_data = none ∨ 0 = e.p1)) ∨
        MIDI_SYSEX_EOX = e.type then
      (EINVAL, buf, buf_size_ret)
    else
      let buf_size_req := vm_event_serialize.buf_size_req e
      -- Store back required buf size.
      let ret := buf_size_ret.map (fun _ => buf_size_req)
      if buf_size < buf_size_req then
        (ENOBUFS, buf, ret)
      else
        (0, buf.map (vm_event_serialize.write e), ret)

/-- The bytes `vm_event_serialize` writes for `e` into a zero-filled buffer of
exactly the required size. -/
def serializedBytes (e : vm_evt) : List Nat :=
  let n := vm_event_serialize.buf_size_req e
  ((vm_event_serialize (some e) (some (List.replicate n 0)) n (some 0)).2.1).getD []

/-! ## Expected results, as the specification words them -/

/-- The channel event the specification expects from a status byte `s` followed by
the data bytes `g` of one message: type `s & 0xF0`, channel `s & 0x0F`,
`p1 = d0, p2 = d1` for note off/on, key pressure and control change,
`p1 = d0, p2 = 0` for program change and channel pressure, and
`p1 = d0 | (d1 << 7), p2 = 0` for pitch bend. -/
def chanEventOf (s : Nat) (g : List Nat) : vm_evt :=
  let ty := s &&& 0xF0
  { type := ty
    chan := s &&& 0x0F
    p1 := if ty = MIDI_PITCH_BEND then g.getD 0 0 ||| (g.getD 1 0 <<< 7) else g.getD 0 0
    p2 := if ty = MIDI_NOTEOFF ∨ ty = MIDI_NOTEON ∨ ty = MIDI_KEY_PRESSURE ∨
        ty = MIDI_CTL_CHANGE then g.getD 1 0 else 0
    ex_data := none }

/-- The bytes of a list of data-byte groups, in order. -/
def groupBytes : List (List Nat) → List Nat
  | [] => []
  | g :: gs => g ++ groupBytes gs

/-- What running status is expected to return for the data-byte groups `gs` after
the status byte `s`: nothing inside a group, one event at its last byte. -/
def runningStatusOutputs (s : Nat) : List (List Nat) → List (Option vm_evt)
  | [] => []
  | g :: gs =>
    List.replicate (g.length - 1) none ++ [some (chanEventOf s g)] ++
      runningStatusOutputs s gs

/-- The number of events among the results of successive calls. -/
def eventCount (outs : List (Option vm_evt)) : Nat :=
  (outs.filter Option.isSome).length

/-- A parser that has seen the channel status byte `s` and is at a message
boundary. -/
def atBoundary (ep : vm_ep) (s : Nat) : Prop :=
  ep.type = 0xF0 &&& s ∧ ep.chan = 0x0F &&& s ∧ ep.data_used = 0 ∧
    ep.data_required = MIDI_TYPE2LEN (0xF0 &&& s) ∧ 2 ≤ ep.data.length

/-- The length of a group of data bytes after the channel status byte `s`: 1 byte
for types 0xC0 and 0xD0 and 2 bytes otherwise. -/
def groupLen (s : Nat) : Nat :=
  if s &&& 0xF0 = 0xC0 ∨ s &&& 0xF0 = 0xD0 then 1 else 2

/-- The zero-payload event of type `c` (all other fields zero). -/
def zeroPayloadEvent (c : Nat) : vm_evt :=
  { type := c, chan := 0, p1 := 0, p2 := 0, ex_data := none }

/-- The SysEx event the specification expects when a SysEx of `n` accumulated
bytes is terminated: type 0xF0, `p1 = n`, `ex_data` pointing at the accumulator. -/
def sysexEventOf (n : Nat) (acc : List Nat) : vm_evt :=
  { type := 0xF0, chan := 0, p1 := n, p2 := 0, ex_data := some acc }

/-- The bytes the specification expects `vm_event_serialize` to write for a
channel message: `type | chan`, then the parameters masked with 0x7F
(`p1`, `p2` for two-parameter types, `p1` alone for program change and channel
pressure, `p1` and `p1 >> 7` for pitch bend). -/
def specChannelBytes (e : vm_evt) : List Nat :=
  if e.type = MIDI_PGM_CHANGE ∨ e.type = MIDI_CHN_PRESSURE then
    [e.type ||| e.chan, e.p1 &&& 0x7F]
  else if e.type = MIDI_PITCH_BEND then
    [e.type ||| e.chan, e.p1 &&& 0x7F, (e.p1 >>> 7) &&& 0x7F]
  else
    [e.type ||| e.chan, e.p1 &&& 0x7F, e.p2 &&& 0x7F]

/-! ## OSS sequencer device (src/virtual_oss_sequencer/dev_oss_sequencer.c)

Conventions of this part:
* The handle mutex is not modelled: one call runs at a time.
* `clock_gettime(CLOCK_MONOTONIC, p)` is an input of each call: `some now` stores
  `now` at `p`, `none` is a failed call that leaves `*p` as it was.
* `write(fd->devs[dev].fd, p, n)` is recorded, in call order, with the unit index
  `dev`, the `n` bytes offered and the result; the result is an input that may
  depend on the number `k` of calls recorded before, on the unit and on the bytes
  offered (`write_rc k dev bytes`, with `write_errno k` the value of `errno`
  after a failure).
* `clock_nanosleep` is recorded with its arguments; the loop that repeats it
  while it is interrupted is taken to end.
* `time_t` and `long` fields of `struct timespec` are integers without
  wrap-around; records are decoded on a little-endian machine.
-/

namespace Sequencer

/-- Value of `SEQ_MIDIPUTC` in sys/soundcard.h. -/
def SEQ_MIDIPUTC : Nat := 5
/-- Value of `EV_TIMING` in sys/soundcard.h. -/
def EV_TIMING : Nat := 0x81
/-- Value of `EV_CHN_COMMON` in sys/soundcard.h. -/
def EV_CHN_COMMON : Nat := 0x92
/-- Value of `EV_CHN_VOICE` in sys/soundcard.h. -/
def EV_CHN_VOICE : Nat := 0x93
/-- Value of `EV_SYSEX` in sys/soundcard.h. -/
def EV_SYSEX : Nat := 0x94
/-- Value of `SEQ_FULLSIZE` in sys/soundcard.h. -/
def SEQ_FULLSIZE : Nat := 0xfd
/-- Value of `TMR_WAIT_REL` in sys/soundcard.h. -/
def TMR_WAIT_REL : Nat := 1
/-- Value of `TMR_WAIT_ABS` in sys/soundcard.h. -/
def TMR_WAIT_ABS : Nat := 2
/-- Value of `TMR_STOP` in sys/soundcard.h. -/
def TMR_STOP : Nat := 3
/-- Value of `TMR_START` in sys/soundcard.h. -/
def TMR_START : Nat := 4
/-- Value of `TMR_CONTINUE` in sys/soundcard.h. -/
def TMR_CONTINUE : Nat := 5
/-- Value of `TMR_TEMPO` in sys/soundcard.h. -/
def TMR_TEMPO : Nat := 6
def TMR_TIMERBASE : Nat := 15
def VM_WRITE_BUF_SZ : Nat := 4096

/-- The C struct `timespec`. -/
structure timespec where
  tv_sec : Int
  tv_nsec : Int
  deriving DecidableEq, Repr

/-- The macro `timespecisset(tvp)` of sys/time.h: `tv_sec || tv_nsec`. -/
def timespecisset (t : timespec) : Bool :=
  decide (t.tv_sec ≠ 0 ∨ t.tv_nsec ≠ 0)

/-- The value stored by the macro `timespecclear(tvp)` of sys/time.h. -/
def timespecclear : timespec :=
  { tv_sec := 0, tv_nsec := 0 }

/-- The macro `timespecsub(tsp, usp, vsp)` of sys/time.h: the value stored at
`vsp`, which is `*tsp - *usp` with the nanoseconds brought back to be
non-negative. -/
def timespecsub (tsp usp : timespec) : timespec :=
  let sec := tsp.tv_sec - usp.tv_sec
  let nsec := tsp.tv_nsec - usp.tv_nsec
  if nsec < 0 then { tv_sec := sec - 1, tv_nsec := nsec + 1000000000 }
  else { tv_sec := sec, tv_nsec := nsec }

/-- The macro `timespecadd(tsp, usp, vsp)` of sys/time.h: the value stored at
`vsp`. -/
def timespecadd (tsp usp : timespec) : timespec :=
  let sec := tsp.tv_sec + usp.tv_sec
  let nsec := tsp.tv_nsec + usp.tv_nsec
  if nsec ≥ 1000000000 then { tv_sec := sec + 1, tv_nsec := nsec - 1000000000 }
  else { tv_sec := sec, tv_nsec := nsec }

/-- A `timespec` as a number of nanoseconds. -/
def timespec.toNs (t : timespec) : Int :=
  t.tv_sec * 1000000000 + t.tv_nsec

/-- A `timespec` whose nanoseconds are in `0 .. 999999999`. -/
def timespec.normal (t : timespec) : Prop :=
  0 ≤ t.tv_nsec ∧ t.tv_nsec < 1000000000

instance (t : timespec) : Decidable t.normal := by
  unfold timespec.normal; infer_instance

/-- The C struct `virt_midi_oss_sequencer_fd_ctx_s`, without the mutex.  Of the
array `devs` only the length `devs_count` is kept: a unit is named by its
index. -/
structure vm_fd where
  open_fflags : Int
  tx_busy : Int
  timer_start : timespec
  timer_stop_diff : timespec
  timer_base : Nat
  timer_tempo : Nat
  devs_count : Nat
  deriving DecidableEq, Repr

/-- One call `write(fd->devs[dev].fd, p, n)`: the unit, the `n` bytes at `p` and
the value returned. -/
structure WriteCall where
  dev : Nat
  bytes : List Nat
  rc : Int
  deriving DecidableEq, Repr

/-- One call `clock_nanosleep(CLOCK_MONOTONIC, flags, &when, &when)`:
`wait_abs` tells whether `flags` is `TIMER_ABSTIME`. -/
structure SleepCall where
  wait_abs : Bool
  when : timespec
  deriving DecidableEq, Repr

/-- The calls made so far, oldest first. -/
structure World where
  writes : List WriteCall
  sleeps : List SleepCall
  deriving DecidableEq, Repr

/-- No call made yet. -/
def World.empty : World :=
  { writes := [], sleeps := [] }

/-- What the operating system answers during one call of the handler. -/
structure Env where
  clock : Option timespec
  write_rc : Nat → Nat → List Nat → Int
  write_errno : Nat → Nat

/-- The call `write(fd->devs[dev].fd, p, n)` with `bytes` the `n` bytes at `p`:
the value returned and the world afterwards. -/
def sys_write (env : Env) (dev : Nat) (bytes : List Nat) (w : World) : Int × World :=
  let rc := env.write_rc w.writes.length dev bytes
  (rc, { w with writes := w.writes ++ [{ dev := dev, bytes := bytes, rc := rc }] })

/-- The bytes that unit `dev` has accepted: for each recorded call on that unit
with a positive result `rc`, the first `rc` bytes offered. -/
def World.writtenTo (w : World) (dev : Nat) : List Nat :=
  w.writes.foldr (fun c acc =>
    if c.dev = dev ∧ 0 < c.rc then c.bytes.take c.rc.toNat ++ acc else acc) []

/-- The `for` loop of `vm_backend_event_write`, started at index `i`; `none` when
the loop has not ended within `fuel` iterations.  The conversion `(size_t)rc` is
taken modulo `2 ^ 64`. -/
def vm_backend_event_write.loop (env : Env) (dev : Nat) (buf : List Nat) (buf_size : Nat) :
    Nat → Nat → World → Option (Nat × World)
  | 0, _, _ => none
  | fuel + 1, i, w =>
    if i < buf_size then
      let k := w.writes.length
      let r := sys_write env dev ((buf.drop i).take (buf_size - i)) w
      if r.1 = -1 then
        some (env.write_errno k, r.2)
      else
        vm_backend_event_write.loop env dev buf buf_size fuel
          (((i : Int) + r.1) % 2 ^ 64).toNat r.2
    else
      some (0, w)

/-- The C function `vm_backend_event_write`; the local buffer of
`MIDI_SYSEX_MAX_MSG_SIZE + 8` bytes starts zero-filled. -/
def vm_backend_event_write (env : Env) (fuel : Nat) (fd : Option vm_fd) (dev : Nat)
    (evt : Option vm_evt) (w : World) : Option (Nat × World) :=
  match fd, evt with
  | some f, some e =>
    if dev ≥ f.devs_count then
      some (EINVAL, w)
    else
      let buf := List.replicate (MIDI_SYSEX_MAX_MSG_SIZE + 8) 0
      let r := vm_event_serialize (some e) (some buf) (MIDI_SYSEX_MAX_MSG_SIZE + 8) (some 0)
      if 0 ≠ r.1 then
        some (r.1, w)
      else
        vm_backend_event_write.loop env dev (r.2.1.getD []) (r.2.2.getD 0) fuel 0 w
  | _, _ => some (EINVAL, w)

/-- The C function `vm_time_get`: the new handle and the value returned.  The
call `timespecsub(&now, &now, &fd->timer_start)` stores `now - now` in
`fd->timer_start` and leaves `now` as it is. -/
def vm_time_get (clock : Option timespec) (fd : vm_fd) : vm_fd × Nat :=
  match clock with
  | none => (fd, 0)
  | some now =>
    let fd1 := { fd with timer_start := timespecsub now now }
    let ret0 := (now.tv_sec * 1000000000 % 2 ^ 64).toNat
    let ret1 := ((ret0 + (now.tv_nsec % 2 ^ 64).toNat)) % 2 ^ 64
    let ret2 := (ret1 * fd1.timer_base) % 2 ^ 64
    let ret3 := ret2 / 1000000000
    (fd1, ret3)

/-- The value `tmp` computed by `vm_timer_wait`, in `uint64_t` arithmetic
(a division by zero is given the value 0). -/
def vm_timer_wait.tmp (fd : vm_fd) (ticks : Nat) : Nat :=
  ((ticks * 60 * 1000000000) % 2 ^ 64) / ((fd.timer_tempo * fd.timer_base) % 2 ^ 64)

/-- The `timespec` named `when` that `vm_timer_wait` builds from `tmp`. -/
def vm_timer_wait.when (fd : vm_fd) (ticks : Nat) : timespec :=
  { tv_sec := (vm_timer_wait.tmp fd ticks / 1000000000 : Nat),
    tv_nsec := (vm_timer_wait.tmp fd ticks % 1000000000 : Nat) }

/-- The C function `vm_timer_wait`: the world after the sleep, if any. -/
def vm_timer_wait (fd : vm_fd) (ticks : Nat) (wait_abs : Int) (w : World) : World :=
  let when := vm_timer_wait.when fd ticks
  if 0 ≠ wait_abs then
    if ¬ timespecisset fd.timer_start then
      w
    else
      { w with sleeps := w.sleeps ++
          [{ wait_abs := true, when := timespecadd when fd.timer_start }] }
  else
    { w with sleeps := w.sleeps ++ [{ wait_abs := false, when := when }] }

/-- The call `memcpy(&param, &pbuf[4], sizeof(param))` for a `uint32_t`. -/
def load_u32 (pbuf : List Nat) (off : Nat) : Nat :=
  pbuf.getD off 0 + pbuf.getD (off + 1) 0 * 2 ^ 8 + pbuf.getD (off + 2) 0 * 2 ^ 16 +
    pbuf.getD (off + 3) 0 * 2 ^ 24

/-- The call `memcpy(&w14, &pbuf[6], sizeof(w14))` for a `uint16_t`. -/
def load_u16 (pbuf : List Nat) (off : Nat) : Nat :=
  pbuf.getD off 0 + pbuf.getD (off + 1) 0 * 2 ^ 8

/-- The four bytes of a `uint32_t` in memory order. -/
def store_u32 (v : Nat) : List Nat :=
  [v % 256, v / 2 ^ 8 % 256, v / 2 ^ 16 % 256, v / 2 ^ 24 % 256]

/-- The `case EV_TIMING` branch of `vm_sequencer_event_handle`: the inner
`switch (pbuf[1])`. -/
def vm_sequencer_event_handle.timing (env : Env) (fd : vm_fd) (pbuf : List Nat)
    (w : World) : vm_fd × World :=
  let sub := pbuf.getD 1 0
  if sub = TMR_WAIT_REL then
    let param := load_u32 pbuf 4
    (fd, vm_timer_wait fd param 0 w)
  else if sub = TMR_WAIT_ABS then
    let param := load_u32 pbuf 4
    (fd, vm_timer_wait fd param 1 w)
  else if sub = TMR_STOP then
    if ¬ timespecisset fd.timer_start ∨ timespecisset fd.timer_stop_diff then
      (fd, w)
    else
      let fd1 := { fd with timer_stop_diff := env.clock.getD fd.timer_stop_diff }
      ({ fd1 with timer_stop_diff := timespecsub fd1.timer_stop_diff fd1.timer_start }, w)
  else if sub = TMR_START then
    ({ fd with timer_start := env.clock.getD fd.timer_start }, w)
  else if sub = TMR_CONTINUE then
    if timespecisset fd.timer_stop_diff then
      (fd, w)
    else
      let fd1 := { fd with timer_start := env.clock.getD fd.timer_start }
      let fd2 := { fd1 with timer_start := timespecsub fd1.timer_start fd1.timer_stop_diff }
      ({ fd2 with timer_stop_diff := timespecclear }, w)
  else if sub = TMR_TEMPO then
    let param := load_u32 pbuf 4
    let param := if 8 > param then 8 else if 360 < param then 360 else param
    ({ fd with timer_tempo := param }, w)
  else if sub = TMR_TIMERBASE then
    let param := load_u32 pbuf 4
    let param := if 1 > param then 1 else if 1000 < param then 1000 else param
    ({ fd with timer_base := param }, w)
  else
    (fd, w)

/-- The loop `for (param = 0; param < 6 && 0xff != pbuf[2 + param]; param ++)` of
the `case EV_SYSEX` branch, started at `param`: the final value of `param`. -/
def vm_sequencer_event_handle.sysex_len (pbuf : List Nat) (param : Nat) : Nat :=
  if param < 6 ∧ 0xff ≠ pbuf.getD (2 + param) 0 then
    vm_sequencer_event_handle.sysex_len pbuf (param + 1)
  else param
termination_by 6 - param

/-- The C function `vm_sequencer_event_handle`: the value returned, the handle
and the world afterwards; `none` when a downstream write loop has not ended within
`fuel` iterations. -/
def vm_sequencer_event_handle (env : Env) (fuel : Nat) (fd : Option vm_fd)
    (buf : Option (List Nat)) (buf_size : Nat) (w : World) :
    Option (Nat × Option vm_fd × World) :=
  match fd, buf with
  | some f, some pbuf =>
    if 0 = buf_size then
      some (buf_size, some f, w)
    else
      let ev_size := if 128 ≤ pbuf.getD 0 0 then 8 else 4
      if buf_size < ev_size then
        some (buf_size, some f, w)
      else
        let op := pbuf.getD 0 0
        if op = SEQ_MIDIPUTC then
          let dev := pbuf.getD 2 0
          if f.devs_count ≤ dev then
            some (ev_size, some f, w)
          else
            let p1 := pbuf.getD 1 0
            let r := sys_write env dev [p1] w
            some (ev_size, some f, r.2)
        else if op = EV_TIMING then
          let r := vm_sequencer_event_handle.timing env f pbuf w
          some (ev_size, some r.1, r.2)
        else if op = EV_CHN_COMMON then
          let dev := pbuf.getD 1 0
          if f.devs_count ≤ dev then
            some (ev_size, some f, w)
          else
            let mevt : vm_evt := { vm_evt.zero with
              type := pbuf.getD 2 0, chan := pbuf.getD 3 0, p1 := pbuf.getD 4 0 }
            if mevt.type = MIDI_CTL_CHANGE then
              let mevt1 := { mevt with p2 := load_u16 pbuf 6 }
              (vm_backend_event_write env fuel (some f) dev (some mevt1) w).map
                (fun r => (ev_size, some f, r.2))
            else if mevt.type = MIDI_PGM_CHANGE ∨ mevt.type = MIDI_CHN_PRESSURE then
              (vm_backend_event_write env fuel (some f) dev (some mevt) w).map
                (fun r => (ev_size, some f, r.2))
            else if mevt.type = MIDI_PITCH_BEND then
              let mevt1 := { mevt with p1 := load_u16 pbuf 6 }
              (vm_backend_event_write env fuel (some f) dev (some mevt1) w).map
                (fun r => (ev_size, some f, r.2))
            else
              some (ev_size, some f, w)
        else if op = EV_CHN_VOICE then
          let dev := pbuf.getD 1 0
          if f.devs_count ≤ dev then
            some (ev_size, some f, w)
          else
            let mevt : vm_evt := { vm_evt.zero with
              type := pbuf.getD 2 0, chan := pbuf.getD 3 0, p1 := pbuf.getD 4 0,
              p2 := pbuf.getD 5 0 }
            if mevt.type = MIDI_NOTEOFF ∨ mevt.type = MIDI_NOTEON ∨
                mevt.type = MIDI_KEY_PRESSURE then
              (vm_backend_event_write env fuel (some f) dev (some mevt) w).map
                (fun r => (ev_size, some f, r.2))
            else
              some (ev_size, some f, w)
        else if op = EV_SYSEX then
          let dev := pbuf.getD 1 0
          if f.devs_count ≤ dev then
            some (ev_size, some f, w)
          else
            let param := vm_sequencer_event_handle.sysex_len pbuf 0
            let mevt : vm_evt := { vm_evt.zero with
              type := MIDI_SYSEX, p1 := param, ex_data := some (pbuf.drop 2) }
            (vm_backend_event_write env fuel (some f) dev (some mevt) w).map
              (fun r => (ev_size, some f, r.2))
        else if op = SEQ_FULLSIZE then
          some (buf_size, some f, w)
        else
          some (ev_size, some f, w)
  | _, _ => some (buf_size, fd, w)

/-- The answers of an operating system whose `write` accepts all bytes offered. -/
def Env.acceptAll (clock : Option timespec) : Env :=
  { clock := clock, write_rc := fun _ _ bytes => bytes.length, write_errno := fun _ => 0 }

/-- Every `write` of at least one byte either fails with `-1` or accepts at least
one and at most all of the bytes offered. -/
def Env.wellBehaved (env : Env) : Prop :=
  ∀ k dev bytes, bytes ≠ [] →
    env.write_rc k dev bytes = -1 ∨
      (1 ≤ env.write_rc k dev bytes ∧ env.write_rc k dev bytes ≤ bytes.length)

/-- The 8-byte `EV_TIMING` record with sub-operation `sub` and parameter `param`. -/
def timingRecord (sub param : Nat) : List Nat :=
  [EV_TIMING, sub, 0, 0] ++ store_u32 param

/-- The handle after `vm_sequencer_event_handle` has processed the timing record
`timingRecord sub param` while the monotonic clock reads `now`. -/
def handleTiming (now : timespec) (sub param : Nat) (fd : Option vm_fd) : Option vm_fd :=
  match vm_sequencer_event_handle (Env.acceptAll (some now)) 0 fd
      (some (timingRecord sub param)) 8 World.empty with
  | some r => r.2.1
  | none => none

/-- The handle state set by the sequencer's `vm_open` (`calloc`, then
`timer_base = 100` and `timer_tempo = 60`) with `n` downstream units. -/
def vm_fd.opened (fflags : Int) (n : Nat) : vm_fd :=
  { open_fflags := fflags, tx_busy := 0, timer_start := timespecclear,
    timer_stop_diff := timespecclear, timer_base := 100, timer_tempo := 60,
    devs_count := n }

end Sequencer

/-! ## MIDI device: vm_write (src/virtual_midi/dev_midi.c)

The handle mutex is not modelled.  `cuse_copy_in` and `vm_backend_event_handle`
are inputs: the result of the `k`-th call of each is given by `copy_in k` and
`backend k evt`. -/

namespace DevMidi

/-- Value of `CUSE_ERR_BUSY` in cuse_defs.h. -/
def CUSE_ERR_BUSY : Int := -1
/-- Value of `CUSE_ERR_INVALID` in cuse_defs.h. -/
def CUSE_ERR_INVALID : Int := -3
/-- Value of `EOPNOTSUPP` in the system header errno.h (FreeBSD numbering). -/
def EOPNOTSUPP : Int := 45
/-- Value of `EIO` in the system header errno.h. -/
def EIO : Int := 5
def VM_WRITE_BUF_SZ : Nat := 4096

/-- The C struct `virt_midi_fd_ctx_s`, without the mutex; `dev`, `synth` and
`adriver` are pointers, kept as numbers. -/
structure vm_fd where
  dev : Nat
  synth : Nat
  adriver : Nat
  open_fflags : Int
  tx_busy : Int
  parser : vm_ep
  deriving DecidableEq, Repr

/-- What `cuse_copy_in` and the synth backend answer during one `vm_write`. -/
structure WriteEnv where
  copy_in : Nat → Int
  backend : Nat → vm_evt → Int

/-- What one `vm_write` has done so far: the number of `cuse_copy_in` calls, the
bytes passed to `vm_event_parse` and the events passed to
`vm_backend_event_handle`, oldest first. -/
structure WriteLog where
  copies : Nat
  fed : List Nat
  handled : List vm_evt
  deriving DecidableEq, Repr

/-- Nothing done yet. -/
def WriteLog.empty : WriteLog :=
  { copies := 0, fed := [], handled := [] }

/-- The conversion of a `size_t` to `int`: the low 32 bits, as a signed number. -/
def int_of_size (n : Nat) : Int :=
  if n % 2 ^ 32 < 2 ^ 31 then (n % 2 ^ 32 : Nat) else ((n % 2 ^ 32 : Nat) : Int) - 2 ^ 32

/-- The conversion of an `int` to `size_t`. -/
def size_of_int (x : Int) : Nat :=
  (x % 2 ^ 64).toNat

/-- The inner loop `for (size_t j = 0; j < buf_size; j ++)` of `vm_write` over the
bytes of the chunk still to be read: the parser and the log afterwards, and
whether the loop was left by the `break` that follows
`retval = CUSE_ERR_INVALID`. -/
def vm_write.inner (env : WriteEnv) : List Nat → vm_ep → WriteLog → vm_ep × WriteLog × Bool
  | [], ep, log => (ep, log, false)
  | c :: cs, ep, log =>
    let r := vm_event_parse ep c
    let log1 := { log with fed := log.fed ++ [c] }
    match r.2 with
    | none => vm_write.inner env cs r.1 log1
    | some evt =>
      let error := env.backend log1.handled.length evt
      let log2 := { log1 with handled := log1.handled ++ [evt] }
      if 0 ≠ error ∧ EOPNOTSUPP ≠ error then
        (r.1, log2, true)
      else
        vm_write.inner env cs r.1 log2

/-- The outer loop `for (size_t i = 0; i < (size_t)len; i += sizeof(buf))` of
`vm_write`, started at `i` with the current `retval`; `peer` is the memory at
`peer_ptr`, which holds at least `len` bytes. -/
def vm_write.outer (env : WriteEnv) (peer : List Nat) (len : Nat) (i : Nat) (fd : vm_fd)
    (retval : Int) (log : WriteLog) : vm_fd × Int × WriteLog :=
  if h : i < len then
    let buf_size := min VM_WRITE_BUF_SZ (len - i)
    let error := env.copy_in log.copies
    let buf := (peer.drop i).take buf_size
    let log1 := { log with copies := log.copies + 1 }
    let fd1 := { fd with tx_busy := 0 }
    if error ≠ 0 then
      (fd1, error, log1)
    else
      let r := vm_write.inner env buf fd1.parser log1
      let retval1 := if r.2.2 then CUSE_ERR_INVALID else retval
      let retval2 := int_of_size ((size_of_int retval1 + buf_size) % 2 ^ 64)
      vm_write.outer env peer len (i + VM_WRITE_BUF_SZ) { fd1 with parser := r.1 } retval2 r.2.1
  else
    (fd, retval, log)
termination_by len - i
decreasing_by
  simp only [VM_WRITE_BUF_SZ]
  omega

/-- The C function `vm_write` of the MIDI device for a non-negative `len`: the
handle afterwards, the value returned and the log of the call. -/
def vm_write (env : WriteEnv) (fd : Option vm_fd) (peer : List Nat) (len : Nat) :
    Option vm_fd × Int × WriteLog :=
  match fd with
  | none => (none, CUSE_ERR_INVALID, WriteLog.empty)
  | some f =>
    if f.tx_busy ≠ 0 then
      (some f, CUSE_ERR_BUSY, WriteLog.empty)
    else
      let r := vm_write.outer env peer len 0 f 0 WriteLog.empty
      (some r.1, r.2.1, r.2.2)

/-- Every `cuse_copy_in` succeeds and every `vm_backend_event_handle` returns
`err`. -/
def WriteEnv.const (err : Int) : WriteEnv :=
  { copy_in := fun _ => 0
    backend := fun _ _ => err }

/-- A freshly opened MIDI device handle (`calloc`, so the parser is
zero-initialised). -/
def vm_fd.opened (dev synth adriver : Nat) (fflags : Int) : vm_fd :=
  { dev := dev, synth := synth, adriver := adriver, open_fflags := fflags, tx_busy := 0,
    parser := vm_ep.zero }

end DevMidi

/-! ## Synth backend dispatch (src/virtual_midi/midi_backend_fluidsynth.c)

The synthesizer library is an input: `fluid evt` tells whether the library call
made for `evt` returns `FLUID_OK`. -/

namespace DevMidi

def MIDI_SYSTEM_RESET : Nat := 0xFF

/-- The C function `vm_backend_event_handle`; `bsynth` is the synth pointer. -/
def vm_backend_event_handle (fluid : vm_evt → Bool) (bsynth : Option Nat)
    (evt : Option vm_evt) : Int :=
  match bsynth, evt with
  | some _, some e =>
    if e.type = MIDI_NOTEOFF ∨ e.type = MIDI_NOTEON ∨ e.type = MIDI_KEY_PRESSURE ∨
        e.type = MIDI_CTL_CHANGE ∨ e.type = MIDI_PGM_CHANGE ∨ e.type = MIDI_CHN_PRESSURE ∨
        e.type = MIDI_PITCH_BEND ∨ e.type = MIDI_SYSEX ∨ e.type = MIDI_SYSTEM_RESET then
      if fluid e then 0 else EIO
    else if 0xF8 ≤ e.type then
      EOPNOTSUPP
    else
      (EDOM : Int)
  | _, _ => (EINVAL : Int)

/-- The answers of a backend that is `vm_backend_event_handle` on a synth whose
every library call returns `FLUID_OK`, with every `cuse_copy_in` succeeding. -/
def WriteEnv.fluidOk : WriteEnv :=
  { copy_in := fun _ => 0
    backend := fun _ e => vm_backend_event_handle (fun _ => true) (some 1) (some e) }

/-! ## MIDI device record, open and close (src/virtual_midi/dev_midi.c)

Memory is followed by hand: `calloc`, `free` and the backend constructors and
destructors are recorded, and their results are inputs. -/

/-- Value of `CUSE_ERR_NO_MEMORY` in cuse_defs.h. -/
def CUSE_ERR_NO_MEMORY : Int := -4
def VM_MAX_DEV_UNIT : Nat := 16

/-- The C struct `virt_midi_dev_ctx_s` without `descr`, together with what has
happened to its memory: `freed` is set by `free(dev)` and `settings_freed` by
`vm_backend_settings_free(dev->settings)`. -/
structure vm_dev where
  pdev : Option Nat
  settings : Option Nat
  ref_cnt : Int
  freed : Bool
  settings_freed : Bool
  deriving DecidableEq, Repr

/-- The C function `vm_dev_free`. -/
def vm_dev_free (dev : Option vm_dev) : Option vm_dev :=
  match dev with
  | none => none
  | some d =>
    let d1 := { d with ref_cnt := d.ref_cnt - 1 }
    if 0 < d1.ref_cnt then
      some d1
    else
      some { d1 with settings_freed := true, freed := true }

/-- What the system answers during `vm_dev_midi_create`: whether `calloc`
succeeds, the result of `vm_backend_settings_new` and the result of
`cuse_dev_create` for each unit number. -/
structure CreateEnv where
  calloc_ok : Bool
  settings_new : Option Nat
  cuse_dev_create : Nat → Option Nat

/-- The loop `for (int i = 0; i < VM_MAX_DEV_UNIT && NULL == dev->pdev; i ++)` of
`vm_dev_midi_create`, with `n` unit numbers left to try from `i`. -/
def vm_dev_midi_create.loop (env : CreateEnv) : Nat → Nat → Option Nat → Option Nat
  | 0, _, pdev => pdev
  | n + 1, i, pdev =>
    if pdev = none then
      vm_dev_midi_create.loop env n (i + 1) (env.cuse_dev_create i)
    else pdev

/-- The C function `vm_dev_midi_create` for non-NULL `dname` and `opts`: the value
returned and the device record, if one was allocated. -/
def vm_dev_midi_create (env : CreateEnv) : Option Nat × Option vm_dev :=
  if ¬ env.calloc_ok then
    (none, none)
  else
    let dev : vm_dev :=
      { pdev := none, settings := none, ref_cnt := 0, freed := false, settings_freed := false }
    let dev1 := { dev with settings := env.settings_new }
    if dev1.settings = none then
      (none, vm_dev_free (some dev1))
    else
      let dev2 := { dev1 with pdev := vm_dev_midi_create.loop env VM_MAX_DEV_UNIT 0 dev1.pdev }
      if dev2.pdev = none then
        (none, vm_dev_free (some dev2))
      else
        let dev3 := { dev2 with ref_cnt := dev2.ref_cnt + 1 }
        (dev3.pdev, some dev3)

/-- The C function `vm_dev_midi_destroy`, up to the call of `cuse_dev_destroy`;
`dev` is `cuse_dev_get_priv0(pdev)`. -/
def vm_dev_midi_destroy (dev : Option vm_dev) : Option vm_dev :=
  match dev with
  | none => none
  | some d =>
    let d1 := { d with pdev := none }
    let d2 := { d1 with ref_cnt := d1.ref_cnt - 1 }
    vm_dev_free (some d2)

/-- A resource taken or given back by `vm_open` and `vm_close`. -/
inductive Res where
  | handle_mem
  | mutex
  | synth (p : Nat)
  | adriver (p : Nat)
  deriving DecidableEq, Repr

/-- What the system answers during `vm_open`: whether `calloc` succeeds, the
value of `pthread_mutex_init`, and the results of `vm_backend_synth_new` and
`vm_backend_audio_driver_new`. -/
structure OpenEnv where
  calloc_ok : Bool
  mutex_init : Int
  synth_new : Option Nat
  adriver_new : Option Nat

/-- The outcome of `vm_open` or `vm_close`: the value returned, the device record,
the per-file handle installed with `cuse_dev_set_per_file_handle`, and the
resources taken and given back, oldest first. -/
structure OpenResult where
  ret : Int
  dev : vm_dev
  per_file_handle : Option vm_fd
  acquired : List Res
  released : List Res
  deriving DecidableEq, Repr

/-- The C function `vm_open`; `dev` is the record at `cuse_dev_get_priv0(pdev)`
and `devp` its address. -/
def vm_open (env : OpenEnv) (dev : vm_dev) (devp : Nat) (fflags : Int) : OpenResult :=
  if ¬ env.calloc_ok then
    { ret := CUSE_ERR_NO_MEMORY, dev := dev, per_file_handle := none,
      acquired := [], released := [] }
  else if 0 ≠ env.mutex_init then
    -- err_out_mtx
    { ret := CUSE_ERR_NO_MEMORY, dev := dev, per_file_handle := none,
      acquired := [Res.handle_mem], released := [Res.handle_mem] }
  else
    match env.synth_new with
    | none =>
      -- err_out
      { ret := CUSE_ERR_NO_MEMORY, dev := dev, per_file_handle := none,
        acquired := [Res.handle_mem, Res.mutex],
        released := [Res.mutex, Res.handle_mem] }
    | some s =>
      match env.adriver_new with
      | none =>
        -- goto err_out
        { ret := CUSE_ERR_NO_MEMORY, dev := dev, per_file_handle := none,
          acquired := [Res.handle_mem, Res.mutex, Res.synth s],
          released := [Res.mutex, Res.handle_mem] }
      | some a =>
        { ret := 0, dev := { dev with ref_cnt := dev.ref_cnt + 1 },
          per_file_handle := some
            { dev := devp, synth := s, adriver := a, open_fflags := fflags, tx_busy := 0,
              parser := vm_ep.zero },
          acquired := [Res.handle_mem, Res.mutex, Res.synth s, Res.adriver a],
          released := [] }

/-- The C function `vm_close`; `fd` is the per-file handle and `dev` the record at
`fd->dev`. -/
def vm_close (fd : Option vm_fd) (dev : vm_dev) : OpenResult :=
  match fd with
  | none =>
    { ret := CUSE_ERR_INVALID, dev := dev, per_file_handle := none,
      acquired := [], released := [] }
  | some f =>
    { ret := 0, dev := (vm_dev_free (some dev)).getD dev, per_file_handle := none,
      acquired := [],
      released := [Res.adriver f.adriver, Res.synth f.synth, Res.mutex, Res.handle_mem] }

/-- The resources `vm_open` has taken and not given back. -/
def OpenResult.leaked (r : OpenResult) : List Res :=
  r.acquired.filter (fun x => decide (x ∉ r.released))

/-- Every step of `vm_dev_midi_create` and `vm_open` succeeds. -/
def CreateEnv.ok : CreateEnv :=
  { calloc_ok := true
    settings_new := some 1
    cuse_dev_create := fun _ => some 2 }

/-- The record made by `vm_dev_midi_create` when every step succeeds. -/
def createdDev : vm_dev :=
  (vm_dev_midi_create CreateEnv.ok).2.getD
    { pdev := none, settings := none, ref_cnt := 0, freed := true, settings_freed := true }

/-- An operation on an existing MIDI device record. -/
inductive DevOp where
  | open (env : OpenEnv)
  | close
  | destroy

/-- The device record and the handles opened on it that are not yet closed. -/
structure DevSys where
  dev : vm_dev
  handles : List vm_fd
  deriving DecidableEq, Repr

/-- One operation: `vm_open`, `vm_close` of the handle opened first among those
still open (nothing happens when none is open), or `vm_dev_midi_destroy`. -/
def DevSys.step (s : DevSys) : DevOp → DevSys
  | DevOp.open env =>
    let r := vm_open env s.dev 0 0
    match r.per_file_handle with
    | some f => { dev := r.dev, handles := s.handles ++ [f] }
    | none => { s with dev := r.dev }
  | DevOp.close =>
    match s.handles with
    | [] => s
    | f :: rest => { dev := (vm_close (some f) s.dev).dev, handles := rest }
  | DevOp.destroy =>
    { s with dev := (vm_dev_midi_destroy (some s.dev)).getD s.dev }

/-- The operations `ops` in order. -/
def DevSys.run (s : DevSys) (ops : List DevOp) : DevSys :=
  ops.foldl DevSys.step s

/-- An `OpenEnv` in which every step of `vm_open` succeeds. -/
def OpenEnv.ok : OpenEnv :=
  { calloc_ok := true, mutex_init := 0, synth_new := some 3, adriver_new := some 4 }

end DevMidi

/-! ## Command line of the sequencer server
(src/virtual_oss_sequencer/virtual_oss_sequencer.c)

`getopt_long_only` and `atoi` are inputs: a command line is given as the results
of the successive calls of `getopt_long_only` that do not return -1. -/

namespace SeqCli

def CLO_PREFIX_COUNT_MAX : Nat := 32

/-- The C struct `command_line_options_s`; the array field is named
`prefix_arr` here. -/
structure cmd_opts where
  daemon : Int
  pid : Option String
  threads : Int
  vdev : Option String
  prefix_arr : List (Option String)
  prefix_count : Nat
  deriving DecidableEq, Repr

/-- The C struct `option` of getopt.h, with `has_name` telling whether `name` is
not `NULL`. -/
structure option where
  has_name : Bool
  has_arg : Int
  val : Int
  deriving DecidableEq, Repr

/-- The table `long_options`: help, daemon, pid, threads, vdev, prefix and the
terminating entry; `val` is the character code of the short option. -/
def long_options : List option :=
  [ { has_name := true, has_arg := 0, val := 63 },
    { has_name := true, has_arg := 0, val := 100 },
    { has_name := true, has_arg := 1, val := 112 },
    { has_name := true, has_arg := 1, val := 116 },
    { has_name := true, has_arg := 1, val := 86 },
    { has_name := true, has_arg := 1, val := 80 },
    { has_name := false, has_arg := 0, val := 0 } ]

/-- One return of `getopt_long_only` other than -1: the value returned, the
value left in `opt_idx` (-1 for a short option), `optarg`, and what `atoi(optarg)`
would return. -/
structure GetoptResult where
  ch : Int
  opt_idx : Int
  optarg : Option String
  optarg_atoi : Int
  deriving DecidableEq, Repr

/-- The loop `for (opt_idx = 0; NULL != opts[opt_idx].name; opt_idx ++)` of
`case -1`: the index at which `ch == opts[opt_idx].val`, if any. -/
def cmd_opts_parse.lookup (ch : Int) : List option → Nat → Option Nat
  | [], _ => none
  | o :: rest, idx =>
    if ¬ o.has_name then none
    else if ch = o.val then some idx
    else cmd_opts_parse.lookup ch rest (idx + 1)

/-- The `switch (opt_idx)` of `cmd_opts_parse` for an index that is not -1:
`Except.error e` is `return (e)`. -/
def cmd_opts_parse.option_case (opt_idx : Int) (g : GetoptResult) (o : cmd_opts) :
    Except Nat cmd_opts :=
  if opt_idx = 0 then
    Except.error EINVAL
  else if opt_idx = 1 then
    Except.ok { o with daemon := 1 }
  else if opt_idx = 2 then
    Except.ok { o with pid := g.optarg }
  else if opt_idx = 3 then
    Except.ok { o with threads := g.optarg_atoi }
  else if opt_idx = 4 then
    Except.ok { o with vdev := g.optarg }
  else if opt_idx = 5 then
    if CLO_PREFIX_COUNT_MAX ≥ o.prefix_count then
      -- "Can not add more prefixies": break
      Except.ok o
    else
      Except.ok { o with prefix_arr := o.prefix_arr.set o.prefix_count g.optarg,
                         prefix_count := o.prefix_count + 1 }
  else
    Except.error EINVAL

/-- The body of the `while` loop of `cmd_opts_parse` for one return of
`getopt_long_only`. -/
def cmd_opts_parse.step (opts : List option) (g : GetoptResult) (o : cmd_opts) :
    Except Nat cmd_opts :=
  if g.opt_idx = -1 then
    match cmd_opts_parse.lookup g.ch opts 0 with
    | some idx => cmd_opts_parse.option_case idx g o
    | none => Except.ok o
  else
    cmd_opts_parse.option_case g.opt_idx g o

/-- The `while` loop of `cmd_opts_parse` over the returns of
`getopt_long_only`. -/
def cmd_opts_parse.loop (opts : List option) : List GetoptResult → cmd_opts →
    Except Nat cmd_opts
  | [], o => Except.ok o
  | g :: gs, o =>
    match cmd_opts_parse.step opts g o with
    | Except.error e => Except.error e
    | Except.ok o1 => cmd_opts_parse.loop opts gs o1

/-- The options after `memset(cmd_opts, 0x00, sizeof(cmd_opts_t))` and the
assignment of the default `vdev`. -/
def cmd_opts.init : cmd_opts :=
  { daemon := 0, pid := none, threads := 0, vdev := some "sequencer",
    prefix_arr := List.replicate CLO_PREFIX_COUNT_MAX none, prefix_count := 0 }

/-- The C function `cmd_opts_parse`: the value returned (0 or `EINVAL`) and the
options. -/
def cmd_opts_parse (opts : List option) (results : List GetoptResult) : Nat × cmd_opts :=
  match cmd_opts_parse.loop opts results cmd_opts.init with
  | Except.ok o => (0, o)
  | Except.error e => (e, cmd_opts.init)

/-- The part of `main` that installs the default prefixes when `prefix_count` is
0. -/
def main.default_prefixes (o : cmd_opts) : cmd_opts :=
  if 0 = o.prefix_count then
    { o with prefix_arr := (o.prefix_arr.set 0 (some "midi")).set 1 (some "umidi"),
             prefix_count := 2 }
  else o

/-- The return of `getopt_long_only` for the short option `-P arg`. -/
def shortP (arg : String) : GetoptResult :=
  { ch := 80, opt_idx := -1, optarg := some arg, optarg_atoi := 0 }

/-- The return of `getopt_long_only` for the long option `-prefix arg`. -/
def longP (arg : String) : GetoptResult :=
  { ch := 80, opt_idx := 5, optarg := some arg, optarg_atoi := 0 }

end SeqCli

/-! ## Parser state invariant -/

/-- The parser state invariant, as the specification words it: `data_used` is at
most 1024; `type` is 0, a channel type, 0xF0 or one of 0xF1, 0xF2, 0xF3;
`data_required` is the table value, 1 or 2, for a channel or system-common type and
1024 for type 0xF0; and `data_used < data_required` unless `type` is 0 or 0xF0. -/
def parserInv (ep : vm_ep) : Prop :=
  ep.data_used ≤ 1024 ∧
  ep.type ∈ [0, 0x80, 0x90, 0xA0, 0xB0, 0xC0, 0xD0, 0xE0, 0xF0, 0xF1, 0xF2, 0xF3] ∧
  (ep.type ∈ [0x80, 0x90, 0xA0, 0xB0, 0xC0, 0xD0, 0xE0] →
    ep.data_required = MIDI_TYPE2LEN ep.type ∧ (ep.data_required = 1 ∨ ep.data_required = 2)) ∧
  (ep.type ∈ [0xF1, 0xF2, 0xF3] →
    ep.data_required = MIDI_SYSTYPE2LEN ep.type ∧
      (ep.data_required = 1 ∨ ep.data_required = 2)) ∧
  (ep.type = 0xF0 → ep.data_required = 1024) ∧
  (ep.type ≠ 0 → ep.type ≠ 0xF0 → ep.data_used < ep.data_required)

instance (ep : vm_ep) : Decidable (parserInv ep) := by
  unfold parserInv; infer_instance

/-- The indices of the accumulator `ep->data` that the call `vm_event_parse(ep, c)`
writes or reads, in program order: the store `ep->data[ep->data_used ++] = c`, then
for a complete event the read `ep->data[0]`, then the read `ep->data[1]` in the two
`case` groups that have it. -/
def vm_event_parse.accesses (ep : vm_ep) (c : Nat) : List Nat :=
  if 0x80 &&& c ≠ 0 then []
  else if 0 = ep.type then []
  else if MIDI_SYSEX_MAX_MSG_SIZE ≤ ep.data_used then []
  else
    ep.data_used ::
      (if MIDI_SYSEX = ep.type ∨ ep.data_used + 1 < ep.data_required then []
      else
        0 ::
          (if ep.type = MIDI_NOTEOFF ∨ ep.type = MIDI_NOTEON ∨
              ep.type = MIDI_KEY_PRESSURE ∨ ep.type = MIDI_CTL_CHANGE then [1]
          else if ep.type = MIDI_PGM_CHANGE ∨ ep.type = MIDI_CHN_PRESSURE ∨
              ep.type = MIDI_TIME_CODE ∨ ep.type = MIDI_SONG_SELECT then []
          else if ep.type = MIDI_PITCH_BEND ∨ ep.type = MIDI_SONG_POSITION then [1]
          else []))

/-- Whether the call `vm_event_parse(ep, c)` reaches the label `default` ("Should
never happen") of the `switch (ep->type)` that completes an event. -/
def vm_event_parse.reaches_default (ep : vm_ep) (c : Nat) : Bool :=
  if 0x80 &&& c ≠ 0 then false
  else if 0 = ep.type then false
  else if MIDI_SYSEX_MAX_MSG_SIZE ≤ ep.data_used then false
  else if MIDI_SYSEX = ep.type ∨ ep.data_used + 1 < ep.data_required then false
  else if ep.type = MIDI_NOTEOFF ∨ ep.type = MIDI_NOTEON ∨
      ep.type = MIDI_KEY_PRESSURE ∨ ep.type = MIDI_CTL_CHANGE then false
  else if ep.type = MIDI_PGM_CHANGE ∨ ep.type = MIDI_CHN_PRESSURE ∨
      ep.type = MIDI_TIME_CODE ∨ ep.type = MIDI_SONG_SELECT then false
  else if ep.type = MIDI_PITCH_BEND ∨ ep.type = MIDI_SONG_POSITION then false
  else true

/-- The SysEx event `{type 0xF0, p1 = n, ex_data = payload}`. -/
def sysexEvent (payload : List Nat) : vm_evt :=
  { type := 0xF0, chan := 0, p1 := payload.length, p2 := 0, ex_data := some payload }

/-! ## OSS sequencer device: records, write and timer ioctls -/

namespace Sequencer

/-- Every `write` of at least one byte accepts at least one and at most all of the
bytes offered. -/
def Env.neverFails (env : Env) : Prop :=
  ∀ k dev bytes, bytes ≠ [] →
    1 ≤ env.write_rc k dev bytes ∧ env.write_rc k dev bytes ≤ bytes.length

/-- The event the specification gives for the CHN_COMMON record `pbuf`: control
change with `p2` the 16-bit value at bytes 6-7, program change and channel
pressure with `p2 = 0`, pitch bend with `p1` the 16-bit value at bytes 6-7. -/
def chnCommonEventOf (pbuf : List Nat) : vm_evt :=
  let mtype := pbuf.getD 2 0
  if mtype = 0xB0 then
    { type := 0xB0, chan := pbuf.getD 3 0, p1 := pbuf.getD 4 0,
      p2 := pbuf.getD 6 0 + 256 * pbuf.getD 7 0, ex_data := none }
  else if mtype = 0xE0 then
    { type := 0xE0, chan := pbuf.getD 3 0, p1 := pbuf.getD 6 0 + 256 * pbuf.getD 7 0,
      p2 := 0, ex_data := none }
  else
    { type := mtype, chan := pbuf.getD 3 0, p1 := pbuf.getD 4 0, p2 := 0, ex_data := none }

/-- The SysEx payload length as the specification words it: the index of the first
0xFF among record bytes 2..7, or 6 when none of them is 0xFF. -/
def specSysexLen (pbuf : List Nat) : Nat :=
  ((List.range 6).find? (fun i => decide (pbuf.getD (2 + i) 0 = 0xFF))).getD 6

/-- The `n` payload bytes of the SYSEX record `pbuf`: record bytes 2 to `n + 1`. -/
def sysexPayload (pbuf : List Nat) (n : Nat) : List Nat :=
  (List.range n).map (fun i => pbuf.getD (2 + i) 0)

/-- The bounds of the timer fields: `1 ≤ base ≤ 1000` and `8 ≤ tempo ≤ 360`. -/
def timerInv (fd : vm_fd) : Prop :=
  1 ≤ fd.timer_base ∧ fd.timer_base ≤ 1000 ∧ 8 ≤ fd.timer_tempo ∧ fd.timer_tempo ≤ 360

instance (fd : vm_fd) : Decidable (timerInv fd) := by
  unfold timerInv; infer_instance

/-- What `cuse_copy_in` and the operating system answer during one `vm_write` of
the sequencer: `copy_in k` is the result of the `k`-th `cuse_copy_in`, and
`handler off` holds the answers during the call of `vm_sequencer_event_handle` for
the record at offset `off` of the written data. -/
structure WriteEnv where
  copy_in : Nat → Int
  handler : Nat → Env

/-- The loop `for (size_t j = 0; j < buf_size;)` of the sequencer's `vm_write`,
started at `j`, on the chunk `buf` that starts at offset `base` of the written
data: the final `j`, the handle and the world; `none` when the loop or a
downstream write loop has not ended within the fuel given. -/
def vm_write.records (env : WriteEnv) (fuel : Nat) (base : Nat) (buf : List Nat)
    (buf_size : Nat) : Nat → Nat → vm_fd → World → Option (Nat × vm_fd × World)
  | 0, _, _, _ => none
  | lfuel + 1, j, fd, w =>
    if j < buf_size then
      match vm_sequencer_event_handle (env.handler (base + j)) fuel (some fd)
          (some (buf.drop j)) (buf_size - j) w with
      | some (r, some fd1, w1) =>
        vm_write.records env fuel base buf buf_size lfuel ((j + r) % 2 ^ 64) fd1 w1
      | _ => none
    else
      some (j, fd, w)

/-- The outer loop `for (size_t i = 0; i < (size_t)len; i += sizeof(buf))` of the
sequencer's `vm_write`, started at `i` with the current `retval` after `copies`
calls of `cuse_copy_in`; `peer` is the memory at `peer_ptr`. -/
def vm_write.outer (env : WriteEnv) (fuel lfuel : Nat) (peer : List Nat) (len : Nat)
    (i : Nat) (fd : vm_fd) (retval : Int) (copies : Nat) (w : World) :
    Option (vm_fd × Int × World) :=
  if _h : i < len then
    let buf_size := min VM_WRITE_BUF_SZ (len - i)
    let error := env.copy_in copies
    let buf := (peer.drop i).take buf_size
    let fd1 := { fd with tx_busy := 0 }
    if error ≠ 0 then
      some (fd1, error, w)
    else
      match vm_write.records env fuel i buf buf_size lfuel 0 fd1 w with
      | none => none
      | some r =>
        let retval1 := DevMidi.int_of_size ((DevMidi.size_of_int retval + buf_size) % 2 ^ 64)
        vm_write.outer env fuel lfuel peer len (i + VM_WRITE_BUF_SZ) r.2.1 retval1
          (copies + 1) r.2.2
  else
    some (fd, retval, w)
termination_by len - i
decreasing_by
  simp only [VM_WRITE_BUF_SZ]
  omega

/-- The C function `vm_write` of the sequencer for a non-negative `len`: the
handle afterwards, the value returned and the world afterwards. -/
def vm_write (env : WriteEnv) (fuel lfuel : Nat) (fd : Option vm_fd) (peer : List Nat)
    (len : Nat) (w : World) : Option (Option vm_fd × Int × World) :=
  match fd with
  | none => some (none, DevMidi.CUSE_ERR_INVALID, w)
  | some f =>
    if f.tx_busy ≠ 0 then
      some (some f, DevMidi.CUSE_ERR_BUSY, w)
    else
      (vm_write.outer env fuel lfuel peer len 0 f 0 0 w).map
        (fun r => (some r.1, r.2.1, r.2.2))

/-- The commands of `vm_ioctl` that reach the timer or the record handler. -/
inductive IoctlCmd where
  | SNDCTL_TMR_TIMEBASE
  | SNDCTL_TMR_START
  | SNDCTL_TMR_STOP
  | SNDCTL_TMR_CONTINUE
  | SNDCTL_TMR_TEMPO
  | SNDCTL_SEQ_OUTOFBAND
  deriving DecidableEq, Repr

/-- The array `event` of `vm_ioctl` after `event[1] = sub` and, when `copy` is set,
`memcpy(&event[4], &data, 4)`. -/
def vm_ioctl.event (sub : Nat) (copy : Bool) (data : List Nat) : List Nat :=
  if copy then
    [EV_TIMING, sub, 0, 0, data.getD 0 0, data.getD 1 0, data.getD 2 0, data.getD 3 0]
  else
    [EV_TIMING, sub, 0, 0, 0, 0, 0, 0]

/-- The C function `vm_ioctl` of the sequencer on an open handle for the commands
of `IoctlCmd`, past the check `sizeof(data) < len`: `copy_in_err` is the result of
`cuse_copy_in`, `data` the union `data` after it (or after the `memset`) and `len`
the parameter length of the command.  The result is the error found before the
`switch`, the handle and the world. -/
def vm_ioctl (env : Env) (fuel : Nat) (fd : vm_fd) (cmd : IoctlCmd) (copy_in_err : Int)
    (data : List Nat) (len : Nat) (w : World) : Option (Int × vm_fd × World) :=
  if copy_in_err ≠ 0 then
    some (copy_in_err, fd, w)
  else
    let call := fun (buf : List Nat) (n : Nat) =>
      match vm_sequencer_event_handle env fuel (some fd) (some buf) n w with
      | some (_, some fd1, w1) => some ((0 : Int), fd1, w1)
      | _ => none
    match cmd with
    | IoctlCmd.SNDCTL_TMR_TIMEBASE => call (vm_ioctl.event TMR_TIMERBASE true data) 8
    | IoctlCmd.SNDCTL_TMR_START => call (vm_ioctl.event TMR_START false data) 8
    | IoctlCmd.SNDCTL_TMR_STOP => call (vm_ioctl.event TMR_STOP false data) 8
    | IoctlCmd.SNDCTL_TMR_CONTINUE => call (vm_ioctl.event TMR_CONTINUE false data) 8
    | IoctlCmd.SNDCTL_TMR_TEMPO => call (vm_ioctl.event TMR_TEMPO true data) 8
    | IoctlCmd.SNDCTL_SEQ_OUTOFBAND => call data len

/-- One operation on an open sequencer handle: a `vm_write` or one of the ioctls
of `IoctlCmd`, with what the environment answers during it. -/
inductive SeqOp where
  | write (env : WriteEnv) (peer : List Nat) (len : Nat)
  | ioctl (env : Env) (cmd : IoctlCmd) (copy_in_err : Int) (data : List Nat) (len : Nat)

/-- The handle and the world after one operation. -/
def SeqOp.step (fuel lfuel : Nat) (s : vm_fd × World) : SeqOp → Option (vm_fd × World)
  | SeqOp.write env peer len =>
    match vm_write env fuel lfuel (some s.1) peer len s.2 with
    | some (some fd1, _, w1) => some (fd1, w1)
    | _ => none
  | SeqOp.ioctl env cmd err data len =>
    (vm_ioctl env fuel s.1 cmd err data len s.2).map (fun r => r.2)

/-- The handle and the world after a sequence of operations. -/
def SeqOp.run (fuel lfuel : Nat) : List SeqOp → vm_fd × World → Option (vm_fd × World)
  | [], s => some s
  | op :: ops, s =>
    match SeqOp.step fuel lfuel s op with
    | none => none
    | some s1 => SeqOp.run fuel lfuel ops s1

/-- Whether every `write` of the operating system is well behaved during the
operation. -/
def SeqOp.wellBehaved : SeqOp → Prop
  | SeqOp.write env _ _ => ∀ k, (env.handler k).wellBehaved
  | SeqOp.ioctl env _ _ _ _ => env.wellBehaved

/-- Every `cuse_copy_in` succeeds and every `write` accepts all bytes. -/
def WriteEnv.ok : WriteEnv :=
  { copy_in := fun _ => 0
    handler := fun _ => Env.acceptAll none }

end Sequencer

/-! ## Bit-level facts about status and data bytes -/

theorem data_byte_land : ∀ d < 128, 0x80 &&& d = 0 := by decide

set_option maxRecDepth 100000 in
theorem chan_status_land : ∀ s < 240, 128 ≤ s →
    0x80 &&& s ≠ 0 ∧
    (0xF0 &&& s = 0x80 ∨ 0xF0 &&& s = 0x90 ∨ 0xF0 &&& s = 0xA0 ∨ 0xF0 &&& s = 0xB0 ∨
      0xF0 &&& s = 0xC0 ∨ 0xF0 &&& s = 0xD0 ∨ 0xF0 &&& s = 0xE0) := by decide

/-! ## vm_event_sysex_data_chk -/

theorem sysex_data_chk_loop_cases (buf : List Nat) (n : Nat) :
    ∀ k i, n - i = k →
      (vm_event_sysex_data_chk.loop buf n i = 0 ∧
          ∀ j, i ≤ j → j < n → buf.getD j 0 ≤ 0x7f) ∨
      (vm_event_sysex_data_chk.loop buf n i = EDOM ∧
          ∃ j, i ≤ j ∧ j < n ∧ 0x7f < buf.getD j 0) := by
  intro k
  induction k with
  | zero =>
    intro i hk
    left
    rw [vm_event_sysex_data_chk.loop]
    have : ¬ i < n := by omega
    simp only [this, if_false, true_and]
    intro j h1 h2
    omega
  | succ k ih =>
    intro i hk
    rw [vm_event_sysex_data_chk.loop]
    have hi : i < n := by omega
    simp only [hi, if_true]
    by_cases hb : 0x7f < buf.getD i 0
    · right
      simp only [hb, if_true, true_and]
      exact ⟨i, le_refl i, hi, hb⟩
    · simp only [hb, if_false]
      rcases ih (i + 1) (by omega) with ⟨h0, hall⟩ | ⟨h1, j, hj1, hj2, hj3⟩
      · left
        refine ⟨h0, ?_⟩
        intro j hj1 hj2
        by_cases hji : j = i
        · subst hji; omega
        · exact hall j (by omega) hj2
      · right
        exact ⟨h1, j, by omega, hj2, hj3⟩

theorem getD_of_mem_index (buf : List Nat) :
    (∀ j, 0 ≤ j → j < buf.length → buf.getD j 0 ≤ 0x7f) ↔ ∀ b ∈ buf, b ≤ 0x7f := by
  constructor
  · intro h b hb
    obtain ⟨j, hj, rfl⟩ := List.getElem_of_mem hb
    have := h j (Nat.zero_le j) hj
    simpa [List.getD_eq_getElem?_getD, List.getElem?_eq_getElem hj] using this
  · intro h j _ hj
    have : buf.getD j 0 = buf[j] := by
      simp [List.getD_eq_getElem?_getD, List.getElem?_eq_getElem hj]
    rw [this]
    exact h _ (List.getElem_mem hj)

/-- C10: for every byte buffer, `vm_event_sysex_data_chk` returns 0 if and only if
every byte is at most 0x7F, and returns `EDOM` if and only if some byte is above
0x7F; an empty buffer returns 0 and the buffer `[0x7F, 0x80]` returns `EDOM`. -/
theorem vm_event_sysex_data_chk_iff (buf : List Nat) :
    (vm_event_sysex_data_chk (some buf) buf.length = 0 ↔ ∀ b ∈ buf, b ≤ 0x7F) ∧
    (vm_event_sysex_data_chk (some buf) buf.length = EDOM ↔ ∃ b ∈ buf, 0x7F < b) ∧
    vm_event_sysex_data_chk (some []) 0 = 0 ∧
    vm_event_sysex_data_chk (some [0x7F, 0x80]) 2 = EDOM := by
  have key : ∀ l : List Nat,
      (vm_event_sysex_data_chk (some l) l.length = 0 ↔ ∀ b ∈ l, b ≤ 0x7F) ∧
      (vm_event_sysex_data_chk (some l) l.length = EDOM ↔ ∃ b ∈ l, 0x7F < b) := by
    intro l
    have hne : (0 : Nat) ≠ EDOM := by decide
    simp only [vm_event_sysex_data_chk]
    rcases sysex_data_chk_loop_cases l l.length (l.length - 0) 0 rfl with
      ⟨h0, hall⟩ | ⟨h1, j, _, hj2, hj3⟩
    · have hall' := (getD_of_mem_index l).1 hall
      refine ⟨⟨fun _ => hall', fun _ => h0⟩, ⟨fun h => ?_, fun ⟨b, hb, hlt⟩ => ?_⟩⟩
      · rw [h0] at h; exact absurd h hne
      · have := hall' b hb; omega
    · have hmem : l.getD j 0 ∈ l := by
        have : l.getD j 0 = l[j] := by
          simp [List.getD_eq_getElem?_getD, List.getElem?_eq_getElem hj2]
        rw [this]; exact List.getElem_mem hj2
      refine ⟨⟨fun h => ?_, fun h => ?_⟩, ⟨fun _ => ⟨_, hmem, hj3⟩, fun _ => h1⟩⟩
      · rw [h1] at h; exact absurd h.symm hne
      · have := h _ hmem; omega
  refine ⟨(key buf).1, (key buf).2, ?_, ?_⟩
  · exact (key []).1.2 (by simp)
  · exact (key [0x7F, 0x80]).2.2 ⟨0x80, by simp, by decide⟩

/-! ## vm_event_serialize: return codes and required size -/

theorem MIDI_TYPE2LEN_le (b : Nat) : MIDI_TYPE2LEN b ≤ 2 := by
  unfold MIDI_TYPE2LEN midi_type2len_tbl
  have h : (b >>> 4) &&& 0x07 < 8 := Nat.lt_of_le_of_lt Nat.and_le_right (by decide)
  generalize (b >>> 4) &&& 0x07 = i at h
  interval_cases i <;> decide

theorem MIDI_SYSTYPE2LEN_le (b : Nat) : MIDI_SYSTYPE2LEN b ≤ 2 := by
  unfold MIDI_SYSTYPE2LEN midi_systype2len_tbl
  have h : b &&& 0x0F < 16 := Nat.lt_of_le_of_lt Nat.and_le_right (by decide)
  generalize b &&& 0x0F = i at h
  interval_cases i <;> decide

theorem buf_size_req_eq (e : vm_evt) (hp1 : e.p1 < 2 ^ 32) :
    vm_event_serialize.buf_size_req e =
      if e.type = MIDI_SYSEX then e.p1 + 2
      else if e.type < MIDI_SYSEX then 1 + MIDI_TYPE2LEN e.type
      else 1 + MIDI_SYSTYPE2LEN e.type := by
  have h1 := MIDI_TYPE2LEN_le e.type
  have h2 := MIDI_SYSTYPE2LEN_le e.type
  unfold vm_event_serialize.buf_size_req
  simp only [MIDI_SYSEX, gt_iff_lt]
  split_ifs <;> omega

/-- C8: for every event that passes the validation of `vm_event_serialize` and
every `buf_size`, the required size (1 + the table payload length for channel and
system messages, `p1 + 2` for SysEx) is stored in `buf_size_ret`; the function
returns `ENOBUFS` exactly when `buf_size` is smaller than the required size, in
which case the buffer is left untouched, and returns 0 otherwise. -/
theorem vm_event_serialize_required_size (e : vm_evt) (buf : Option (List Nat))
    (buf_size r : Nat) (hrange : e.inRange)
    (hvalid : (vm_event_serialize (some e) buf buf_size (some r)).1 ≠ EINVAL) :
    (vm_event_serialize (some e) buf buf_size (some r)).2.2 =
      some (if e.type = MIDI_SYSEX then e.p1 + 2
        else if e.type < MIDI_SYSEX then 1 + MIDI_TYPE2LEN e.type
        else 1 + MIDI_SYSTYPE2LEN e.type) ∧
    ((vm_event_serialize (some e) buf buf_size (some r)).1 = ENOBUFS ↔
      buf_size < (if e.type = MIDI_SYSEX then e.p1 + 2
        else if e.type < MIDI_SYSEX then 1 + MIDI_TYPE2LEN e.type
        else 1 + MIDI_SYSTYPE2LEN e.type)) ∧
    ((vm_event_serialize (some e) buf buf_size (some r)).1 = ENOBUFS →
      (vm_event_serialize (some e) buf buf_size (some r)).2.1 = buf) ∧
    ((vm_event_serialize (some e) buf buf_size (some r)).1 ≠ ENOBUFS →
      (vm_event_serialize (some e) buf buf_size (some r)).1 = 0) := by
  have hreq := buf_size_req_eq e hrange.2.2.1
  rw [← hreq]
  have hne : ENOBUFS ≠ 0 := by decide
  unfold vm_event_serialize at hvalid ⊢
  by_cases hinv : (buf = none ∧ 0 ≠ buf_size) ∨ (some r = none) ∨
        (MIDI_SYSEX = e.type ∧ (e.ex_data = none ∨ 0 = e.p1)) ∨
        MIDI_SYSEX_EOX = e.type
  · simp only [hinv, if_true] at hvalid
    exact absurd rfl hvalid
  · simp only [hinv, if_false]
    by_cases hlt : buf_size < vm_event_serialize.buf_size_req e
    · simp [hlt]
    · simp [hlt, hne.symm]

/-- C8, witness: a note-on event with a zero-length buffer returns `ENOBUFS` with
required size 3. -/
theorem vm_event_serialize_required_size_witness :
    (vm_event_serialize (some { type := 0x90, chan := 0, p1 := 60, p2 := 64, ex_data := none })
        (some []) 0 (some 0)).2.2 = some 3 ∧
    (vm_event_serialize (some { type := 0x90, chan := 0, p1 := 60, p2 := 64, ex_data := none })
        (some []) 0 (some 0)).1 = ENOBUFS := by
  have h := vm_event_serialize_required_size
    { type := 0x90, chan := 0, p1 := 60, p2 := 64, ex_data := none } (some []) 0 0
    (by decide) (by decide)
  refine ⟨?_, ?_⟩
  · rw [h.1]; decide
  · rw [h.2.1]; decide

/-- C9: `vm_event_serialize` returns `EINVAL` exactly when the event is absent, the
buffer is absent with a non-zero `buf_size`, `buf_size_ret` is absent, the event
type is 0xF0 with `ex_data` absent or `p1 = 0`, or the event type is 0xF7; and
whenever it returns `EINVAL` neither the buffer nor `buf_size_ret` is written. -/
theorem vm_event_serialize_einval_iff (evt : Option vm_evt) (buf : Option (List Nat))
    (buf_size : Nat) (buf_size_ret : Option Nat) :
    ((vm_event_serialize evt buf buf_size buf_size_ret).1 = EINVAL ↔
      (evt = none ∨ (buf = none ∧ buf_size ≠ 0) ∨ buf_size_ret = none ∨
        ∃ e, evt = some e ∧
          ((e.type = 0xF0 ∧ (e.ex_data = none ∨ e.p1 = 0)) ∨ e.type = 0xF7))) ∧
    ((vm_event_serialize evt buf buf_size buf_size_ret).1 = EINVAL →
      (vm_event_serialize evt buf buf_size buf_size_ret).2.1 = buf ∧
      (vm_event_serialize evt buf buf_size buf_size_ret).2.2 = buf_size_ret) := by
  have h1 : ENOBUFS ≠ EINVAL := by decide
  have h2 : (0 : Nat) ≠ EINVAL := by decide
  cases evt with
  | none => simp [vm_event_serialize]
  | some e =>
    unfold vm_event_serialize
    by_cases hinv : (buf = none ∧ 0 ≠ buf_size) ∨ buf_size_ret = none ∨
        (MIDI_SYSEX = e.type ∧ (e.ex_data = none ∨ 0 = e.p1)) ∨
        MIDI_SYSEX_EOX = e.type
    · simp only [hinv, if_true, true_iff, true_implies, and_self, and_true]
      right
      rcases hinv with ⟨hb, hs⟩ | hr | ⟨ht, hx⟩ | ht
      · exact Or.inl ⟨hb, fun h => hs h.symm⟩
      · exact Or.inr (Or.inl hr)
      · refine Or.inr (Or.inr ⟨e, rfl, Or.inl ⟨ht.symm, ?_⟩⟩)
        rcases hx with hx | hx
        · exact Or.inl hx
        · exact Or.inr hx.symm
      · exact Or.inr (Or.inr ⟨e, rfl, Or.inr ht.symm⟩)
    · simp only [hinv, if_false]
      have hno : ¬ (some e = none ∨ (buf = none ∧ buf_size ≠ 0) ∨ buf_size_ret = none ∨
          ∃ e', some e = some e' ∧
            ((e'.type = 0xF0 ∧ (e'.ex_data = none ∨ e'.p1 = 0)) ∨ e'.type = 0xF7)) := by
        intro h
        apply hinv
        rcases h with h | ⟨hb, hs⟩ | hr | ⟨e', he, h⟩
        · cases h
        · exact Or.inl ⟨hb, fun h => hs h.symm⟩
        · exact Or.inr (Or.inl hr)
        · cases he
          rcases h with ⟨ht, hx⟩ | ht
          · refine Or.inr (Or.inr (Or.inl ⟨ht.symm, ?_⟩))
            rcases hx with hx | hx
            · exact Or.inl hx
            · exact Or.inr hx.symm
          · exact Or.inr (Or.inr (Or.inr ht.symm))
      by_cases hlt : buf_size < vm_event_serialize.buf_size_req e
      · simp only [hlt, if_true]
        exact ⟨⟨fun h => absurd h h1, fun h => absurd h hno⟩, fun h => absurd h h1⟩
      · simp only [hlt, if_false]
        exact ⟨⟨fun h => absurd h h2, fun h => absurd h hno⟩, fun h => absurd h h2⟩

/-! ## vm_event_parse: running status -/

theorem parseBytes_append (ep : vm_ep) (xs ys : List Nat) :
    parseBytes ep (xs ++ ys) =
      ((parseBytes (parseBytes ep xs).1 ys).1,
        (parseBytes ep xs).2 ++ (parseBytes (parseBytes ep xs).1 ys).2) := by
  induction xs generalizing ep with
  | nil => simp [parseBytes]
  | cons x xs ih => simp [parseBytes, ih]

theorem shift7_small : ∀ d < 128, (d <<< 7) % 4294967296 = d <<< 7 := by decide

theorem zero_data_length : vm_ep.zero.data.length = 1024 := by
  simp only [vm_ep.zero, MIDI_SYSEX_MAX_MSG_SIZE, List.length_replicate]

theorem parse_chan_status (ep : vm_ep) (s : Nat) (h1 : 128 ≤ s) (h2 : s < 240)
    (hns : ¬ (MIDI_SYSEX = ep.type ∧ 0 < ep.data_used)) :
    vm_event_parse ep s =
      ({ ep with data_used := 0, type := 0xF0 &&& s, chan := 0x0F &&& s,
                 data_required := MIDI_TYPE2LEN (0xF0 &&& s) }, none) := by
  have hs := (chan_status_land s h2 h1).1
  have h3 : ¬ 0xF8 ≤ s := by omega
  have h4 : MIDI_SYSEX > s := by simp only [MIDI_SYSEX]; omega
  unfold vm_event_parse
  rw [if_pos hs, if_neg h3]
  simp [hns, h4]

theorem parse_chan_status_zero (s : Nat) (h1 : 128 ≤ s) (h2 : s < 240) :
    (vm_event_parse vm_ep.zero s).2 = none ∧ atBoundary (vm_event_parse vm_ep.zero s).1 s := by
  have hns : ¬ (MIDI_SYSEX = vm_ep.zero.type ∧ 0 < vm_ep.zero.data_used) := by
    intro h; exact absurd h.2 (by decide)
  rw [parse_chan_status vm_ep.zero s h1 h2 hns]
  refine ⟨rfl, rfl, rfl, rfl, rfl, ?_⟩
  show 2 ≤ vm_ep.zero.data.length
  rw [zero_data_length]; omega

theorem MIDI_TYPE2LEN_vals :
    MIDI_TYPE2LEN 0x80 = 2 ∧ MIDI_TYPE2LEN 0x90 = 2 ∧ MIDI_TYPE2LEN 0xA0 = 2 ∧
    MIDI_TYPE2LEN 0xB0 = 2 ∧ MIDI_TYPE2LEN 0xC0 = 1 ∧ MIDI_TYPE2LEN 0xD0 = 1 ∧
    MIDI_TYPE2LEN 0xE0 = 2 := by decide

theorem list_length_two (g : List Nat) (h : g.length = 2) : ∃ x y, g = [x, y] := by
  match g, h with
  | [x, y], _ => exact ⟨x, y, rfl⟩

theorem list_length_one (g : List Nat) (h : g.length = 1) : ∃ x, g = [x] := by
  match g, h with
  | [x], _ => exact ⟨x, rfl⟩

theorem parse_group_two (ep : vm_ep) (s d0 d1 : Nat)
    (hty : 0xF0 &&& s = 0x80 ∨ 0xF0 &&& s = 0x90 ∨ 0xF0 &&& s = 0xA0 ∨ 0xF0 &&& s = 0xB0 ∨
      0xF0 &&& s = 0xE0)
    (hb : atBoundary ep s) (h0 : d0 < 128) (h1 : d1 < 128) :
    (parseBytes ep [d0, d1]).2 = [none, some (chanEventOf s [d0, d1])] ∧
    atBoundary (parseBytes ep [d0, d1]).1 s := by
  obtain ⟨ty, ch, du, dr, ev, data⟩ := ep
  obtain ⟨hty', hch, hdu, hdr, hdl⟩ := hb
  simp only at hty' hch hdu hdr hdl
  obtain ⟨a, b, rest, rfl⟩ : ∃ a b rest, data = a :: b :: rest := by
    match data, hdl with
    | a :: b :: rest, _ => exact ⟨a, b, rest, rfl⟩
  have hc1 : s &&& 0xF0 = 0xF0 &&& s := Nat.land_comm _ _
  have hc2 : s &&& 0x0F = 0x0F &&& s := Nat.land_comm _ _
  obtain ⟨v8, v9, vA, vB, vC, vD, vE⟩ := MIDI_TYPE2LEN_vals
  have hd0 := data_byte_land d0 h0
  have hd1 := data_byte_land d1 h1
  have hsh := shift7_small d1 h1
  rcases hty with h | h | h | h | h
  all_goals
    rw [h] at hty' hdr
    simp only [v8, v9, vA, vB, vE] at hdr
    subst hty' hdr hch hdu
    simp [parseBytes, vm_event_parse, hd0, hd1, hsh, atBoundary, chanEventOf, hc1, hc2, h,
      MIDI_SYSEX, MIDI_SYSEX_MAX_MSG_SIZE, MIDI_NOTEOFF, MIDI_NOTEON, MIDI_KEY_PRESSURE,
      MIDI_CTL_CHANGE, MIDI_PGM_CHANGE, MIDI_CHN_PRESSURE, MIDI_TIME_CODE,
      MIDI_SONG_SELECT, MIDI_PITCH_BEND, MIDI_SONG_POSITION, vm_evt.zero,
      v8, v9, vA, vB, vE]

theorem parse_group_one (ep : vm_ep) (s d0 : Nat)
    (hty : 0xF0 &&& s = 0xC0 ∨ 0xF0 &&& s = 0xD0)
    (hb : atBoundary ep s) (h0 : d0 < 128) :
    (parseBytes ep [d0]).2 = [some (chanEventOf s [d0])] ∧
    atBoundary (parseBytes ep [d0]).1 s := by
  obtain ⟨ty, ch, du, dr, ev, data⟩ := ep
  obtain ⟨hty', hch, hdu, hdr, hdl⟩ := hb
  simp only at hty' hch hdu hdr hdl
  obtain ⟨a, b, rest, rfl⟩ : ∃ a b rest, data = a :: b :: rest := by
    match data, hdl with
    | a :: b :: rest, _ => exact ⟨a, b, rest, rfl⟩
  have hc1 : s &&& 0xF0 = 0xF0 &&& s := Nat.land_comm _ _
  have hc2 : s &&& 0x0F = 0x0F &&& s := Nat.land_comm _ _
  obtain ⟨v8, v9, vA, vB, vC, vD, vE⟩ := MIDI_TYPE2LEN_vals
  have hd0 := data_byte_land d0 h0
  rcases hty with h | h
  all_goals
    rw [h] at hty' hdr
    simp only [vC, vD] at hdr
    subst hty' hdr hch hdu
    simp [parseBytes, vm_event_parse, hd0, atBoundary, chanEventOf, hc1, hc2, h,
      MIDI_SYSEX, MIDI_SYSEX_MAX_MSG_SIZE, MIDI_NOTEOFF, MIDI_NOTEON, MIDI_KEY_PRESSURE,
      MIDI_CTL_CHANGE, MIDI_PGM_CHANGE, MIDI_CHN_PRESSURE, MIDI_TIME_CODE,
      MIDI_SONG_SELECT, MIDI_PITCH_BEND, MIDI_SONG_POSITION, vm_evt.zero, vC, vD]

theorem parse_group (ep : vm_ep) (s : Nat) (h1 : 128 ≤ s) (h2 : s < 240) (g : List Nat)
    (hb : atBoundary ep s) (hlen : g.length = MIDI_TYPE2LEN (0xF0 &&& s))
    (hdata : ∀ d ∈ g, d < 128) :
    (parseBytes ep g).2 = List.replicate (g.length - 1) none ++ [some (chanEventOf s g)] ∧
    atBoundary (parseBytes ep g).1 s := by
  obtain ⟨v8, v9, vA, vB, vC, vD, vE⟩ := MIDI_TYPE2LEN_vals
  have two : (0xF0 &&& s = 0x80 ∨ 0xF0 &&& s = 0x90 ∨ 0xF0 &&& s = 0xA0 ∨
      0xF0 &&& s = 0xB0 ∨ 0xF0 &&& s = 0xE0) → g.length = 2 →
      (parseBytes ep g).2 = List.replicate (g.length - 1) none ++ [some (chanEventOf s g)] ∧
      atBoundary (parseBytes ep g).1 s := by
    intro hty hl
    obtain ⟨d0, d1, rfl⟩ := list_length_two g hl
    exact parse_group_two ep s d0 d1 hty hb (hdata d0 (by simp)) (hdata d1 (by simp))
  have one : (0xF0 &&& s = 0xC0 ∨ 0xF0 &&& s = 0xD0) → g.length = 1 →
      (parseBytes ep g).2 = List.replicate (g.length - 1) none ++ [some (chanEventOf s g)] ∧
      atBoundary (parseBytes ep g).1 s := by
    intro hty hl
    obtain ⟨d0, rfl⟩ := list_length_one g hl
    exact parse_group_one ep s d0 hty hb (hdata d0 (by simp))
  rcases (chan_status_land s h2 h1).2 with h | h | h | h | h | h | h
  · exact two (by omega) (by rw [hlen, h, v8])
  · exact two (by omega) (by rw [hlen, h, v9])
  · exact two (by omega) (by rw [hlen, h, vA])
  · exact two (by omega) (by rw [hlen, h, vB])
  · exact one (by omega) (by rw [hlen, h, vC])
  · exact one (by omega) (by rw [hlen, h, vD])
  · exact two (by omega) (by rw [hlen, h, vE])

theorem groupLen_eq (s : Nat) (h1 : 128 ≤ s) (h2 : s < 240) :
    groupLen s = MIDI_TYPE2LEN (0xF0 &&& s) := by
  have hc1 : s &&& 0xF0 = 0xF0 &&& s := Nat.land_comm _ _
  obtain ⟨v8, v9, vA, vB, vC, vD, vE⟩ := MIDI_TYPE2LEN_vals
  unfold groupLen
  rw [hc1]
  rcases (chan_status_land s h2 h1).2 with h | h | h | h | h | h | h <;>
    rw [h] <;> simp only [v8, v9, vA, vB, vC, vD, vE] <;> decide

theorem parse_groups (s : Nat) (h1 : 128 ≤ s) (h2 : s < 240) (gs : List (List Nat))
    (hg : ∀ g ∈ gs, g.length = groupLen s ∧ ∀ d ∈ g, d < 0x80) :
    ∀ ep, atBoundary ep s →
      (parseBytes ep (groupBytes gs)).2 = runningStatusOutputs s gs := by
  induction gs with
  | nil => intro ep _; rfl
  | cons g gs ih =>
    intro ep hb
    have hgl := hg g (List.mem_cons_self g gs)
    have hstep := parse_group ep s h1 h2 g hb (by rw [hgl.1, groupLen_eq s h1 h2]) hgl.2
    have hrest := ih (fun g' hg' => hg g' (List.mem_cons_of_mem g hg'))
      (parseBytes ep g).1 hstep.2
    simp only [groupBytes, runningStatusOutputs, parseBytes_append, hstep.1, hrest]

theorem eventCount_runningStatusOutputs (s : Nat) (gs : List (List Nat)) :
    eventCount (runningStatusOutputs s gs) = gs.length := by
  induction gs with
  | nil => rfl
  | cons g gs ih =>
    unfold eventCount at ih ⊢
    simp only [runningStatusOutputs, List.filter_append, List.length_append, ih,
      List.length_cons]
    have : (List.replicate (g.length - 1) (none : Option vm_evt)).filter Option.isSome = [] := by
      rw [List.filter_eq_nil_iff]
      intro a ha
      rw [List.eq_of_mem_replicate ha]
      simp
    rw [this]
    simp [List.filter]
    omega

/-- C3 (running status): after a channel status byte `s` in 0x80..0xEF on a
zero-initialised parser, every sequence of complete groups of data bytes (each
below 0x80; one byte per group for types 0xC0 and 0xD0, two otherwise) returns
exactly one event per group, at the last byte of the group and nowhere else, with
type `s & 0xF0`, channel `s & 0x0F` and parameters taken from the group. -/
theorem vm_event_parse_running_status (s : Nat) (gs : List (List Nat))
    (hlo : 0x80 ≤ s) (hhi : s ≤ 0xEF)
    (hg : ∀ g ∈ gs, g.length = groupLen s ∧ ∀ d ∈ g, d < 0x80) :
    (parseBytes vm_ep.zero (s :: groupBytes gs)).2 = none :: runningStatusOutputs s gs ∧
    eventCount (parseBytes vm_ep.zero (s :: groupBytes gs)).2 = gs.length := by
  have hst := parse_chan_status_zero s hlo (by omega)
  have hrest := parse_groups s hlo (by omega) gs hg (vm_event_parse vm_ep.zero s).1 hst.2
  have hout : (parseBytes vm_ep.zero (s :: groupBytes gs)).2 =
      none :: runningStatusOutputs s gs := by
    simp only [parseBytes, hst.1, hrest]
  refine ⟨hout, ?_⟩
  rw [hout]
  have := eventCount_runningStatusOutputs s gs
  unfold eventCount at this ⊢
  simpa [List.filter] using this

/-- C3, witness: after `0x90 60 64`, the bytes `62 64` produce a second note-on
with channel 0, `p1 = 62`, `p2 = 64` without a new status byte. -/
theorem vm_event_parse_running_status_witness :
    (parseBytes vm_ep.zero [0x90, 60, 64, 62, 64]).2 =
      [none, none, some { type := 0x90, chan := 0, p1 := 60, p2 := 64, ex_data := none },
        none, some { type := 0x90, chan := 0, p1 := 62, p2 := 64, ex_data := none }] := by
  have h := (vm_event_parse_running_status 0x90 [[60, 64], [62, 64]]
    (by decide) (by decide) (by decide)).1
  exact h

/-! ## vm_event_parse: real-time bytes -/

set_option maxRecDepth 100000 in
theorem realtime_land : ∀ r < 256, 248 ≤ r → 0x80 &&& r ≠ 0 := by decide

theorem parse_realtime (ep : vm_ep) (r : Nat) (h1 : 248 ≤ r) (h2 : r < 256) :
    vm_event_parse ep r =
      ({ ep with type := 0, event := zeroPayloadEvent r }, some (zeroPayloadEvent r)) := by
  have hs := realtime_land r h2 h1
  have h3 : 0xF8 ≤ r := h1
  unfold vm_event_parse
  rw [if_pos hs, if_pos h3]
  rfl

theorem parse_realtime_type (ep : vm_ep) (r : Nat) (h1 : 248 ≤ r) (h2 : r < 256) :
    (vm_event_parse ep r).1.type = 0 ∧ (vm_event_parse ep r).2 = some (zeroPayloadEvent r) := by
  rw [parse_realtime ep r h1 h2]
  exact ⟨rfl, rfl⟩

theorem parse_data_idle (ep : vm_ep) (d : Nat) (hd : d < 128) (hty : ep.type = 0) :
    vm_event_parse ep d = (ep, none) := by
  have hd0 := data_byte_land d hd
  unfold vm_event_parse
  simp [hd0, hty]

theorem parseBytes_idle (ds : List Nat) (hd : ∀ d ∈ ds, d < 128) :
    ∀ ep : vm_ep, ep.type = 0 →
      parseBytes ep ds = (ep, List.replicate ds.length none) := by
  induction ds with
  | nil => intro ep _; rfl
  | cons d ds ih =>
    intro ep hty
    have h := parse_data_idle ep d (hd d (List.mem_cons_self d ds)) hty
    have h' := ih (fun x hx => hd x (List.mem_cons_of_mem d hx)) ep hty
    simp only [parseBytes, h, h', List.length_cons, List.replicate_succ]

/-- C4, counterexample: the bytes `0x90 0xF8 60 64` produce the event of type 0xF8
and nothing else; no note-on is returned at the last data byte. -/
theorem vm_event_parse_realtime_drops_pending :
    (parseBytes vm_ep.zero [0x90, 0xF8, 60, 64]).2 =
        [none, some (zeroPayloadEvent 0xF8), none, none] ∧
    (parseBytes vm_ep.zero [0x90, 0xF8, 60, 64]).2 ≠
        [none, some (zeroPayloadEvent 0xF8), none, some (chanEventOf 0x90 [60, 64])] := by
  decide

/-- C4 (amended): after a channel status byte `s` in 0x80..0xEF, a real-time byte
`r` in 0xF8..0xFF returns a zero-payload event of type `r` and resets the parser
type to 0, so the pending channel message is dropped: none of the following data
bytes (each below 0x80) returns an event. -/
theorem vm_event_parse_realtime_interleave (s r : Nat) (ds : List Nat)
    (hlo : 0x80 ≤ s) (hhi : s ≤ 0xEF) (hr : 0xF8 ≤ r) (hr' : r ≤ 0xFF)
    (hd : ∀ d ∈ ds, d < 0x80) :
    (parseBytes vm_ep.zero (s :: r :: ds)).2 =
        none :: some (zeroPayloadEvent r) :: List.replicate ds.length none ∧
    (parseBytes vm_ep.zero [s, r]).1.type = 0 ∧
    (parseBytes vm_ep.zero (s :: r :: ds)).1.type = 0 := by
  have hst := parse_chan_status_zero s hlo (by omega)
  have hrt := parse_realtime_type (vm_event_parse vm_ep.zero s).1 r hr (by omega)
  have hidle := parseBytes_idle ds hd (vm_event_parse (vm_event_parse vm_ep.zero s).1 r).1
    hrt.1
  refine ⟨?_, ?_, ?_⟩
  · simp only [parseBytes, hst.1, hidle, hrt.2]
  · simp only [parseBytes, hrt.1]
  · simp only [parseBytes, hidle, hrt.1]

/-- C4 (amended), witness: after `0x90 0xF8` the data bytes `60 64` return
nothing. -/
theorem vm_event_parse_realtime_interleave_witness :
    (parseBytes vm_ep.zero [0x90, 0xF8, 60, 64]).2 =
        none :: some (zeroPayloadEvent 0xF8) :: List.replicate [60, 64].length none ∧
    (parseBytes vm_ep.zero [0x90, 0xF8]).1.type = 0 ∧
    (parseBytes vm_ep.zero [0x90, 0xF8, 60, 64]).1.type = 0 :=
  vm_event_parse_realtime_interleave 0x90 0xF8 [60, 64]
    (by decide) (by decide) (by decide) (by decide) (by decide)

/-! ## vm_event_parse: SysEx -/

theorem sysex_status_land : ∀ c < 248, 128 ≤ c → 0x80 &&& c ≠ 0 := by
  set_option maxRecDepth 100000 in decide

theorem MIDI_SYSTYPE2LEN_vals :
    MIDI_SYSTYPE2LEN 0xF1 = 1 ∧ MIDI_SYSTYPE2LEN 0xF2 = 2 ∧ MIDI_SYSTYPE2LEN 0xF3 = 1 ∧
    MIDI_SYSTYPE2LEN 0xF4 = 0 ∧ MIDI_SYSTYPE2LEN 0xF5 = 0 ∧ MIDI_SYSTYPE2LEN 0xF6 = 0 := by
  decide

/-- Every status byte in 0x80..0xF7 other than 0xF4, 0xF5 and 0xF6 returns the
SysEx in progress: type 0xF0, `p1 = data_used`, `ex_data` the accumulator. -/
theorem parse_status_terminates_sysex (ep : vm_ep) (c : Nat)
    (hty : ep.type = 0xF0) (hu1 : 1 ≤ ep.data_used) (hu2 : ep.data_used ≤ 1024)
    (hlo : 0x80 ≤ c) (hhi : c ≤ 0xF7) (hne : c ≠ 0xF4 ∧ c ≠ 0xF5 ∧ c ≠ 0xF6) :
    (vm_event_parse ep c).2 = some (sysexEventOf ep.data_used ep.data) := by
  obtain ⟨ty, ch, du, dr, ev, data⟩ := ep
  simp only at hty hu1 hu2
  subst hty
  have hs := sysex_status_land c (by omega) hlo
  have h3 : ¬ 0xF8 ≤ c := by omega
  have hu0 : 0 < du := hu1
  have hmod : du % 4294967296 = du := Nat.mod_eq_of_lt (by omega)
  unfold vm_event_parse
  rw [if_pos hs, if_neg h3]
  obtain ⟨w1, w2, w3, _, _, _⟩ := MIDI_SYSTYPE2LEN_vals
  by_cases hch : c < 0xF0
  · simp [hch, hu0, hmod, sysexEventOf, vm_evt.zero, MIDI_SYSEX]
  · have hcases : c = 0xF0 ∨ c = 0xF1 ∨ c = 0xF2 ∨ c = 0xF3 ∨ c = 0xF7 := by omega
    rcases hcases with rfl | rfl | rfl | rfl | rfl <;>
      simp [hu0, hmod, sysexEventOf, vm_evt.zero, MIDI_SYSEX, MIDI_SYSEX_EOX,
        w1, w2, w3]

/-- C5, failing input: a SysEx with three accumulated bytes (`0xF0 01 02 03`) that
is terminated by the status byte 0xF6 is not returned; the call returns the
zero-payload event of type 0xF6 instead, and the same happens for 0xF4 and 0xF5. -/
theorem vm_event_parse_sysex_lost_at_tune_request :
    (parseBytes vm_ep.zero [0xF0, 1, 2, 3]).1.type = 0xF0 ∧
    (parseBytes vm_ep.zero [0xF0, 1, 2, 3]).1.data_used = 3 ∧
    (parseBytes vm_ep.zero [0xF0, 1, 2, 3]).1.data.take 3 = [1, 2, 3] ∧
    (vm_event_parse (parseBytes vm_ep.zero [0xF0, 1, 2, 3]).1 0xF6).2 =
      some (zeroPayloadEvent 0xF6) ∧
    (vm_event_parse (parseBytes vm_ep.zero [0xF0, 1, 2, 3]).1 0xF4).2 =
      some (zeroPayloadEvent 0xF4) ∧
    (vm_event_parse (parseBytes vm_ep.zero [0xF0, 1, 2, 3]).1 0xF5).2 =
      some (zeroPayloadEvent 0xF5) ∧
    (parseBytes vm_ep.zero [0xF0, 1, 2, 3, 0xF6]).2 =
      [none, none, none, none, some (zeroPayloadEvent 0xF6)] := by
  decide

theorem parse_sysex_start (ep : vm_ep)
    (hns : ¬ (MIDI_SYSEX = ep.type ∧ 0 < ep.data_used)) :
    vm_event_parse ep 0xF0 =
      ({ ep with data_used := 0, chan := 0, type := 0xF0, data_required := 1024 }, none) := by
  have hs : 0x80 &&& 0xF0 ≠ 0 := by decide
  have h3 : ¬ 0xF8 ≤ 0xF0 := by decide
  unfold vm_event_parse
  rw [if_pos hs, if_neg h3]
  simp only [decide_eq_false hns]
  simp [MIDI_SYSEX, MIDI_SYSEX_MAX_MSG_SIZE]

theorem parse_sysex_data (ds : List Nat) (hd : ∀ d ∈ ds, d < 128) :
    ∀ (ep : vm_ep) (pre rest : List Nat), ep.type = 0xF0 → ep.data = pre ++ rest →
      ep.data_used = pre.length → ds.length ≤ rest.length →
      pre.length + rest.length ≤ 1024 →
      parseBytes ep ds =
        ({ ep with data_used := pre.length + ds.length,
                   data := pre ++ ds ++ rest.drop ds.length },
          List.replicate ds.length none) := by
  induction ds with
  | nil =>
    intro ep pre rest _ hdata hused _ _
    obtain ⟨ty, ch, du, dr, ev, data⟩ := ep
    simp only at hdata hused
    subst hdata hused
    simp [parseBytes]
  | cons d ds ih =>
    intro ep pre rest hty hdata hused hlen hcap
    obtain ⟨ty, ch, du, dr, ev, data⟩ := ep
    simp only at hty hdata hused
    subst hty hdata hused
    have hd0 := data_byte_land d (hd d (List.mem_cons_self d ds))
    obtain ⟨x, xs, rfl⟩ : ∃ x xs, rest = x :: xs := by
      match rest, hlen with
      | x :: xs, _ => exact ⟨x, xs, rfl⟩
    simp only [List.length_cons] at hlen hcap
    have hfull : ¬ 1024 ≤ pre.length := by omega
    have hstep : vm_event_parse
        { type := 0xF0, chan := ch, data_used := pre.length, data_required := dr,
          event := ev, data := pre ++ x :: xs } d =
        ({ type := 0xF0, chan := ch, data_used := (pre ++ [d]).length, data_required := dr,
           event := ev, data := (pre ++ [d]) ++ xs }, none) := by
      unfold vm_event_parse
      simp [hd0, hfull, MIDI_SYSEX, MIDI_SYSEX_MAX_MSG_SIZE]
    have hrest := ih (fun y hy => hd y (List.mem_cons_of_mem d hy))
      { type := 0xF0, chan := ch, data_used := (pre ++ [d]).length, data_required := dr,
        event := ev, data := (pre ++ [d]) ++ xs } (pre ++ [d]) xs rfl rfl rfl
      (by omega) (by simp only [List.length_append, List.length_singleton]; omega)
    simp only [parseBytes, hstep, hrest]
    simp [List.replicate_succ]
    omega

theorem zero_not_staged : ¬ (MIDI_SYSEX = vm_ep.zero.type ∧ 0 < vm_ep.zero.data_used) := by
  intro h; exact absurd h.2 (by decide)

/-- State of a zero-initialised parser after `0xF0` and the data bytes `ds`. -/
theorem parseBytes_sysex_zero (ds : List Nat) (hd : ∀ d ∈ ds, d < 128)
    (hlen : ds.length ≤ 1024) :
    parseBytes vm_ep.zero (0xF0 :: ds) =
      ({ vm_ep.zero with type := 0xF0, data_required := 1024, data_used := ds.length,
                         data := ds ++ List.replicate (1024 - ds.length) 0 },
        none :: List.replicate ds.length none) := by
  have hst := parse_sysex_start vm_ep.zero zero_not_staged
  have hacc := parse_sysex_data ds hd
    { vm_ep.zero with data_used := 0, chan := 0, type := 0xF0, data_required := 1024 }
    [] (List.replicate 1024 0) rfl rfl rfl
    (by rw [List.length_replicate]; exact hlen)
    (by rw [List.length_replicate]; simp)
  simp only [parseBytes, hst, hacc, List.length_nil, Nat.zero_add, List.nil_append,
    List.drop_replicate]
  rfl

theorem parseBytes_singleton (ep : vm_ep) (c : Nat) :
    parseBytes ep [c] = ((vm_event_parse ep c).1, [(vm_event_parse ep c).2]) := rfl

theorem eventCount_replicate_none (n : Nat) (rest : List (Option vm_evt)) :
    eventCount (List.replicate n none ++ rest) = eventCount rest := by
  unfold eventCount
  rw [List.filter_append]
  have : (List.replicate n (none : Option vm_evt)).filter Option.isSome = [] := by
    rw [List.filter_eq_nil_iff]
    intro a ha
    rw [List.eq_of_mem_replicate ha]
    simp
  rw [this, List.nil_append]

/-- C6: for 1 ≤ n ≤ 1024 data bytes (each below 0x80), feeding `0xF0`, the bytes
and `0xF7` to a zero-initialised parser returns exactly one event, at the `0xF7`
byte, with type 0xF0, `p1 = n` and `ex_data` designating the `n` bytes in order. -/
theorem vm_event_parse_sysex_complete (ds : List Nat)
    (h1 : 1 ≤ ds.length) (h2 : ds.length ≤ 1024) (hd : ∀ d ∈ ds, d < 0x80) :
    (parseBytes vm_ep.zero (0xF0 :: (ds ++ [0xF7]))).2 =
      none :: List.replicate ds.length none ++
        [some (sysexEventOf ds.length (ds ++ List.replicate (1024 - ds.length) 0))] ∧
    (ds ++ List.replicate (1024 - ds.length) 0).take ds.length = ds ∧
    eventCount (parseBytes vm_ep.zero (0xF0 :: (ds ++ [0xF7]))).2 = 1 := by
  have hacc := parseBytes_sysex_zero ds hd h2
  have hterm := parse_status_terminates_sysex (parseBytes vm_ep.zero (0xF0 :: ds)).1 0xF7
    (by rw [hacc]) (by rw [hacc]; exact h1) (by rw [hacc]; exact h2)
    (by decide) (by decide) (by decide)
  have hout : (parseBytes vm_ep.zero (0xF0 :: (ds ++ [0xF7]))).2 =
      none :: List.replicate ds.length none ++
        [some (sysexEventOf ds.length (ds ++ List.replicate (1024 - ds.length) 0))] := by
    rw [← List.cons_append, parseBytes_append, parseBytes_singleton, hterm, hacc]
  refine ⟨hout, by simp, ?_⟩
  rw [hout]
  exact eventCount_replicate_none (ds.length + 1) _

/-- C6, witness: a SysEx of exactly 1024 data bytes parses to a single event with
`p1 = 1024`. -/
theorem vm_event_parse_sysex_complete_witness :
    (parseBytes vm_ep.zero (0xF0 :: (List.replicate 1024 1 ++ [0xF7]))).2 =
      none :: List.replicate (List.replicate 1024 1).length none ++
        [some (sysexEventOf (List.replicate 1024 1).length
          (List.replicate 1024 1 ++
            List.replicate (1024 - (List.replicate 1024 1).length) 0))] ∧
    (List.replicate 1024 1).length = 1024 := by
  have h := vm_event_parse_sysex_complete (List.replicate 1024 1)
    (by rw [List.length_replicate]; decide) (by rw [List.length_replicate])
    (fun d hd => by rw [List.eq_of_mem_replicate hd]; decide)
  exact ⟨h.1, List.length_replicate 1024 1⟩

theorem parse_data_sysex_full (ep : vm_ep) (d : Nat) (hd : d < 128)
    (hty : ep.type = 0xF0) (hfull : 1024 ≤ ep.data_used) :
    vm_event_parse ep d = ({ ep with type := 0 }, none) := by
  have hd0 := data_byte_land d hd
  unfold vm_event_parse
  simp [hd0, hty, hfull, MIDI_SYSEX_MAX_MSG_SIZE]

/-- After `0xF0` and at least 1025 data bytes no call has returned an event and
the parser type is 0. -/
theorem parseBytes_sysex_overlong (ds : List Nat) (hm : 1025 ≤ ds.length)
    (hd : ∀ d ∈ ds, d < 128) :
    (parseBytes vm_ep.zero (0xF0 :: ds)).2 = List.replicate (ds.length + 1) none ∧
    (parseBytes vm_ep.zero (0xF0 :: ds)).1.type = 0 := by
  obtain ⟨d, ds2, hsplit⟩ : ∃ d ds2, ds.drop 1024 = d :: ds2 := by
    have hl : (ds.drop 1024).length = ds.length - 1024 := List.length_drop 1024 ds
    match hq : ds.drop 1024, hl with
    | [], h => simp at h; omega
    | d :: ds2, _ => exact ⟨d, ds2, rfl⟩
  have hds : ds = ds.take 1024 ++ (d :: ds2) := by
    rw [← hsplit, List.take_append_drop]
  have hmem1 : ∀ x ∈ ds.take 1024, x < 128 := fun x hx => hd x (List.mem_of_mem_take hx)
  have hmem2 : ∀ x ∈ d :: ds2, x < 128 := fun x hx =>
    hd x (by rw [hds]; exact List.mem_append_right _ hx)
  have hl1 : (ds.take 1024).length = 1024 := by
    rw [List.length_take]; omega
  have hacc := parseBytes_sysex_zero (ds.take 1024) hmem1 (by omega)
  have hfullstep := parse_data_sysex_full (parseBytes vm_ep.zero (0xF0 :: ds.take 1024)).1 d
    (hmem2 d (List.mem_cons_self d ds2)) (by rw [hacc]) (by rw [hacc]; simp only; omega)
  have hidle := parseBytes_idle ds2 (fun x hx => hmem2 x (List.mem_cons_of_mem d hx))
    (vm_event_parse (parseBytes vm_ep.zero (0xF0 :: ds.take 1024)).1 d).1
    (by rw [hfullstep])
  have hrun : parseBytes vm_ep.zero (0xF0 :: ds) =
      ((vm_event_parse (parseBytes vm_ep.zero (0xF0 :: ds.take 1024)).1 d).1,
        (none :: List.replicate 1024 none) ++ (none :: List.replicate ds2.length none)) := by
    have h0 : (0xF0 :: ds) = (0xF0 :: ds.take 1024) ++ (d :: ds2) := by
      rw [List.cons_append, ← hds]
    rw [h0, parseBytes_append]
    have hcons : parseBytes (parseBytes vm_ep.zero (0xF0 :: ds.take 1024)).1 (d :: ds2) =
        ((vm_event_parse (parseBytes vm_ep.zero (0xF0 :: ds.take 1024)).1 d).1,
          none :: List.replicate ds2.length none) := by
      show ((parseBytes (vm_event_parse _ d).1 ds2).1,
        (vm_event_parse _ d).2 :: (parseBytes (vm_event_parse _ d).1 ds2).2) = _
      rw [hidle, hfullstep]
    rw [hcons, hacc, hl1]
  have hlen : ds.length = 1024 + (ds2.length + 1) := by
    have := congrArg List.length hds
    rw [List.length_append, hl1, List.length_cons] at this
    exact this
  constructor
  · rw [hrun, hlen]
    simp only [← List.replicate_succ, ← List.replicate_add]
    congr 1
    omega
  · rw [hrun, hfullstep]

/-- C7 (over-long SysEx): after `0xF0` and `m ≥ 1025` data bytes (each below 0x80)
on a zero-initialised parser, no data byte has returned an event, the parser type
is 0 from the 1025th data byte onward, and the next status byte (0xF7 or any
channel status byte) returns no event. -/
theorem vm_event_parse_sysex_overlong (ds : List Nat) (c : Nat)
    (hm : 1025 ≤ ds.length) (hd : ∀ d ∈ ds, d < 0x80)
    (hc : c = 0xF7 ∨ (0x80 ≤ c ∧ c ≤ 0xEF)) :
    (parseBytes vm_ep.zero (0xF0 :: ds)).2 = List.replicate (ds.length + 1) none ∧
    (∀ j, 1025 ≤ j → j ≤ ds.length →
      (parseBytes vm_ep.zero (0xF0 :: ds.take j)).1.type = 0) ∧
    (vm_event_parse (parseBytes vm_ep.zero (0xF0 :: ds)).1 c).2 = none := by
  have hmain := parseBytes_sysex_overlong ds hm hd
  refine ⟨hmain.1, ?_, ?_⟩
  · intro j hj1 hj2
    have hlj : (ds.take j).length = j := by rw [List.length_take]; omega
    exact (parseBytes_sysex_overlong (ds.take j) (by omega)
      (fun x hx => hd x (List.mem_of_mem_take hx))).2
  · have hns : ¬ (MIDI_SYSEX = (parseBytes vm_ep.zero (0xF0 :: ds)).1.type ∧
        0 < (parseBytes vm_ep.zero (0xF0 :: ds)).1.data_used) := by
      rw [hmain.2]; intro h; exact absurd h.1 (by decide)
    rcases hc with rfl | ⟨hlo, hhi⟩
    · have hs : 0x80 &&& 0xF7 ≠ 0 := by decide
      have h3 : ¬ 0xF8 ≤ 0xF7 := by decide
      unfold vm_event_parse
      rw [if_pos hs, if_neg h3]
      simp only [decide_eq_false hns]
      simp [MIDI_SYSEX, MIDI_SYSEX_EOX]
    · rw [parse_chan_status _ c hlo (by omega) hns]

/-- C7, witness: 1025 data bytes after `0xF0`, then `0xF7`. -/
theorem vm_event_parse_sysex_overlong_witness :
    (parseBytes vm_ep.zero (0xF0 :: List.replicate 1025 1)).2 =
      List.replicate ((List.replicate 1025 1).length + 1) none ∧
    (vm_event_parse (parseBytes vm_ep.zero (0xF0 :: List.replicate 1025 1)).1 0xF7).2 = none := by
  have h := vm_event_parse_sysex_overlong (List.replicate 1025 1) 0xF7
    (by rw [List.length_replicate])
    (fun d hd => by rw [List.eq_of_mem_replicate hd]; decide)
    (Or.inl rfl)
  exact ⟨h.1, h.2.2⟩

/-! ## vm_event_serialize: the data-byte mask -/

/-- C2, failing input: for the note-on `{type = 0x90, chan = 0, p1 = 60, p2 = 64}`
and a 3-byte buffer `vm_event_serialize` writes `90 34 40`, whereas masking with
0x7F gives `90 3C 40`; and for `p1 = 0x80` the second byte written is 0x80, which
is not below 0x80. -/
theorem vm_event_serialize_mask_clears_bit3 :
    vm_event_serialize (some { type := 0x90, chan := 0, p1 := 60, p2 := 64, ex_data := none })
        (some [0, 0, 0]) 3 (some 0) = (0, some [0x90, 0x34, 0x40], some 3) ∧
    specChannelBytes { type := 0x90, chan := 0, p1 := 60, p2 := 64, ex_data := none } =
      [0x90, 0x3C, 0x40] ∧
    vm_event_serialize (some { type := 0x90, chan := 0, p1 := 0x80, p2 := 64, ex_data := none })
        (some [0, 0, 0]) 3 (some 0) = (0, some [0x90, 0x80, 0x40], some 3) := by
  decide

/-- C1, failing input: the valid note-on `{type = 0x90, chan = 0, p1 = 60, p2 = 64}`
is serialized to `90 34 40`, and parsing these bytes on a zero-initialised parser
returns a note-on with `p1 = 52`, not 60. -/
theorem vm_event_roundtrip_note_on_60 :
    serializedBytes { type := 0x90, chan := 0, p1 := 60, p2 := 64, ex_data := none } =
      [0x90, 0x34, 0x40] ∧
    (parseBytes vm_ep.zero
        (serializedBytes { type := 0x90, chan := 0, p1 := 60, p2 := 64, ex_data := none })).2 =
      [none, none, some { type := 0x90, chan := 0, p1 := 52, p2 := 64, ex_data := none }] := by
  decide

/-! ## The pitch-bend example -/

/-- C11: `vm_event_serialize` of `{type = 0xE0, chan = 2, p1 = 0x2040}` needs and
writes exactly the three bytes `E2 40 40` (a fourth byte of the buffer is left as
it was), and feeding `E2 40 40` to a zero-initialised parser returns one event,
at the last byte, with type 0xE0, channel 2 and `p1 = 0x2040`. -/
theorem vm_event_pitch_bend_example :
    vm_event_serialize (some { type := 0xE0, chan := 2, p1 := 0x2040, p2 := 0, ex_data := none })
        (some [0, 0, 0]) 3 (some 0) = (0, some [0xE2, 0x40, 0x40], some 3) ∧
    vm_event_serialize (some { type := 0xE0, chan := 2, p1 := 0x2040, p2 := 0, ex_data := none })
        (some [9, 9, 9, 9]) 4 (some 0) = (0, some [0xE2, 0x40, 0x40, 9], some 3) ∧
    (parseBytes vm_ep.zero [0xE2, 0x40, 0x40]).2 =
      [none, none, some { type := 0xE0, chan := 2, p1 := 0x2040, p2 := 0, ex_data := none }] := by
  decide

namespace Sequencer

/-! ## vm_sequencer_event_handle: unit dispatch bounds -/

/-- The record size `vm_sequencer_event_handle` derives from the first byte. -/
theorem ev_size_cases (b : Nat) : (if 128 ≤ b then 8 else 4) = if b < 128 then 4 else 8 := by
  split_ifs <;> first | rfl | omega

/-- A complete record of a unit-addressed kind whose unit is out of range is
dropped. -/
theorem handle_dev_out_of_range (env : Env) (fuel : Nat) (f : vm_fd) (pbuf : List Nat)
    (buf_size : Nat) (w : World)
    (hkind : (pbuf.getD 0 0 = SEQ_MIDIPUTC ∧ f.devs_count ≤ pbuf.getD 2 0) ∨
      ((pbuf.getD 0 0 = EV_CHN_COMMON ∨ pbuf.getD 0 0 = EV_CHN_VOICE ∨
          pbuf.getD 0 0 = EV_SYSEX) ∧ f.devs_count ≤ pbuf.getD 1 0))
    (hsize : (if 128 ≤ pbuf.getD 0 0 then 8 else 4) ≤ buf_size) :
    vm_sequencer_event_handle env fuel (some f) (some pbuf) buf_size w =
      some ((if 128 ≤ pbuf.getD 0 0 then 8 else 4), some f, w) := by
  have hpos : ¬ 0 = buf_size := by
    intro h; rw [← h] at hsize; split_ifs at hsize <;> omega
  have hnlt : ¬ buf_size < (if 128 ≤ pbuf.getD 0 0 then 8 else 4) := by omega
  unfold vm_sequencer_event_handle
  simp only [hpos, if_false, hnlt]
  generalize pbuf.getD 0 0 = b0 at *
  generalize pbuf.getD 1 0 = b1 at *
  generalize pbuf.getD 2 0 = b2 at *
  rcases hkind with ⟨h0, hd⟩ | ⟨h0 | h0 | h0, hd⟩ <;> subst h0 <;>
    simp [hd, SEQ_MIDIPUTC, EV_TIMING, EV_CHN_COMMON, EV_CHN_VOICE, EV_SYSEX]

theorem writtenTo_foldr_append (l : List WriteCall) (c : WriteCall) (u : Nat) :
    (l ++ [c]).foldr (fun c acc =>
        if c.dev = u ∧ 0 < c.rc then c.bytes.take c.rc.toNat ++ acc else acc) [] =
      l.foldr (fun c acc =>
        if c.dev = u ∧ 0 < c.rc then c.bytes.take c.rc.toNat ++ acc else acc) [] ++
        (if c.dev = u ∧ 0 < c.rc then c.bytes.take c.rc.toNat else []) := by
  induction l with
  | nil => by_cases h : c.dev = u ∧ 0 < c.rc <;> simp [h]
  | cons x xs ih =>
    simp only [List.cons_append, List.foldr_cons, ih]
    by_cases h : x.dev = u ∧ 0 < x.rc <;> simp [h]

/-- The bytes accepted by unit `u` after one more recorded call. -/
theorem writtenTo_sys_write (env : Env) (dev : Nat) (bytes : List Nat) (w : World) (u : Nat) :
    (sys_write env dev bytes w).2.writtenTo u =
      w.writtenTo u ++
        (if dev = u ∧ 0 < env.write_rc w.writes.length dev bytes then
          bytes.take (env.write_rc w.writes.length dev bytes).toNat else []) := by
  unfold World.writtenTo sys_write
  exact writtenTo_foldr_append w.writes _ u

/-- C13 (unit dispatch bounds): a complete MIDIPUTC, CHN_COMMON, CHN_VOICE or SYSEX
record whose unit is not below `devs_count` causes no downstream write, leaves the
handle unchanged and returns the record size; a MIDIPUTC record whose unit `dev` is
below `devs_count` makes exactly one `write` call, offering the one data byte
(record byte 1) to unit `dev`, so that no other unit receives anything. -/
theorem vm_sequencer_event_handle_dispatch_bounds (env : Env) (fuel : Nat) (f : vm_fd)
    (pbuf : List Nat) (buf_size : Nat) (w : World)
    (hsize : (if 128 ≤ pbuf.getD 0 0 then 8 else 4) ≤ buf_size) :
    (((pbuf.getD 0 0 = SEQ_MIDIPUTC ∧ f.devs_count ≤ pbuf.getD 2 0) ∨
        ((pbuf.getD 0 0 = EV_CHN_COMMON ∨ pbuf.getD 0 0 = EV_CHN_VOICE ∨
            pbuf.getD 0 0 = EV_SYSEX) ∧ f.devs_count ≤ pbuf.getD 1 0)) →
      vm_sequencer_event_handle env fuel (some f) (some pbuf) buf_size w =
        some ((if pbuf.getD 0 0 < 128 then 4 else 8), some f, w)) ∧
    ((pbuf.getD 0 0 = SEQ_MIDIPUTC ∧ pbuf.getD 2 0 < f.devs_count) →
      vm_sequencer_event_handle env fuel (some f) (some pbuf) buf_size w =
        some (4, some f, { w with writes := w.writes ++
          [{ dev := pbuf.getD 2 0, bytes := [pbuf.getD 1 0],
             rc := env.write_rc w.writes.length (pbuf.getD 2 0) [pbuf.getD 1 0] }] }) ∧
      ∀ f' w', vm_sequencer_event_handle env fuel (some f) (some pbuf) buf_size w =
          some (4, f', w') →
        (∀ u, u ≠ pbuf.getD 2 0 → w'.writtenTo u = w.writtenTo u) ∧
        (env.write_rc w.writes.length (pbuf.getD 2 0) [pbuf.getD 1 0] = 1 →
          w'.writtenTo (pbuf.getD 2 0) = w.writtenTo (pbuf.getD 2 0) ++ [pbuf.getD 1 0])) := by
  constructor
  · intro hkind
    rw [← ev_size_cases]
    exact handle_dev_out_of_range env fuel f pbuf buf_size w hkind hsize
  · rintro ⟨h0, hd⟩
    have hres : vm_sequencer_event_handle env fuel (some f) (some pbuf) buf_size w =
        some (4, some f, (sys_write env (pbuf.getD 2 0) [pbuf.getD 1 0] w).2) := by
      have hpos : ¬ 0 = buf_size := by
        intro h; rw [← h] at hsize; split_ifs at hsize <;> omega
      have hnlt : ¬ buf_size < (if 128 ≤ pbuf.getD 0 0 then 8 else 4) := by omega
      have hd' : ¬ f.devs_count ≤ pbuf.getD 2 0 := by omega
      unfold vm_sequencer_event_handle
      simp only [hpos, if_false, hnlt]
      generalize pbuf.getD 0 0 = b0 at *
      generalize pbuf.getD 1 0 = b1 at *
      generalize pbuf.getD 2 0 = b2 at *
      subst h0
      simp [hd', SEQ_MIDIPUTC]
    refine ⟨by rw [hres]; rfl, ?_⟩
    intro f' w' hw
    rw [hres] at hw
    have hw' : w' = (sys_write env (pbuf.getD 2 0) [pbuf.getD 1 0] w).2 := by
      simp only [Option.some.injEq, Prod.mk.injEq] at hw
      exact hw.2.2.symm
    subst hw'
    constructor
    · intro u hu
      rw [writtenTo_sys_write]
      have : ¬ (pbuf.getD 2 0 = u ∧
          0 < env.write_rc w.writes.length (pbuf.getD 2 0) [pbuf.getD 1 0]) :=
        fun h => hu h.1.symm
      rw [if_neg this, List.append_nil]
    · intro hrc
      rw [writtenTo_sys_write, hrc]
      have : (pbuf.getD 2 0 = pbuf.getD 2 0 ∧ (0 : Int) < 1) := ⟨rfl, by decide⟩
      rw [if_pos this]
      rfl

/-- C13, witness: with two units, MIDIPUTC for unit 2 (`dev = devs_count`) is
dropped, and MIDIPUTC for unit 1 (`dev = devs_count - 1`) offers its data byte to
unit 1. -/
theorem vm_sequencer_event_handle_dispatch_bounds_witness :
    vm_sequencer_event_handle (Env.acceptAll none) 0 (some (vm_fd.opened 0 2))
        (some [5, 77, 2, 0]) 4 World.empty =
      some (4, some (vm_fd.opened 0 2), World.empty) ∧
    vm_sequencer_event_handle (Env.acceptAll none) 0 (some (vm_fd.opened 0 2))
        (some [5, 77, 1, 0]) 4 World.empty =
      some (4, some (vm_fd.opened 0 2),
        { writes := [{ dev := 1, bytes := [77], rc := 1 }], sleeps := [] }) := by
  have h := vm_sequencer_event_handle_dispatch_bounds (Env.acceptAll none) 0
    (vm_fd.opened 0 2) [5, 77, 2, 0] 4 World.empty (by decide)
  have h' := vm_sequencer_event_handle_dispatch_bounds (Env.acceptAll none) 0
    (vm_fd.opened 0 2) [5, 77, 1, 0] 4 World.empty (by decide)
  exact ⟨h.1 (Or.inl ⟨rfl, by decide⟩), (h'.2 ⟨rfl, by decide⟩).1⟩

/-! ## vm_backend_event_write: the write loop ends -/

theorem memcpy_length (buf : List Nat) (off : Nat) (src : List Nat) (n : Nat) :
    (memcpy buf off src n).length = buf.length := by
  unfold memcpy
  generalize List.range n = is
  induction is generalizing buf with
  | nil => rfl
  | cons i is ih => simp only [List.foldl_cons, ih, List.length_set]

theorem serialize_write_length (e : vm_evt) (buf : List Nat) :
    (vm_event_serialize.write e buf).length = buf.length := by
  unfold vm_event_serialize.write
  split_ifs <;> simp only [List.length_set, memcpy_length]

/-- A successful `vm_event_serialize` stores a required size that is at most
`buf_size` and keeps the length of the buffer. -/
theorem serialize_ok (e : vm_evt) (buf : List Nat) (buf_size r : Nat)
    (h : (vm_event_serialize (some e) (some buf) buf_size (some r)).1 = 0) :
    ∃ b n, (vm_event_serialize (some e) (some buf) buf_size (some r)).2.1 = some b ∧
      (vm_event_serialize (some e) (some buf) buf_size (some r)).2.2 = some n ∧
      b.length = buf.length ∧ n ≤ buf_size := by
  unfold vm_event_serialize at h ⊢
  have h1 : EINVAL ≠ 0 := by decide
  have h2 : ENOBUFS ≠ 0 := by decide
  by_cases hinv : (some buf = none ∧ 0 ≠ buf_size) ∨ (some r = none) ∨
        (MIDI_SYSEX = e.type ∧ (e.ex_data = none ∨ 0 = e.p1)) ∨
        MIDI_SYSEX_EOX = e.type
  · simp only [hinv, if_true] at h
    exact absurd h h1
  · simp only [hinv, if_false] at h ⊢
    by_cases hlt : buf_size < vm_event_serialize.buf_size_req e
    · simp only [hlt, if_true] at h
      exact absurd h h2
    · simp only [hlt, if_false]
      exact ⟨_, _, rfl, rfl, serialize_write_length e buf, Nat.le_of_not_lt hlt⟩

theorem write_loop_terminates (env : Env) (hwb : env.wellBehaved) (dev : Nat)
    (buf : List Nat) (buf_size : Nat) (hlen : buf_size ≤ buf.length)
    (hsmall : buf_size < 2 ^ 64) :
    ∀ fuel i w, i ≤ buf_size → buf_size - i < fuel →
      ∃ r, vm_backend_event_write.loop env dev buf buf_size fuel i w = some r := by
  intro fuel
  induction fuel with
  | zero => intro i w _ h; omega
  | succ fuel ih =>
    intro i w hi hf
    unfold vm_backend_event_write.loop
    by_cases hlt : i < buf_size
    · simp only [hlt, if_true]
      by_cases herr : (sys_write env dev ((buf.drop i).take (buf_size - i)) w).1 = -1
      · simp only [herr, if_true]
        exact ⟨_, rfl⟩
      · simp only [herr, if_false]
        have hne : (buf.drop i).take (buf_size - i) ≠ [] := by
          intro h
          have := congrArg List.length h
          simp only [List.length_take, List.length_drop, List.length_nil] at this
          omega
        have hoff : ((buf.drop i).take (buf_size - i)).length = buf_size - i := by
          simp only [List.length_take, List.length_drop]
          omega
        have hrc := hwb w.writes.length dev _ hne
        have hsw : (sys_write env dev ((buf.drop i).take (buf_size - i)) w).1 =
            env.write_rc w.writes.length dev ((buf.drop i).take (buf_size - i)) := rfl
        rw [hsw] at herr ⊢
        rw [hoff] at hrc
        rcases hrc with h | ⟨h1, h2⟩
        · exact absurd h herr
        · generalize env.write_rc w.writes.length dev ((buf.drop i).take (buf_size - i)) = rc
            at h1 h2
          have hi' : (((i : Int) + rc) % 2 ^ 64).toNat ≤ buf_size := by omega
          have hf' : buf_size - (((i : Int) + rc) % 2 ^ 64).toNat < fuel := by omega
          exact ih _ _ hi' hf'
    · simp only [hlt, if_false]
      exact ⟨_, rfl⟩

/-- With a well-behaved `write` and more than `MIDI_SYSEX_MAX_MSG_SIZE + 8` units of
fuel, `vm_backend_event_write` returns. -/
theorem vm_backend_event_write_returns (env : Env) (hwb : env.wellBehaved) (fuel : Nat)
    (hfuel : 1032 < fuel) (fd : Option vm_fd) (dev : Nat) (evt : Option vm_evt) (w : World) :
    ∃ r, vm_backend_event_write env fuel fd dev evt w = some r := by
  unfold vm_backend_event_write
  cases fd with
  | none => exact ⟨_, rfl⟩
  | some f =>
    cases evt with
    | none => exact ⟨_, rfl⟩
    | some e =>
      simp only
      split_ifs with hdev hser
      · exact ⟨_, rfl⟩
      · exact ⟨_, rfl⟩
      · have h0 : (vm_event_serialize (some e)
            (some (List.replicate (MIDI_SYSEX_MAX_MSG_SIZE + 8) 0))
            (MIDI_SYSEX_MAX_MSG_SIZE + 8) (some 0)).1 = 0 := by
          by_contra hc; exact hser (fun h => hc h.symm)
        obtain ⟨b, n, hb, hn, hbl, hnle⟩ := serialize_ok e _ _ _ h0
        rw [hb, hn]
        simp only [Option.getD_some]
        rw [List.length_replicate] at hbl
        have hM : MIDI_SYSEX_MAX_MSG_SIZE + 8 = 1032 := rfl
        rw [hM] at hbl hnle
        exact write_loop_terminates env hwb dev b n (by omega) (by omega) fuel 0 w
          (Nat.zero_le n) (by omega)

/-! ## vm_sequencer_event_handle: the value returned -/

theorem map_backend_write_returns (env : Env) (hwb : env.wellBehaved) (fuel : Nat)
    (hfuel : 1032 < fuel) (f : vm_fd) (dev : Nat) (evt : vm_evt) (w : World) (n : Nat) :
    ∃ f' w', (vm_backend_event_write env fuel (some f) dev (some evt) w).map
      (fun r => (n, some f, r.2)) = some (n, some f', w') := by
  obtain ⟨r, hr⟩ := vm_backend_event_write_returns env hwb fuel hfuel (some f) dev (some evt) w
  rw [hr]
  exact ⟨_, _, rfl⟩

/-- C12: for a non-empty buffer, `vm_sequencer_event_handle` returns `buf_size`
without any effect when fewer bytes than the record size (4 when the first byte
is below 128, else 8) are present; otherwise it returns the record size, or
`buf_size` for opcode 0xFD, whatever the record holds. -/
theorem vm_sequencer_event_handle_return_value (env : Env) (fuel : Nat) (f : vm_fd)
    (pbuf : List Nat) (buf_size : Nat) (w : World)
    (hne : 0 < buf_size) (hwb : env.wellBehaved) (hfuel : 1032 < fuel) :
    (buf_size < (if pbuf.getD 0 0 < 128 then 4 else 8) →
      vm_sequencer_event_handle env fuel (some f) (some pbuf) buf_size w =
        some (buf_size, some f, w)) ∧
    ((if pbuf.getD 0 0 < 128 then 4 else 8) ≤ buf_size →
      ∃ f' w', vm_sequencer_event_handle env fuel (some f) (some pbuf) buf_size w =
        some ((if pbuf.getD 0 0 = SEQ_FULLSIZE then buf_size
          else if pbuf.getD 0 0 < 128 then 4 else 8), some f', w')) := by
  have hpos : ¬ 0 = buf_size := by omega
  rw [← ev_size_cases]
  constructor
  · intro hlt
    unfold vm_sequencer_event_handle
    simp only [hpos, if_false, hlt, if_true]
  · intro hge
    have hnlt : ¬ buf_size < (if 128 ≤ pbuf.getD 0 0 then 8 else 4) := by omega
    unfold vm_sequencer_event_handle
    simp only [hpos, if_false, hnlt]
    generalize pbuf.getD 0 0 = b0 at *
    by_cases h1 : b0 = SEQ_MIDIPUTC
    · have hf : ¬ b0 = SEQ_FULLSIZE := by rw [h1]; decide
      simp only [if_pos h1, if_neg hf]
      split_ifs <;> exact ⟨_, _, rfl⟩
    by_cases h2 : b0 = EV_TIMING
    · have hf : ¬ b0 = SEQ_FULLSIZE := by rw [h2]; decide
      simp only [if_neg h1, if_pos h2, if_neg hf]
      exact ⟨_, _, rfl⟩
    by_cases h3 : b0 = EV_CHN_COMMON
    · have hf : ¬ b0 = SEQ_FULLSIZE := by rw [h3]; decide
      simp only [if_neg h1, if_neg h2, if_pos h3, if_neg hf]
      split_ifs <;>
        first
          | exact ⟨_, _, rfl⟩
          | exact map_backend_write_returns env hwb fuel hfuel f _ _ w _
    by_cases h4 : b0 = EV_CHN_VOICE
    · have hf : ¬ b0 = SEQ_FULLSIZE := by rw [h4]; decide
      simp only [if_neg h1, if_neg h2, if_neg h3, if_pos h4, if_neg hf]
      split_ifs <;>
        first
          | exact ⟨_, _, rfl⟩
          | exact map_backend_write_returns env hwb fuel hfuel f _ _ w _
    by_cases h5 : b0 = EV_SYSEX
    · have hf : ¬ b0 = SEQ_FULLSIZE := by rw [h5]; decide
      simp only [if_neg h1, if_neg h2, if_neg h3, if_neg h4, if_pos h5, if_neg hf]
      split_ifs <;>
        first
          | exact ⟨_, _, rfl⟩
          | exact map_backend_write_returns env hwb fuel hfuel f _ _ w _
    by_cases h6 : b0 = SEQ_FULLSIZE
    · simp only [if_neg h1, if_neg h2, if_neg h3, if_neg h4, if_neg h5, if_pos h6]
      exact ⟨_, _, rfl⟩
    · simp only [if_neg h1, if_neg h2, if_neg h3, if_neg h4, if_neg h5, if_neg h6]
      exact ⟨_, _, rfl⟩

/-- C12, witness: a 4-byte record, an 8-byte record, a FULLSIZE record and a
truncated record. -/
theorem vm_sequencer_event_handle_return_value_witness :
    (∃ f' w', vm_sequencer_event_handle (Env.acceptAll none) 1033 (some (vm_fd.opened 0 1))
        (some [5, 77, 0, 0, 9]) 5 World.empty = some (4, some f', w')) ∧
    (∃ f' w', vm_sequencer_event_handle (Env.acceptAll none) 1033 (some (vm_fd.opened 0 1))
        (some [0x93, 0, 0x90, 0, 60, 64, 0, 0, 9]) 9 World.empty = some (8, some f', w')) ∧
    (∃ f' w', vm_sequencer_event_handle (Env.acceptAll none) 1033 (some (vm_fd.opened 0 1))
        (some [0xfd, 0, 0, 0, 0, 0, 0, 0, 9]) 9 World.empty = some (9, some f', w')) ∧
    vm_sequencer_event_handle (Env.acceptAll none) 1033 (some (vm_fd.opened 0 1))
        (some [0x93, 0, 0x90, 0, 60]) 5 World.empty =
      some (5, some (vm_fd.opened 0 1), World.empty) := by
  have hwb : (Env.acceptAll none).wellBehaved := by
    intro k dev bytes hb
    right
    have : 0 < bytes.length := List.length_pos.mpr hb
    simp only [Env.acceptAll]
    omega
  exact ⟨(vm_sequencer_event_handle_return_value (Env.acceptAll none) 1033
      (vm_fd.opened 0 1) [5, 77, 0, 0, 9] 5 World.empty (by decide) hwb (by decide)).2
      (by decide),
    (vm_sequencer_event_handle_return_value (Env.acceptAll none) 1033
      (vm_fd.opened 0 1) [0x93, 0, 0x90, 0, 60, 64, 0, 0, 9] 9 World.empty (by decide) hwb
      (by decide)).2 (by decide),
    (vm_sequencer_event_handle_return_value (Env.acceptAll none) 1033
      (vm_fd.opened 0 1) [0xfd, 0, 0, 0, 0, 0, 0, 0, 9] 9 World.empty (by decide) hwb
      (by decide)).2 (by decide),
    (vm_sequencer_event_handle_return_value (Env.acceptAll none) 1033
      (vm_fd.opened 0 1) [0x93, 0, 0x90, 0, 60] 5 World.empty (by decide) hwb
      (by decide)).1 (by decide)⟩

/-- C14, failing input: the CHN_VOICE record `93 00 90 00 3C 40 00 00` (note-on,
channel 0, `p1 = 60`, `p2 = 64`) for unit 0 of one makes unit 0 receive
`90 34 40`, not `90 3C 40`. -/
theorem vm_sequencer_event_handle_chn_voice_note_60 :
    vm_sequencer_event_handle (Env.acceptAll none) 16 (some (vm_fd.opened 0 1))
        (some [0x93, 0, 0x90, 0, 60, 64, 0, 0]) 8 World.empty =
      some (8, some (vm_fd.opened 0 1),
        { writes := [{ dev := 0, bytes := [0x90, 0x34, 0x40], rc := 3 }], sleeps := [] }) ∧
    specChannelBytes { type := 0x90, chan := 0, p1 := 60, p2 := 64, ex_data := none } =
      [0x90, 60, 64] := by
  decide

end Sequencer

namespace DevMidi

/-- The value and the log of `vm_write` on an open handle that is not busy are
those of the outer loop started at 0 with `retval = 0`. -/
theorem vm_write_eq_outer (env : WriteEnv) (f : vm_fd) (peer : List Nat) (len : Nat)
    (hbusy : f.tx_busy = 0) :
    (vm_write env (some f) peer len).2 =
      (vm_write.outer env peer len 0 f 0 WriteLog.empty).2 := by
  unfold vm_write
  simp only [hbusy, ne_eq, not_true_eq_false, if_false]

theorem vm_write_outer_done (env : WriteEnv) (peer : List Nat) (len i : Nat) (fd : vm_fd)
    (retval : Int) (log : WriteLog) (h : ¬ i < len) :
    vm_write.outer env peer len i fd retval log = (fd, retval, log) := by
  rw [vm_write.outer]
  simp only [dif_neg h]

theorem vm_write_outer_step (env : WriteEnv) (peer : List Nat) (len i : Nat) (fd : vm_fd)
    (retval : Int) (log : WriteLog) (h : i < len) (hcopy : env.copy_in log.copies = 0) :
    vm_write.outer env peer len i fd retval log =
      vm_write.outer env peer len (i + VM_WRITE_BUF_SZ)
        { fd with tx_busy := 0,
                  parser := (vm_write.inner env
                    ((peer.drop i).take (min VM_WRITE_BUF_SZ (len - i))) fd.parser
                    { log with copies := log.copies + 1 }).1 }
        (int_of_size ((size_of_int
          (if (vm_write.inner env
              ((peer.drop i).take (min VM_WRITE_BUF_SZ (len - i))) fd.parser
              { log with copies := log.copies + 1 }).2.2 then CUSE_ERR_INVALID else retval) +
          min VM_WRITE_BUF_SZ (len - i)) % 2 ^ 64))
        (vm_write.inner env
          ((peer.drop i).take (min VM_WRITE_BUF_SZ (len - i))) fd.parser
          { log with copies := log.copies + 1 }).2.1 := by
  rw [vm_write.outer]
  simp only [dif_pos h, hcopy, ne_eq, not_true_eq_false, if_false]

set_option maxRecDepth 100000 in
theorem vm_write_outer_eval_short :
    (vm_write.outer (WriteEnv.const EIO) [0x90, 60, 64] 3 0 (vm_fd.opened 0 0 0 0) 0
        WriteLog.empty).2 =
      (0, { copies := 1, fed := [0x90, 60, 64],
            handled := [{ type := 0x90, chan := 0, p1 := 60, p2 := 64, ex_data := none }] }) := by
  rw [vm_write_outer_step _ _ _ _ _ _ _ (by decide) rfl,
    vm_write_outer_done _ _ _ _ _ _ _ (by decide)]
  decide

set_option maxRecDepth 100000 in
theorem vm_write_outer_eval_two_chunks :
    (vm_write.outer (WriteEnv.const EIO) ([0x90, 60, 64] ++ List.replicate 4093 7 ++ [0x55])
        4097 0 (vm_fd.opened 0 0 0 0) 0 WriteLog.empty).2 =
      (4094, { copies := 2, fed := [0x90, 60, 64, 0x55],
               handled :=
                 [{ type := 0x90, chan := 0, p1 := 60, p2 := 64, ex_data := none }] }) := by
  rw [vm_write_outer_step _ _ _ _ _ _ _ (by decide) rfl,
    vm_write_outer_step _ _ _ _ _ _ _ (by decide) rfl,
    vm_write_outer_done _ _ _ _ _ _ _ (by decide)]
  decide

/-- C20, failing input: a write of the three bytes `90 3C 40` during which the
synth backend returns `EIO` for the note-on returns `CUSE_ERR_INVALID + 3 = 0`
instead of `CUSE_ERR_INVALID`; and in a write of 4097 bytes whose first chunk
holds the failing note-on, the byte of the second chunk is still fed to the
parser and the value returned is 4094. -/
theorem vm_write_backend_error_not_reported :
    (vm_write (WriteEnv.const EIO)
        (some (vm_fd.opened 0 0 0 0)) [0x90, 60, 64] 3).2 =
      (0, { copies := 1, fed := [0x90, 60, 64],
            handled := [{ type := 0x90, chan := 0, p1 := 60, p2 := 64, ex_data := none }] }) ∧
    (0 : Int) ≠ CUSE_ERR_INVALID ∧
    (vm_write (WriteEnv.const EIO)
        (some (vm_fd.opened 0 0 0 0))
        ([0x90, 60, 64] ++ List.replicate 4093 7 ++ [0x55]) 4097).2 =
      (4094, { copies := 2, fed := [0x90, 60, 64, 0x55],
               handled :=
                 [{ type := 0x90, chan := 0, p1 := 60, p2 := 64, ex_data := none }] }) := by
  refine ⟨?_, by decide, ?_⟩
  · rw [vm_write_eq_outer _ _ _ _ rfl]
    exact vm_write_outer_eval_short
  · rw [vm_write_eq_outer _ _ _ _ rfl]
    exact vm_write_outer_eval_two_chunks

end DevMidi

namespace Sequencer

/-! ## vm_sequencer_event_handle: timer records -/

theorem load_store_u32 (b0 b1 b2 b3 : Nat) (param : Nat) (hp : param < 2 ^ 32) :
    load_u32 ([b0, b1, b2, b3] ++ store_u32 param) 4 = param := by
  simp only [load_u32, store_u32, List.cons_append, List.nil_append, List.getD_cons_succ,
    List.getD_cons_zero]
  norm_num
  omega

/-- An `EV_TIMING` record of at least 8 bytes is handled by the timer switch and
returns 8. -/
theorem handle_timing (env : Env) (fuel : Nat) (f : vm_fd) (pbuf : List Nat)
    (buf_size : Nat) (w : World) (h0 : pbuf.getD 0 0 = EV_TIMING) (hsz : 8 ≤ buf_size) :
    vm_sequencer_event_handle env fuel (some f) (some pbuf) buf_size w =
      some (8, some (vm_sequencer_event_handle.timing env f pbuf w).1,
        (vm_sequencer_event_handle.timing env f pbuf w).2) := by
  have hpos : ¬ 0 = buf_size := by omega
  have h128 : 128 ≤ pbuf.getD 0 0 := by rw [h0]; decide
  have hn5 : ¬ pbuf.getD 0 0 = SEQ_MIDIPUTC := by rw [h0]; decide
  have hnlt : ¬ buf_size < 8 := by omega
  unfold vm_sequencer_event_handle
  simp only [hpos, if_false, if_pos h128, hnlt, if_neg hn5, if_pos h0]

theorem clamp_eq (p lo hi : Nat) (h : lo ≤ hi) :
    (if lo > p then lo else if hi < p then hi else p) = min (max p lo) hi := by
  split_ifs <;> omega

/-- C15 (timer clamping): for every 32-bit `param`, a TIMING record with sub-op
TEMPO sets `timer_tempo` to `min (max param 8) 360`, and one with sub-op TIMERBASE
(15) sets `timer_base` to `min (max param 1) 1000`; the record returns 8, every
other field of the handle is unchanged and nothing is written or slept. -/
theorem vm_sequencer_event_handle_timer_clamp (env : Env) (fuel : Nat) (f : vm_fd)
    (w : World) (b2 b3 param : Nat) (hp : param < 2 ^ 32) :
    vm_sequencer_event_handle env fuel (some f)
        (some ([EV_TIMING, TMR_TEMPO, b2, b3] ++ store_u32 param)) 8 w =
      some (8, some { f with timer_tempo := min (max param 8) 360 }, w) ∧
    vm_sequencer_event_handle env fuel (some f)
        (some ([EV_TIMING, TMR_TIMERBASE, b2, b3] ++ store_u32 param)) 8 w =
      some (8, some { f with timer_base := min (max param 1) 1000 }, w) := by
  constructor
  · rw [handle_timing env fuel f ([EV_TIMING, TMR_TEMPO, b2, b3] ++ store_u32 param) 8 w rfl
      (le_refl 8)]
    have hsub : ([EV_TIMING, TMR_TEMPO, b2, b3] ++ store_u32 param).getD 1 0 = TMR_TEMPO := rfl
    unfold vm_sequencer_event_handle.timing
    rw [hsub, load_store_u32 _ _ _ _ param hp]
    simp only [TMR_TEMPO, TMR_WAIT_REL, TMR_WAIT_ABS, TMR_STOP, TMR_START, TMR_CONTINUE,
      Nat.reduceEqDiff, if_false, if_true, clamp_eq param 8 360 (by decide)]
  · rw [handle_timing env fuel f ([EV_TIMING, TMR_TIMERBASE, b2, b3] ++ store_u32 param) 8 w
      rfl (le_refl 8)]
    have hsub : ([EV_TIMING, TMR_TIMERBASE, b2, b3] ++ store_u32 param).getD 1 0 =
        TMR_TIMERBASE := rfl
    unfold vm_sequencer_event_handle.timing
    rw [hsub, load_store_u32 _ _ _ _ param hp]
    simp only [TMR_TEMPO, TMR_TIMERBASE, TMR_WAIT_REL, TMR_WAIT_ABS, TMR_STOP, TMR_START,
      TMR_CONTINUE, Nat.reduceEqDiff, if_false, if_true, clamp_eq param 1 1000 (by decide)]

/-- C15, witnesses: TEMPO 4 gives 8, TEMPO 1000 gives 360, TIMERBASE 0 gives 1 and
TIMERBASE 2000 gives 1000. -/
theorem vm_sequencer_event_handle_timer_clamp_witness :
    vm_sequencer_event_handle (Env.acceptAll none) 0 (some (vm_fd.opened 0 0))
        (some ([EV_TIMING, TMR_TEMPO, 0, 0] ++ store_u32 4)) 8 World.empty =
      some (8, some { vm_fd.opened 0 0 with timer_tempo := 8 }, World.empty) ∧
    vm_sequencer_event_handle (Env.acceptAll none) 0 (some (vm_fd.opened 0 0))
        (some ([EV_TIMING, TMR_TEMPO, 0, 0] ++ store_u32 1000)) 8 World.empty =
      some (8, some { vm_fd.opened 0 0 with timer_tempo := 360 }, World.empty) ∧
    vm_sequencer_event_handle (Env.acceptAll none) 0 (some (vm_fd.opened 0 0))
        (some ([EV_TIMING, TMR_TIMERBASE, 0, 0] ++ store_u32 0)) 8 World.empty =
      some (8, some { vm_fd.opened 0 0 with timer_base := 1 }, World.empty) ∧
    vm_sequencer_event_handle (Env.acceptAll none) 0 (some (vm_fd.opened 0 0))
        (some ([EV_TIMING, TMR_TIMERBASE, 0, 0] ++ store_u32 2000)) 8 World.empty =
      some (8, some { vm_fd.opened 0 0 with timer_base := 1000 }, World.empty) :=
  ⟨(vm_sequencer_event_handle_timer_clamp (Env.acceptAll none) 0 (vm_fd.opened 0 0)
      World.empty 0 0 4 (by decide)).1,
    (vm_sequencer_event_handle_timer_clamp (Env.acceptAll none) 0 (vm_fd.opened 0 0)
      World.empty 0 0 1000 (by decide)).1,
    (vm_sequencer_event_handle_timer_clamp (Env.acceptAll none) 0 (vm_fd.opened 0 0)
      World.empty 0 0 0 (by decide)).2,
    (vm_sequencer_event_handle_timer_clamp (Env.acceptAll none) 0 (vm_fd.opened 0 0)
      World.empty 0 0 2000 (by decide)).2⟩

/-- The duration `vm_timer_wait` computes, in nanoseconds, is `tmp`. -/
theorem vm_timer_wait_when_toNs (fd : vm_fd) (ticks : Nat) :
    (vm_timer_wait.when fd ticks).toNs = (vm_timer_wait.tmp fd ticks : Nat) := by
  unfold vm_timer_wait.when timespec.toNs
  simp only
  omega

/-- As long as `ticks * 60 * 10^9` fits in 64 bits, the duration is
`ticks * 60 * 10^9 / (tempo * base)` nanoseconds, rounded down. -/
theorem vm_timer_wait_tmp_no_overflow (fd : vm_fd) (ticks : Nat)
    (ht : ticks ≤ 307445734) (htempo : fd.timer_tempo ≤ 360) (hbase : fd.timer_base ≤ 1000) :
    vm_timer_wait.tmp fd ticks =
      ticks * 60 * 1000000000 / (fd.timer_tempo * fd.timer_base) := by
  unfold vm_timer_wait.tmp
  have h1 : ticks * 60 * 1000000000 < 2 ^ 64 := by omega
  have h2 : fd.timer_tempo * fd.timer_base < 2 ^ 64 := by
    have : fd.timer_tempo * fd.timer_base ≤ 360 * 1000 := Nat.mul_le_mul htempo hbase
    omega
  rw [Nat.mod_eq_of_lt h1, Nat.mod_eq_of_lt h2]

/-- C16, failing input: with `tempo = 60` and `base = 100`, 307 445 735 ticks make
`vm_timer_wait` sleep 4 381 741 ns, whereas `t * 60 * 10^9 / (tempo * base)` is
3 074 457 350 000 000 ns: the product `ticks * 60 * 10^9` exceeds `2^64`. With the
same settings 100 ticks give exactly 1 000 000 000 ns. -/
theorem vm_timer_wait_overflow :
    (vm_timer_wait.when (vm_fd.opened 0 0) 307445735).toNs = 4381741 ∧
    307445735 * 60 * 1000000000 / ((vm_fd.opened 0 0).timer_tempo *
      (vm_fd.opened 0 0).timer_base) = 3074457350000000 ∧
    vm_sequencer_event_handle (Env.acceptAll none) 0 (some (vm_fd.opened 0 0))
        (some (timingRecord TMR_WAIT_REL 307445735)) 8 World.empty =
      some (8, some (vm_fd.opened 0 0),
        { writes := [],
          sleeps := [{ wait_abs := false, when := { tv_sec := 0, tv_nsec := 4381741 } }] }) ∧
    (vm_timer_wait.when (vm_fd.opened 0 0) 100).toNs = 1000000000 := by
  decide

/-- C17, failing input: after START at 1000 s and STOP at 1000.2 s, a START at
1000.7 s sets `timer_start` but leaves `timer_stop_diff` at 200 ms, so the handle
still counts as stopped and a later STOP changes nothing. -/
theorem vm_sequencer_event_handle_start_keeps_stop_diff :
    handleTiming { tv_sec := 1000, tv_nsec := 700000000 } TMR_START 0
        (handleTiming { tv_sec := 1000, tv_nsec := 200000000 } TMR_STOP 0
          (handleTiming { tv_sec := 1000, tv_nsec := 0 } TMR_START 0
            (some (vm_fd.opened 0 0)))) =
      some { vm_fd.opened 0 0 with
        timer_start := { tv_sec := 1000, tv_nsec := 700000000 },
        timer_stop_diff := { tv_sec := 0, tv_nsec := 200000000 } } ∧
    timespecisset { tv_sec := 0, tv_nsec := 200000000 } = true ∧
    handleTiming { tv_sec := 1001, tv_nsec := 0 } TMR_STOP 0
        (some { vm_fd.opened 0 0 with
          timer_start := { tv_sec := 1000, tv_nsec := 700000000 },
          timer_stop_diff := { tv_sec := 0, tv_nsec := 200000000 } }) =
      some { vm_fd.opened 0 0 with
        timer_start := { tv_sec := 1000, tv_nsec := 700000000 },
        timer_stop_diff := { tv_sec := 0, tv_nsec := 200000000 } } := by
  decide

/-- C18, failing input: after START at 1000 s and STOP at 1000.2 s, a CONTINUE at
1000.7 s changes nothing (`timer_start` stays 1000 s, `timer_stop_diff` stays
200 ms); and `vm_time_get` at 1000.7 s with `base = 100` returns 100070, the
ticks of the clock reading itself, and zeroes `timer_start`. -/
theorem vm_sequencer_event_handle_continue_when_stopped :
    handleTiming { tv_sec := 1000, tv_nsec := 200000000 } TMR_STOP 0
        (handleTiming { tv_sec := 1000, tv_nsec := 0 } TMR_START 0
          (some (vm_fd.opened 0 0))) =
      some { vm_fd.opened 0 0 with
        timer_start := { tv_sec := 1000, tv_nsec := 0 },
        timer_stop_diff := { tv_sec := 0, tv_nsec := 200000000 } } ∧
    handleTiming { tv_sec := 1000, tv_nsec := 700000000 } TMR_CONTINUE 0
        (some { vm_fd.opened 0 0 with
          timer_start := { tv_sec := 1000, tv_nsec := 0 },
          timer_stop_diff := { tv_sec := 0, tv_nsec := 200000000 } }) =
      some { vm_fd.opened 0 0 with
        timer_start := { tv_sec := 1000, tv_nsec := 0 },
        timer_stop_diff := { tv_sec := 0, tv_nsec := 200000000 } } ∧
    timespecsub { tv_sec := 1000, tv_nsec := 700000000 } { tv_sec := 0, tv_nsec := 200000000 } =
      { tv_sec := 1000, tv_nsec := 500000000 } ∧
    vm_time_get (some { tv_sec := 1000, tv_nsec := 700000000 })
        { vm_fd.opened 0 0 with
          timer_start := { tv_sec := 1000, tv_nsec := 0 },
          timer_stop_diff := { tv_sec := 0, tv_nsec := 200000000 } } =
      ({ vm_fd.opened 0 0 with
          timer_start := { tv_sec := 0, tv_nsec := 0 },
          timer_stop_diff := { tv_sec := 0, tv_nsec := 200000000 } }, 100070) := by
  decide

theorem timespecsub_toNs (a b : timespec) :
    (timespecsub a b).toNs = a.toNs - b.toNs := by
  unfold timespecsub timespec.toNs
  simp only
  split_ifs <;> simp only <;> omega

/-- C19: a TIMING record with sub-op STOP processed while the monotonic clock reads
`now` sets `timer_stop_diff` to `now - timer_start` when the timer is running
(`timer_start` set and `timer_stop_diff` zero) and otherwise leaves the handle
as it is; `timer_start`, `timer_base` and `timer_tempo` never change, the record
returns 8 and nothing is written or slept. -/
theorem vm_sequencer_event_handle_timer_stop (env : Env) (now : timespec) (fuel : Nat)
    (f : vm_fd) (pbuf : List Nat) (buf_size : Nat) (w : World)
    (hclock : env.clock = some now)
    (h0 : pbuf.getD 0 0 = EV_TIMING) (h1 : pbuf.getD 1 0 = TMR_STOP) (hsz : 8 ≤ buf_size) :
    ∃ f', vm_sequencer_event_handle env fuel (some f) (some pbuf) buf_size w =
        some (8, some f', w) ∧
      (timespecisset f.timer_start = true ∧ timespecisset f.timer_stop_diff = false →
        f' = { f with timer_stop_diff := timespecsub now f.timer_start } ∧
        f'.timer_stop_diff.toNs = now.toNs - f.timer_start.toNs) ∧
      (¬ (timespecisset f.timer_start = true ∧ timespecisset f.timer_stop_diff = false) →
        f' = f) ∧
      f'.timer_start = f.timer_start ∧ f'.timer_base = f.timer_base ∧
      f'.timer_tempo = f.timer_tempo := by
  rw [handle_timing env fuel f pbuf buf_size w h0 hsz]
  unfold vm_sequencer_event_handle.timing
  rw [h1, hclock]
  simp only [TMR_STOP, TMR_WAIT_REL, TMR_WAIT_ABS, Nat.reduceEqDiff, if_false, if_true,
    Option.getD_some]
  by_cases hs : timespecisset f.timer_start = true
  · by_cases hd : timespecisset f.timer_stop_diff = true
    · have hcond : (¬ timespecisset f.timer_start = true ∨
          timespecisset f.timer_stop_diff = true) := Or.inr hd
      rw [if_pos hcond]
      refine ⟨f, rfl, ?_, fun _ => rfl, rfl, rfl, rfl⟩
      rintro ⟨_, h⟩
      rw [hd] at h
      exact absurd h (by decide)
    · have hcond : ¬ (¬ timespecisset f.timer_start = true ∨
          timespecisset f.timer_stop_diff = true) := by
        rintro (h | h)
        · exact h hs
        · exact hd h
      rw [if_neg hcond]
      refine ⟨_, rfl, fun _ => ⟨rfl, timespecsub_toNs now f.timer_start⟩, ?_, rfl, rfl, rfl⟩
      intro hn
      exact absurd ⟨hs, by simpa using hd⟩ hn
  · have hcond : (¬ timespecisset f.timer_start = true ∨
        timespecisset f.timer_stop_diff = true) := Or.inl hs
    rw [if_pos hcond]
    refine ⟨f, rfl, ?_, fun _ => rfl, rfl, rfl, rfl⟩
    rintro ⟨h, _⟩
    exact absurd h hs

/-- C19, witness: STOP at 1000.2 s on a timer started at 1000 s records 200 ms. -/
theorem vm_sequencer_event_handle_timer_stop_witness :
    ∃ f', vm_sequencer_event_handle
          (Env.acceptAll (some { tv_sec := 1000, tv_nsec := 200000000 })) 0
          (some { vm_fd.opened 0 0 with timer_start := { tv_sec := 1000, tv_nsec := 0 } })
          (some (timingRecord TMR_STOP 0)) 8 World.empty =
        some (8, some f', World.empty) ∧
      f' = { vm_fd.opened 0 0 with
        timer_start := { tv_sec := 1000, tv_nsec := 0 },
        timer_stop_diff := { tv_sec := 0, tv_nsec := 200000000 } } := by
  obtain ⟨f', h, hrun, _, _⟩ := vm_sequencer_event_handle_timer_stop
    (Env.acceptAll (some { tv_sec := 1000, tv_nsec := 200000000 }))
    { tv_sec := 1000, tv_nsec := 200000000 } 0
    { vm_fd.opened 0 0 with timer_start := { tv_sec := 1000, tv_nsec := 0 } }
    (timingRecord TMR_STOP 0) 8 World.empty rfl rfl rfl (le_refl 8)
  exact ⟨f', h, (hrun ⟨by decide, by decide⟩).1⟩

end Sequencer

namespace DevMidi

/-! ## vm_write of the MIDI device: the value returned when the backend accepts -/

theorem vm_write_inner_no_break (env : WriteEnv)
    (hb : ∀ k e, env.backend k e = 0 ∨ env.backend k e = EOPNOTSUPP) :
    ∀ (cs : List Nat) (ep : vm_ep) (log : WriteLog),
      (vm_write.inner env cs ep log).2.2 = false := by
  intro cs
  induction cs with
  | nil => intro ep log; rfl
  | cons c cs ih =>
    intro ep log
    unfold vm_write.inner
    cases hpar : (vm_event_parse ep c).2 with
    | none => simp only [hpar]; exact ih _ _
    | some evt =>
      simp only [hpar]
      have hcond : ¬ (0 ≠ env.backend (log.handled.length) evt ∧
          EOPNOTSUPP ≠ env.backend (log.handled.length) evt) := by
        rintro ⟨h1, h2⟩
        rcases hb log.handled.length evt with h | h
        · exact h1 h.symm
        · exact h2 h.symm
      rw [if_neg hcond]
      exact ih _ _

theorem retval_add (retval : Int) (n : Nat) (h0 : 0 ≤ retval) (h1 : retval + n < 2 ^ 31) :
    int_of_size ((size_of_int retval + n) % 2 ^ 64) = retval + n := by
  unfold int_of_size size_of_int
  split_ifs <;> omega

theorem vm_write_outer_returns (env : WriteEnv) (peer : List Nat) (len : Nat)
    (hc : ∀ k, env.copy_in k = 0)
    (hb : ∀ k e, env.backend k e = 0 ∨ env.backend k e = EOPNOTSUPP) :
    ∀ (n i : Nat) (fd : vm_fd) (retval : Int) (log : WriteLog),
      len - i ≤ n → 0 ≤ retval → retval + ((len - i : Nat) : Int) < 2 ^ 31 →
      (vm_write.outer env peer len i fd retval log).2.1 =
        retval + ((len - i : Nat) : Int) := by
  intro n
  induction n with
  | zero =>
    intro i fd retval log hn _ _
    have hdone : ¬ i < len := by omega
    rw [vm_write_outer_done _ _ _ _ _ _ _ hdone]
    have : len - i = 0 := by omega
    simp [this]
  | succ n ih =>
    intro i fd retval log hn h0 h1
    by_cases hlt : i < len
    · rw [vm_write_outer_step _ _ _ _ _ _ _ hlt (hc _)]
      rw [vm_write_inner_no_break env hb]
      simp only [Bool.false_eq_true, if_false]
      have hmin : min VM_WRITE_BUF_SZ (len - i) + (len - (i + VM_WRITE_BUF_SZ)) = len - i := by
        simp only [VM_WRITE_BUF_SZ]; omega
      have hadd := retval_add retval (min VM_WRITE_BUF_SZ (len - i)) h0 (by omega)
      rw [hadd]
      have hrec := ih (i + VM_WRITE_BUF_SZ)
        { fd with tx_busy := 0,
                  parser := (vm_write.inner env
                    ((peer.drop i).take (min VM_WRITE_BUF_SZ (len - i))) fd.parser
                    { log with copies := log.copies + 1 }).1 }
        (retval + (min VM_WRITE_BUF_SZ (len - i) : Nat))
        (vm_write.inner env
          ((peer.drop i).take (min VM_WRITE_BUF_SZ (len - i))) fd.parser
          { log with copies := log.copies + 1 }).2.1
        (by simp only [VM_WRITE_BUF_SZ]; omega) (by omega) (by omega)
      rw [hrec]; omega
    · rw [vm_write_outer_done _ _ _ _ _ _ _ hlt]
      have : len - i = 0 := by omega
      simp [this]

/-- When every copy-in succeeds and every backend result is 0 or `EOPNOTSUPP`, a
write of `len` bytes on a handle that is not busy returns `len`. -/
theorem vm_write_returns_len (env : WriteEnv) (f : vm_fd) (peer : List Nat) (len : Nat)
    (hbusy : f.tx_busy = 0) (hlen : len < 2 ^ 31)
    (hc : ∀ k, env.copy_in k = 0)
    (hb : ∀ k e, env.backend k e = 0 ∨ env.backend k e = EOPNOTSUPP) :
    (vm_write env (some f) peer len).2.1 = len := by
  rw [vm_write_eq_outer env f peer len hbusy]
  have h := vm_write_outer_returns env peer len hc hb len 0 f 0 WriteLog.empty
    (by omega) (le_refl 0) (by simp only [Nat.sub_zero]; omega)
  rw [h]
  simp

end DevMidi

namespace Sequencer

/-! ## vm_sequencer_event_handle: channel voice records -/

theorem replicate_set3 (a b c : Nat) :
    (((List.replicate 1032 0).set 0 a).set 1 b).set 2 c =
      a :: b :: c :: List.replicate 1029 0 := rfl

/-- What `vm_event_serialize` does for a note-off, note-on or key-pressure event
and a buffer of at least 3 bytes. -/
theorem serialize_voice (e : vm_evt) (buf : List Nat) (n r : Nat) (hn : 3 ≤ n)
    (hty : e.type = MIDI_NOTEOFF ∨ e.type = MIDI_NOTEON ∨ e.type = MIDI_KEY_PRESSURE) :
    vm_event_serialize (some e) (some buf) n (some r) =
      (0, some (((buf.set 0 ((e.type ||| e.chan) % 256)).set 1 ((0xF7 &&& e.p1) % 256)).set 2
        ((0xF7 &&& e.p2) % 256)), some 3) := by
  obtain ⟨ty, ch, p1, p2, ex⟩ := e
  simp only at hty
  have hlt : ¬ n < 3 := by omega
  obtain ⟨v8, v9, vA, _, _, _, _⟩ := MIDI_TYPE2LEN_vals
  rcases hty with h | h | h <;> subst h <;>
    simp [vm_event_serialize, vm_event_serialize.buf_size_req, vm_event_serialize.write,
      MIDI_SYSEX, MIDI_SYSEX_EOX, MIDI_NOTEOFF, MIDI_NOTEON, MIDI_KEY_PRESSURE,
      MIDI_PGM_CHANGE, MIDI_CHN_PRESSURE, MIDI_PITCH_BEND, v8, v9, vA, hlt]

/-- With a `write` that accepts all bytes, `vm_backend_event_write` sends a
note-off, note-on or key-pressure event to unit `dev` in one call of three
bytes. -/
theorem backend_write_voice (clock : Option timespec) (fuel : Nat) (f : vm_fd) (dev : Nat)
    (e : vm_evt) (w : World) (hdev : dev < f.devs_count)
    (hty : e.type = MIDI_NOTEOFF ∨ e.type = MIDI_NOTEON ∨ e.type = MIDI_KEY_PRESSURE) :
    vm_backend_event_write (Env.acceptAll clock) (fuel + 2) (some f) dev (some e) w =
      some (0, { w with writes := w.writes ++
        [{ dev := dev,
           bytes := [(e.type ||| e.chan) % 256, (0xF7 &&& e.p1) % 256, (0xF7 &&& e.p2) % 256],
           rc := 3 }] }) := by
  have hM : MIDI_SYSEX_MAX_MSG_SIZE + 8 = 1032 := rfl
  have hd : ¬ dev ≥ f.devs_count := by omega
  unfold vm_backend_event_write
  simp only [hd, if_false]
  rw [hM, serialize_voice e _ 1032 0 (by decide) hty, replicate_set3]
  simp only [ne_eq, not_true_eq_false, if_false, Option.getD_some]
  generalize List.replicate 1029 0 = tl
  unfold vm_backend_event_write.loop
  unfold vm_backend_event_write.loop
  simp [sys_write, Env.acceptAll]

/-- A complete CHN_VOICE record for a unit in range: for types 0x80, 0x90 and 0xA0
and a `write` that accepts all bytes, unit `dev` is offered, in one call, the
three bytes `vm_event_serialize` produces for `{mtype, chan, p1, p2}`; for any
other type nothing is written. -/
theorem handle_chn_voice (env : Env) (clock : Option timespec) (fuel : Nat) (f : vm_fd)
    (pbuf : List Nat) (buf_size : Nat) (w : World)
    (h0 : pbuf.getD 0 0 = EV_CHN_VOICE) (hsz : 8 ≤ buf_size)
    (hdev : pbuf.getD 1 0 < f.devs_count) :
    ((pbuf.getD 2 0 = MIDI_NOTEOFF ∨ pbuf.getD 2 0 = MIDI_NOTEON ∨
        pbuf.getD 2 0 = MIDI_KEY_PRESSURE) →
      vm_sequencer_event_handle (Env.acceptAll clock) (fuel + 2) (some f) (some pbuf)
          buf_size w =
        some (8, some f, { w with writes := w.writes ++
          [{ dev := pbuf.getD 1 0,
             bytes := [(pbuf.getD 2 0 ||| pbuf.getD 3 0) % 256,
               (0xF7 &&& pbuf.getD 4 0) % 256, (0xF7 &&& pbuf.getD 5 0) % 256],
             rc := 3 }] })) ∧
    (¬ (pbuf.getD 2 0 = MIDI_NOTEOFF ∨ pbuf.getD 2 0 = MIDI_NOTEON ∨
        pbuf.getD 2 0 = MIDI_KEY_PRESSURE) →
      vm_sequencer_event_handle env fuel (some f) (some pbuf) buf_size w =
        some (8, some f, w)) := by
  have hpos : ¬ 0 = buf_size := by omega
  have h128 : 128 ≤ pbuf.getD 0 0 := by rw [h0]; decide
  have hnlt : ¬ buf_size < 8 := by omega
  have hn1 : ¬ pbuf.getD 0 0 = SEQ_MIDIPUTC := by rw [h0]; decide
  have hn2 : ¬ pbuf.getD 0 0 = EV_TIMING := by rw [h0]; decide
  have hn3 : ¬ pbuf.getD 0 0 = EV_CHN_COMMON := by rw [h0]; decide
  have hd : ¬ f.devs_count ≤ pbuf.getD 1 0 := by omega
  constructor
  · intro hty
    unfold vm_sequencer_event_handle
    simp only [hpos, if_false, if_pos h128, hnlt, if_neg hn1, if_neg hn2, if_neg hn3,
      if_pos h0, if_neg hd, if_pos hty]
    rw [backend_write_voice clock fuel f _ _ w hdev hty]
    rfl
  · intro hty
    unfold vm_sequencer_event_handle
    simp only [hpos, if_false, if_pos h128, hnlt, if_neg hn1, if_neg hn2, if_neg hn3,
      if_pos h0, if_neg hd, if_neg hty]

end Sequencer

namespace DevMidi

/-! ## Synth backend dispatch: system-common types -/

/-- Real-time types 0xF8..0xFE, which the backend does not dispatch, give
`EOPNOTSUPP`. -/
theorem vm_backend_event_handle_realtime :
    ∀ t ∈ [0xF8, 0xF9, 0xFA, 0xFB, 0xFC, 0xFD, 0xFE],
      vm_backend_event_handle (fun _ => true) (some 1) (some (zeroPayloadEvent t)) =
        EOPNOTSUPP := by
  decide

set_option maxRecDepth 100000 in
/-- C21, failing input: for the event types 0xF1..0xF7, none of which is
dispatched to a synth operation, `vm_backend_event_handle` returns `EDOM` (33) and
not `EOPNOTSUPP` (45); so a `vm_write` of the single byte 0xF6 (tune request), with
every synth call succeeding, does not return 1 but `CUSE_ERR_INVALID + 1 = -2`. -/
theorem vm_backend_event_handle_system_common_edom :
    (∀ t ∈ [0xF1, 0xF2, 0xF3, 0xF4, 0xF5, 0xF6, 0xF7],
      vm_backend_event_handle (fun _ => true) (some 1) (some (zeroPayloadEvent t)) =
        (EDOM : Int)) ∧
    ((EDOM : Nat) : Int) ≠ EOPNOTSUPP ∧
    (vm_write WriteEnv.fluidOk (some (vm_fd.opened 0 0 0 0)) [0xF6] 1).2 =
      (-2, { copies := 1, fed := [0xF6], handled := [zeroPayloadEvent 0xF6] }) := by
  refine ⟨by decide, by decide, ?_⟩
  rw [vm_write_eq_outer _ _ _ _ rfl, vm_write_outer_step _ _ _ _ _ _ _ (by decide) rfl,
    vm_write_outer_done _ _ _ _ _ _ _ (by decide)]
  decide

/-! ## MIDI device record: reference count -/

/-- C22, failing input: after `vm_dev_midi_create`, one `vm_open` and
`vm_dev_midi_destroy`, the record is freed (reference count 0) although the handle
opened on it has not been closed; with two handles open, destroy followed by the
close of one of them frees the record while the other is still open.  Without
destroy the count is right: create, open, close leaves it at 1. -/
theorem vm_dev_midi_destroy_frees_record_in_use :
    vm_dev_midi_create CreateEnv.ok =
      (some 2, some { pdev := some 2, settings := some 1, ref_cnt := 1, freed := false,
                      settings_freed := false }) ∧
    (DevSys.run { dev := createdDev, handles := [] }
        [DevOp.open OpenEnv.ok, DevOp.destroy]).dev =
      { pdev := none, settings := some 1, ref_cnt := 0, freed := true,
        settings_freed := true } ∧
    (DevSys.run { dev := createdDev, handles := [] }
        [DevOp.open OpenEnv.ok, DevOp.destroy]).handles.length = 1 ∧
    (DevSys.run { dev := createdDev, handles := [] }
        [DevOp.open OpenEnv.ok, DevOp.open OpenEnv.ok, DevOp.destroy, DevOp.close]).dev.freed =
      true ∧
    (DevSys.run { dev := createdDev, handles := [] }
        [DevOp.open OpenEnv.ok, DevOp.open OpenEnv.ok, DevOp.destroy,
          DevOp.close]).handles.length = 1 ∧
    (DevSys.run { dev := createdDev, handles := [] }
        [DevOp.open OpenEnv.ok, DevOp.close]).dev =
      { pdev := some 2, settings := some 1, ref_cnt := 1, freed := false,
        settings_freed := false } := by
  decide

/-! ## vm_open of the MIDI device: failure paths -/

/-- On the three earlier failure paths of `vm_open` (handle allocation, mutex
initialisation, synth construction) nothing taken is kept. -/
theorem vm_open_early_failures_release (dev : vm_dev) (devp : Nat) (fflags : Int)
    (env : OpenEnv) (h : env.calloc_ok = false ∨ env.mutex_init ≠ 0 ∨ env.synth_new = none) :
    (vm_open env dev devp fflags).ret = CUSE_ERR_NO_MEMORY ∧
    (vm_open env dev devp fflags).dev = dev ∧
    (vm_open env dev devp fflags).per_file_handle = none ∧
    (vm_open env dev devp fflags).leaked = [] := by
  obtain ⟨c, m, s, a⟩ := env
  simp only at h
  unfold vm_open
  by_cases hc : c = true
  · have hc1 : ¬ ¬ c = true := fun h => h hc
    by_cases hm : 0 ≠ m
    · rw [if_neg hc1, if_pos hm]
      exact ⟨rfl, rfl, rfl, rfl⟩
    · have hs : s = none := by
        rcases h with h | h | h
        · rw [hc] at h; exact absurd h (by decide)
        · exact absurd (fun e => h e.symm) hm
        · exact h
      subst hs
      rw [if_neg hc1, if_neg hm]
      exact ⟨rfl, rfl, rfl, rfl⟩
  · rw [if_pos hc]
    exact ⟨rfl, rfl, rfl, rfl⟩

/-- C23, failing input: when the handle, the mutex and the synth (pointer 3) are
obtained and `vm_backend_audio_driver_new` returns `NULL`, `vm_open` returns
`CUSE_ERR_NO_MEMORY`, leaves the reference count unchanged and installs no handle,
but gives back only the mutex and the handle memory: the synth is not freed. -/
theorem vm_open_adriver_failure_leaks_synth :
    (vm_open { calloc_ok := true, mutex_init := 0, synth_new := some 3, adriver_new := none }
        createdDev 0 0).ret = CUSE_ERR_NO_MEMORY ∧
    (vm_open { calloc_ok := true, mutex_init := 0, synth_new := some 3, adriver_new := none }
        createdDev 0 0).dev = createdDev ∧
    (vm_open { calloc_ok := true, mutex_init := 0, synth_new := some 3, adriver_new := none }
        createdDev 0 0).per_file_handle = none ∧
    (vm_open { calloc_ok := true, mutex_init := 0, synth_new := some 3, adriver_new := none }
        createdDev 0 0).acquired = [Res.handle_mem, Res.mutex, Res.synth 3] ∧
    (vm_open { calloc_ok := true, mutex_init := 0, synth_new := some 3, adriver_new := none }
        createdDev 0 0).released = [Res.mutex, Res.handle_mem] ∧
    (vm_open { calloc_ok := true, mutex_init := 0, synth_new := some 3, adriver_new := none }
        createdDev 0 0).leaked = [Res.synth 3] := by
  decide

end DevMidi

namespace SeqCli

/-! ## Command line of the sequencer server: the prefix option -/

/-- The `case 5` branch never stores a prefix while `prefix_count` is at most
`CLO_PREFIX_COUNT_MAX`. -/
theorem option_case_keeps_count (idx : Int) (g : GetoptResult) (o o1 : cmd_opts)
    (hcnt : o.prefix_count = 0) (h : cmd_opts_parse.option_case idx g o = Except.ok o1) :
    o1.prefix_count = 0 ∧ o1.prefix_arr = o.prefix_arr := by
  unfold cmd_opts_parse.option_case at h
  have hle : CLO_PREFIX_COUNT_MAX ≥ o.prefix_count := by rw [hcnt]; exact Nat.zero_le _
  split_ifs at h <;>
    (injection h with h; subst h; exact ⟨hcnt, rfl⟩)

theorem step_keeps_count (opts : List option) (g : GetoptResult) (o o1 : cmd_opts)
    (hcnt : o.prefix_count = 0) (h : cmd_opts_parse.step opts g o = Except.ok o1) :
    o1.prefix_count = 0 ∧ o1.prefix_arr = o.prefix_arr := by
  unfold cmd_opts_parse.step at h
  split_ifs at h
  · cases hl : cmd_opts_parse.lookup g.ch opts 0 with
    | none =>
      rw [hl] at h
      injection h with h; subst h; exact ⟨hcnt, rfl⟩
    | some idx =>
      rw [hl] at h
      exact option_case_keeps_count _ g o o1 hcnt h
  · exact option_case_keeps_count _ g o o1 hcnt h

theorem loop_keeps_count (opts : List option) (gs : List GetoptResult) :
    ∀ (o o1 : cmd_opts), o.prefix_count = 0 →
      cmd_opts_parse.loop opts gs o = Except.ok o1 →
      o1.prefix_count = 0 ∧ o1.prefix_arr = o.prefix_arr := by
  induction gs with
  | nil =>
    intro o o1 hcnt h
    unfold cmd_opts_parse.loop at h
    injection h with h; subst h; exact ⟨hcnt, rfl⟩
  | cons g gs ih =>
    intro o o1 hcnt h
    unfold cmd_opts_parse.loop at h
    cases hs : cmd_opts_parse.step opts g o with
    | error e => rw [hs] at h; cases h
    | ok o2 =>
      rw [hs] at h
      have h2 := step_keeps_count opts g o o2 hcnt hs
      have h3 := ih o2 o1 h2.1 h
      exact ⟨h3.1, h3.2.trans h2.2⟩

/-- Whatever the command line, `cmd_opts_parse` leaves `prefix_count` at 0 and
stores no prefix. -/
theorem cmd_opts_parse_never_stores (results : List GetoptResult) :
    (cmd_opts_parse long_options results).2.prefix_count = 0 ∧
    (cmd_opts_parse long_options results).2.prefix_arr =
      List.replicate CLO_PREFIX_COUNT_MAX none := by
  unfold cmd_opts_parse
  cases h : cmd_opts_parse.loop long_options results cmd_opts.init with
  | error e => exact ⟨rfl, rfl⟩
  | ok o => exact loop_keeps_count long_options results cmd_opts.init o rfl h

/-- C26, failing input: for the command line `-P midi2` (one occurrence of `-P`,
as a short or as a long option) `cmd_opts_parse` returns 0 with `prefix_count = 0`
and `prefix[0]` still `NULL`, because `CLO_PREFIX_COUNT_MAX >= prefix_count` holds
at the first occurrence; `main` then installs the defaults `midi` and `umidi`
although a prefix was given. -/
theorem cmd_opts_parse_prefix_rejected :
    (cmd_opts_parse long_options [shortP "midi2"]).1 = 0 ∧
    (cmd_opts_parse long_options [shortP "midi2"]).2.prefix_count = 0 ∧
    (cmd_opts_parse long_options [shortP "midi2"]).2.prefix_arr.getD 0 none = none ∧
    (cmd_opts_parse long_options [longP "midi2"]).2.prefix_count = 0 ∧
    (main.default_prefixes (cmd_opts_parse long_options [shortP "midi2"]).2).prefix_count = 2 ∧
    (main.default_prefixes (cmd_opts_parse long_options [shortP "midi2"]).2).prefix_arr.take 2 =
      [some "midi", some "umidi"] := by
  decide

end SeqCli

/-! ## vm_event_parse: the state invariant -/

set_option maxRecDepth 100000 in
/-- The type and payload length set by a channel status byte. -/
theorem chan_status_type : ∀ c < 240, 128 ≤ c →
    ((0xF0 &&& c = 0x80 ∨ 0xF0 &&& c = 0x90 ∨ 0xF0 &&& c = 0xA0 ∨ 0xF0 &&& c = 0xB0 ∨
        0xF0 &&& c = 0xC0 ∨ 0xF0 &&& c = 0xD0 ∨ 0xF0 &&& c = 0xE0) ∧
      (MIDI_TYPE2LEN (0xF0 &&& c) = 1 ∨ MIDI_TYPE2LEN (0xF0 &&& c) = 2)) := by
  decide

/-- A byte with bit 7 set is at least 128. -/
theorem status_byte_ge (c : Nat) (h : 0x80 &&& c ≠ 0) : 128 ≤ c := by
  by_contra hc
  exact h (data_byte_land c (by omega))

/-- The fields of the parser after a status byte below 0xF8, whether or not a
SysEx was staged. -/
theorem parse_status_fields (ep : vm_ep) (c : Nat) (hs : 0x80 &&& c ≠ 0) (h3 : ¬ 0xF8 ≤ c) :
    (vm_event_parse ep c).1.data = ep.data ∧
    ((c < 0xF0 ∧ (vm_event_parse ep c).1.type = 0xF0 &&& c ∧
        (vm_event_parse ep c).1.data_used = 0 ∧
        (vm_event_parse ep c).1.data_required = MIDI_TYPE2LEN (0xF0 &&& c)) ∨
      (c = 0xF0 ∧ (vm_event_parse ep c).1.type = 0xF0 ∧
        (vm_event_parse ep c).1.data_used = 0 ∧
        (vm_event_parse ep c).1.data_required = 1024) ∨
      ((c = 0xF1 ∨ c = 0xF2 ∨ c = 0xF3) ∧ (vm_event_parse ep c).1.type = c ∧
        (vm_event_parse ep c).1.data_used = 0 ∧
        (vm_event_parse ep c).1.data_required = MIDI_SYSTYPE2LEN c) ∨
      ((vm_event_parse ep c).1.type = 0 ∧ (vm_event_parse ep c).1.data_used = 0)) := by
  obtain ⟨ty, ch, du, dr, ev, data⟩ := ep
  have hge := status_byte_ge c hs
  obtain ⟨w1, w2, w3, w4, w5, w6⟩ := MIDI_SYSTYPE2LEN_vals
  unfold vm_event_parse
  rw [if_pos hs, if_neg h3]
  simp only [MIDI_SYSEX, MIDI_SYSEX_EOX, MIDI_SYSEX_MAX_MSG_SIZE]
  by_cases hch : c < 0xF0
  · by_cases hst : (0xF0 = ty ∧ 0 < du)
    · obtain ⟨rfl, hdu⟩ := hst
      simp [hdu, hch]
    · simp [hst, hch]
  · have hcases : c = 0xF0 ∨ c = 0xF1 ∨ c = 0xF2 ∨ c = 0xF3 ∨ c = 0xF4 ∨ c = 0xF5 ∨
        c = 0xF6 ∨ c = 0xF7 := by omega
    by_cases hst : (0xF0 = ty ∧ 0 < du)
    · obtain ⟨rfl, hdu⟩ := hst
      rcases hcases with rfl | rfl | rfl | rfl | rfl | rfl | rfl | rfl <;>
        simp [hdu, w1, w2, w3, w4, w5, w6, vm_event_parse.flush_sys_event]
    · rcases hcases with rfl | rfl | rfl | rfl | rfl | rfl | rfl | rfl <;>
        simp [hst, w1, w2, w3, w4, w5, w6, vm_event_parse.flush_sys_event]

/-- The fields of the parser after a data byte. -/
theorem parse_data_fields (ep : vm_ep) (c : Nat) (hd : ¬ 0x80 &&& c ≠ 0) :
    (vm_event_parse ep c).1.data_required = ep.data_required ∧
    (vm_event_parse ep c).1.data.length = ep.data.length ∧
    (((vm_event_parse ep c).1.type = ep.type ∧ (vm_event_parse ep c).1.data_used = ep.data_used ∧
        ep.type = 0) ∨
      ((vm_event_parse ep c).1.type = 0 ∧ (vm_event_parse ep c).1.data_used = ep.data_used) ∨
      ((vm_event_parse ep c).1.type = ep.type ∧
        (vm_event_parse ep c).1.data_used = ep.data_used + 1 ∧ ep.data_used < 1024 ∧
        (0xF0 = ep.type ∨ ep.data_used + 1 < ep.data_required)) ∨
      ((vm_event_parse ep c).1.type = ep.type ∧ (vm_event_parse ep c).1.data_used = 0)) := by
  obtain ⟨ty, ch, du, dr, ev, data⟩ := ep
  unfold vm_event_parse
  rw [if_neg hd]
  by_cases h0 : 0 = ty
  · simp [h0.symm]
  by_cases hfull : MIDI_SYSEX_MAX_MSG_SIZE ≤ du
  · simp [h0, hfull]
  have hlt : du < 1024 := by
    simp only [MIDI_SYSEX_MAX_MSG_SIZE] at hfull; omega
  by_cases hcont : MIDI_SYSEX = ty ∨ du + 1 < dr
  · have hcont' : 0xF0 = ty ∨ du + 1 < dr := hcont
    simp [h0, hfull, hcont, hlt, hcont']
  · simp only [if_neg h0, if_neg hfull, if_neg hcont]
    refine ⟨?_, ?_, Or.inr (Or.inr (Or.inr ?_))⟩ <;>
      (split_ifs <;> simp)

/-- One call of `vm_event_parse` keeps the invariant and the accumulator size. -/
theorem parse_inv_step (ep : vm_ep) (c : Nat)
    (h : parserInv ep ∧ ep.data.length = 1024) :
    parserInv (vm_event_parse ep c).1 ∧ (vm_event_parse ep c).1.data.length = 1024 := by
  obtain ⟨⟨i1, i2, i3, i4, i5, i6⟩, hlen⟩ := h
  simp only [List.mem_cons, List.mem_singleton, List.not_mem_nil, or_false] at i2 i3 i4
  by_cases hs : 0x80 &&& c ≠ 0
  · by_cases h3 : 0xF8 ≤ c
    · have hres : vm_event_parse ep c =
          ({ ep with type := 0, event := { vm_evt.zero with type := c } },
            some { vm_evt.zero with type := c }) := by
        unfold vm_event_parse
        rw [if_pos hs, if_pos h3]
        rfl
      rw [hres]
      exact ⟨⟨i1, by simp, by simp, by simp, by simp, by simp⟩, hlen⟩
    · obtain ⟨hdata, hf⟩ := parse_status_fields ep c hs h3
      have hge := status_byte_ge c hs
      refine ⟨?_, by rw [hdata]; exact hlen⟩
      unfold parserInv
      simp only [List.mem_cons, List.mem_singleton, List.not_mem_nil, or_false]
      generalize (vm_event_parse ep c).1 = ep' at hf ⊢
      obtain ⟨w1, w2, w3, _, _, _⟩ := MIDI_SYSTYPE2LEN_vals
      rcases hf with ⟨hc, ht, hu, hr⟩ | ⟨hc, ht, hu, hr⟩ | ⟨hc, ht, hu, hr⟩ | ⟨ht, hu⟩
      · obtain ⟨hty, hl⟩ := chan_status_type c hc hge
        rw [ht, hu, hr]
        generalize MIDI_TYPE2LEN (0xF0 &&& c) = L at hl ⊢
        generalize 0xF0 &&& c = T at hty ⊢
        refine ⟨by omega, by omega, fun _ => ⟨rfl, hl⟩, fun h => by omega, fun h => by omega,
          fun _ _ => by omega⟩
      · rw [ht, hu, hr]
        refine ⟨by omega, by omega, fun h => by omega, fun h => by omega, fun _ => rfl,
          fun _ h => absurd rfl h⟩
      · rw [ht, hu, hr]
        have hl : MIDI_SYSTYPE2LEN c = 1 ∨ MIDI_SYSTYPE2LEN c = 2 := by
          rcases hc with rfl | rfl | rfl
          · exact Or.inl w1
          · exact Or.inr w2
          · exact Or.inl w3
        generalize MIDI_SYSTYPE2LEN c = L at hl ⊢
        refine ⟨by omega, by omega, fun h => by omega, fun _ => ⟨rfl, hl⟩, fun h => by omega,
          fun _ _ => by omega⟩
      · rw [ht, hu]
        refine ⟨by omega, Or.inl rfl, fun h => by omega, fun h => by omega, fun h => by omega,
          fun h => absurd rfl h⟩
  · obtain ⟨hr, hl, hf⟩ := parse_data_fields ep c hs
    refine ⟨?_, by rw [hl]; exact hlen⟩
    unfold parserInv
    simp only [List.mem_cons, List.mem_singleton, List.not_mem_nil, or_false]
    generalize (vm_event_parse ep c).1 = ep' at hf hr ⊢
    rw [hr]
    rcases hf with ⟨ht, hu, h0⟩ | ⟨ht, hu⟩ | ⟨ht, hu, hlt, hc⟩ | ⟨ht, hu⟩
    · rw [ht, hu]
      exact ⟨i1, i2, i3, i4, i5, i6⟩
    · rw [ht, hu]
      refine ⟨i1, Or.inl rfl, fun h => by omega, fun h => by omega, fun h => by omega,
        fun h => absurd rfl h⟩
    · rw [ht, hu]
      refine ⟨by omega, i2, i3, i4, i5, fun h1 h2 => by omega⟩
    · rw [ht, hu]
      refine ⟨by omega, i2, i3, i4, i5, fun h1 h2 => ?_⟩
      have h6 := i6 h1 h2
      omega

/-- Every state reached from a state that satisfies the invariant satisfies it. -/
theorem parseBytes_inv (cs : List Nat) :
    ∀ ep : vm_ep, parserInv ep ∧ ep.data.length = 1024 →
      parserInv (parseBytes ep cs).1 ∧ (parseBytes ep cs).1.data.length = 1024 := by
  induction cs with
  | nil => intro ep h; exact h
  | cons c cs ih =>
    intro ep h
    exact ih _ (parse_inv_step ep c h)

/-- In a state that satisfies the invariant every accumulator access of the next
call is below 1024 and the `default` label is not reached. -/
theorem parse_inv_access (ep : vm_ep) (c : Nat) (h : parserInv ep) :
    (∀ i ∈ vm_event_parse.accesses ep c, i < 1024) ∧
    vm_event_parse.reaches_default ep c = false := by
  obtain ⟨i1, i2, i3, i4, i5, i6⟩ := h
  simp only [List.mem_cons, List.mem_singleton, List.not_mem_nil, or_false] at i2 i3 i4
  constructor
  · intro i hi
    unfold vm_event_parse.accesses at hi
    simp only [MIDI_SYSEX_MAX_MSG_SIZE] at hi
    split_ifs at hi <;> simp at hi <;> omega
  · unfold vm_event_parse.reaches_default
    simp only [MIDI_SYSEX, MIDI_NOTEOFF, MIDI_NOTEON, MIDI_KEY_PRESSURE, MIDI_CTL_CHANGE,
      MIDI_PGM_CHANGE, MIDI_CHN_PRESSURE, MIDI_TIME_CODE, MIDI_SONG_SELECT, MIDI_PITCH_BEND,
      MIDI_SONG_POSITION]
    split_ifs <;> first | rfl | omega

/-- C27 (parser state invariant): in every state reached from a zero-initialised
parser by feeding any byte sequence to `vm_event_parse`, `data_used ≤ 1024`, `type`
is one of 0, 0x80, ..., 0xE0, 0xF0, 0xF1, 0xF2, 0xF3, `data_required` is the table
value (1 or 2) for a channel or system-common type and 1024 for type 0xF0, and
`data_used < data_required` unless `type` is 0 or 0xF0; the accumulator keeps its
1024 bytes, so that every accumulator index used by the next call, whatever the
byte, is in bounds, and the `default` branch is not reached. -/
theorem vm_event_parse_state_invariant (cs : List Nat) (c : Nat) :
    parserInv (parseBytes vm_ep.zero cs).1 ∧
    (parseBytes vm_ep.zero cs).1.data.length = 1024 ∧
    (∀ i ∈ vm_event_parse.accesses (parseBytes vm_ep.zero cs).1 c,
      i < (parseBytes vm_ep.zero cs).1.data.length) ∧
    vm_event_parse.reaches_default (parseBytes vm_ep.zero cs).1 c = false := by
  have h0 : parserInv vm_ep.zero ∧ vm_ep.zero.data.length = 1024 :=
    ⟨by decide, zero_data_length⟩
  obtain ⟨hinv, hlen⟩ := parseBytes_inv cs vm_ep.zero h0
  obtain ⟨hacc, hdef⟩ := parse_inv_access (parseBytes vm_ep.zero cs).1 c hinv
  refine ⟨hinv, hlen, ?_, hdef⟩
  rw [hlen]
  exact hacc

/-! ## vm_event_serialize: what is written -/

/-- Stores at shifted indices of a list with one more element in front. -/
theorem fill_cons_succ (f : Nat → Nat) (a : Nat) (off : Nat) (is : List Nat) :
    ∀ l : List Nat, is.foldl (fun b i => b.set (off + 1 + i) (f i)) (a :: l) =
      a :: is.foldl (fun b i => b.set (off + i) (f i)) l := by
  induction is with
  | nil => intro l; rfl
  | cons i is ih =>
    intro l
    simp only [List.foldl_cons]
    have : off + 1 + i = (off + i) + 1 := by omega
    rw [this, List.set_cons_succ, ih]

/-- Storing `f 0, f 1, ..., f (n - 1)` from index 0 on. -/
theorem fill_eq (n : Nat) : ∀ (f : Nat → Nat) (l : List Nat), n ≤ l.length →
    (List.range n).foldl (fun b i => b.set (0 + i) (f i)) l =
      (List.range n).map f ++ l.drop n := by
  induction n with
  | zero => intro f l _; rfl
  | succ n ih =>
    intro f l hl
    match l, hl with
    | r :: rest, hl =>
      simp only [List.length_cons] at hl
      rw [List.range_succ_eq_map, List.foldl_cons, List.foldl_map, List.map_cons,
        List.map_map, List.drop_succ_cons, List.cons_append]
      simp only [Nat.zero_add, List.set_cons_zero]
      have h1 := fill_cons_succ (fun i => f (i + 1)) (f 0) 0 (List.range n) rest
      have h2 := ih (fun i => f (i + 1)) rest (by omega)
      simp only [Nat.zero_add] at h1 h2
      have hfun : (fun (b : List Nat) (i : Nat) => b.set (Nat.succ i) (f (Nat.succ i))) =
          (fun (b : List Nat) (i : Nat) => b.set (1 + i) (f (i + 1))) := by
        funext b i
        rw [Nat.succ_eq_add_one, Nat.add_comm 1 i]
      rw [hfun, h1, h2]
      rfl

theorem memcpy_take (src : List Nat) (off n k : Nat) (buf : List Nat) :
    (memcpy buf off src n).take k = memcpy (buf.take k) off src n := by
  unfold memcpy
  generalize List.range n = is
  induction is generalizing buf with
  | nil => rfl
  | cons i is ih => simp only [List.foldl_cons, ih, List.set_take]

/-- The stores of `vm_event_serialize` into the first `k` bytes of a buffer do not
depend on the rest of the buffer. -/
theorem serialize_write_take (e : vm_evt) (buf : List Nat) (k : Nat) :
    (vm_event_serialize.write e buf).take k = vm_event_serialize.write e (buf.take k) := by
  unfold vm_event_serialize.write
  split_ifs <;> simp only [List.set_take, memcpy_take]

/-- What `vm_event_serialize` stores for a SysEx event with `p1 = n ≥ 1` into a
buffer of `n + 2` bytes: 0xF0, the first `n` bytes at `ex_data`, 0xF7. -/
theorem serialize_write_sysex (src buf : List Nat) (n ch p2 : Nat) (hn : n + 2 < 2 ^ 32)
    (hlen : buf.length = n + 2) :
    vm_event_serialize.write
        { type := 0xF0, chan := ch, p1 := n, p2 := p2, ex_data := some src } buf =
      0xF0 :: ((List.range n).map (fun i => src.getD i 0) ++ [0xF7]) := by
  match buf, hlen with
  | x :: rest, hlen =>
    simp only [List.length_cons] at hlen
    have hrest : rest.length = n + 1 := by omega
    have hgt : ¬ MIDI_SYSEX > 0xF0 := by decide
    have hmod : (1 + n) % 2 ^ 32 = n + 1 := by
      rw [Nat.mod_eq_of_lt (by omega)]; omega
    unfold vm_event_serialize.write
    have h240 : ¬ (240 > 240) := by decide
    simp only [MIDI_SYSEX, if_neg h240, if_true, Option.getD_some, List.set_cons_zero, hmod,
      MIDI_SYSEX_EOX]
    unfold memcpy
    have h1 := fill_cons_succ (fun i => src.getD i 0) 0xF0 0 (List.range n) rest
    have h2 := fill_eq n (fun i => src.getD i 0) rest (by omega)
    simp only [Nat.zero_add] at h1 h2
    rw [h1, h2, List.set_cons_succ]
    congr 1
    have hl : ((List.range n).map (fun i => src.getD i 0)).length ≤ n := by
      simp only [List.length_map, List.length_range]; exact le_refl n
    rw [List.set_append_right _ _ hl]
    simp only [List.length_map, List.length_range, Nat.sub_self]
    congr 1
    match hd : rest.drop n with
    | [] =>
      have := congrArg List.length hd
      simp only [List.length_drop, List.length_nil] at this
      omega
    | y :: ys =>
      have := congrArg List.length hd
      simp only [List.length_drop, List.length_cons] at this
      have hys : ys = [] := List.eq_nil_of_length_eq_zero (by omega)
      rw [hys]
      rfl

/-- The first `n` bytes of a list of `n` bytes. -/
theorem map_getD_range (ds : List Nat) :
    (List.range ds.length).map (fun i => ds.getD i 0) = ds := by
  apply List.ext_getElem
  · simp only [List.length_map, List.length_range]
  · intro i h1 h2
    simp only [List.getElem_map, List.getElem_range, List.getD_eq_getElem?_getD,
      List.getElem?_eq_getElem h2, Option.getD_some]

/-- C29 (SysEx round trip): for a payload of `n` bytes, `1 ≤ n ≤ 1024`, each
below 0x80, `vm_event_serialize` of `{type 0xF0, p1 = n, ex_data = payload}` into a
buffer of `buf_size ≥ n + 2` bytes returns 0, stores the size `n + 2` and writes
0xF0, the payload and 0xF7 into the first `n + 2` bytes; feeding these bytes to a
zero-initialised parser returns exactly one event, at the final 0xF7 byte, with
type 0xF0, `p1 = n` and `ex_data` holding the payload in its first `n` bytes. -/
theorem vm_event_sysex_roundtrip (ds : List Nat) (buf : List Nat) (buf_size r : Nat)
    (h1 : 1 ≤ ds.length) (h2 : ds.length ≤ 1024) (hd : ∀ d ∈ ds, d < 0x80)
    (hsize : ds.length + 2 ≤ buf_size) (hbuf : buf_size ≤ buf.length) :
    ∃ b, vm_event_serialize (some (sysexEvent ds)) (some buf) buf_size (some r) =
        (0, some b, some (ds.length + 2)) ∧
      b.length = buf.length ∧
      b.take (ds.length + 2) = 0xF0 :: (ds ++ [0xF7]) ∧
      (parseBytes vm_ep.zero (b.take (ds.length + 2))).2 =
        List.replicate (ds.length + 1) none ++
          [some (sysexEventOf ds.length (ds ++ List.replicate (1024 - ds.length) 0))] ∧
      (ds ++ List.replicate (1024 - ds.length) 0).take ds.length = ds ∧
      eventCount (parseBytes vm_ep.zero (b.take (ds.length + 2))).2 = 1 := by
  have hreq : vm_event_serialize.buf_size_req (sysexEvent ds) = ds.length + 2 := by
    unfold vm_event_serialize.buf_size_req sysexEvent
    have hgt : ¬ MIDI_SYSEX > 0xF0 := by decide
    have heq : MIDI_SYSEX = 0xF0 := rfl
    simp only [if_neg hgt, if_pos heq]
    rw [Nat.mod_eq_of_lt (by omega)]; omega
  have hvalid : ¬ ((some buf = none ∧ 0 ≠ buf_size) ∨ (some r = none) ∨
      (MIDI_SYSEX = (sysexEvent ds).type ∧
        ((sysexEvent ds).ex_data = none ∨ 0 = (sysexEvent ds).p1)) ∨
      MIDI_SYSEX_EOX = (sysexEvent ds).type) := by
    rintro (⟨h, _⟩ | h | ⟨_, h | h⟩ | h)
    · cases h
    · cases h
    · cases h
    · simp only [sysexEvent] at h; omega
    · simp [sysexEvent, MIDI_SYSEX_EOX] at h
  have hlt : ¬ buf_size < vm_event_serialize.buf_size_req (sysexEvent ds) := by
    rw [hreq]; omega
  have hser : vm_event_serialize (some (sysexEvent ds)) (some buf) buf_size (some r) =
      (0, some (vm_event_serialize.write (sysexEvent ds) buf), some (ds.length + 2)) := by
    have hlt2 : ¬ buf_size < ds.length + 2 := by omega
    unfold vm_event_serialize
    simp only [if_neg hvalid, Option.map_some', hreq, if_neg hlt2]
  have htake : (vm_event_serialize.write (sysexEvent ds) buf).take (ds.length + 2) =
      0xF0 :: (ds ++ [0xF7]) := by
    rw [serialize_write_take]
    have hl : (buf.take (ds.length + 2)).length = ds.length + 2 := by
      rw [List.length_take]; omega
    have := serialize_write_sysex ds (buf.take (ds.length + 2)) ds.length 0 0 (by omega) hl
    rw [map_getD_range] at this
    exact this
  have hacc := parseBytes_sysex_zero ds hd h2
  have hterm := parse_status_terminates_sysex (parseBytes vm_ep.zero (0xF0 :: ds)).1 0xF7
    (by rw [hacc]) (by rw [hacc]; exact h1) (by rw [hacc]; exact h2)
    (by decide) (by decide) (by decide)
  have hout : (parseBytes vm_ep.zero (0xF0 :: (ds ++ [0xF7]))).2 =
      List.replicate (ds.length + 1) none ++
        [some (sysexEventOf ds.length (ds ++ List.replicate (1024 - ds.length) 0))] := by
    rw [← List.cons_append, parseBytes_append, parseBytes_singleton, hterm, hacc]
    rfl
  refine ⟨_, hser, Sequencer.serialize_write_length _ _, htake, ?_, by simp, ?_⟩
  · rw [htake]; exact hout
  · rw [htake, hout]
    exact eventCount_replicate_none (ds.length + 1) _

/-- C29, witness: the payload `01 02 03` into a buffer of 8 bytes. -/
theorem vm_event_sysex_roundtrip_witness :
    ∃ b, vm_event_serialize (some (sysexEvent [1, 2, 3])) (some (List.replicate 8 0)) 8
        (some 0) = (0, some b, some 5) ∧
      b.length = 8 ∧
      b.take 5 = [0xF0, 1, 2, 3, 0xF7] ∧
      (parseBytes vm_ep.zero (b.take 5)).2 =
        [none, none, none, none,
          some (sysexEventOf 3 ([1, 2, 3] ++ List.replicate 1021 0))] := by
  obtain ⟨b, hb1, hb2, hb3, hb4, _, _⟩ := vm_event_sysex_roundtrip [1, 2, 3]
    (List.replicate 8 0) 8 0 (by decide) (by decide) (by decide) (by decide) (by decide)
  exact ⟨b, hb1, hb2, hb3, hb4⟩

namespace Sequencer

/-! ## vm_backend_event_write: the bytes that reach the unit -/

/-- When `vm_event_serialize` does not reject the event and the buffer is large
enough, it returns 0, stores the required size and does the stores. -/
theorem serialize_eval (e : vm_evt) (buf : List Nat) (n r : Nat)
    (hv1 : ¬ (MIDI_SYSEX = e.type ∧ (e.ex_data = none ∨ 0 = e.p1)))
    (hv2 : ¬ MIDI_SYSEX_EOX = e.type) (hreq : vm_event_serialize.buf_size_req e ≤ n) :
    vm_event_serialize (some e) (some buf) n (some r) =
      (0, some (vm_event_serialize.write e buf), some (vm_event_serialize.buf_size_req e)) := by
  have hvalid : ¬ ((some buf = none ∧ 0 ≠ n) ∨ (some r = none) ∨
      (MIDI_SYSEX = e.type ∧ (e.ex_data = none ∨ 0 = e.p1)) ∨ MIDI_SYSEX_EOX = e.type) := by
    rintro (⟨h, _⟩ | h | h | h)
    · cases h
    · cases h
    · exact hv1 h
    · exact hv2 h
  have hlt : ¬ n < vm_event_serialize.buf_size_req e := by omega
  unfold vm_event_serialize
  simp only [if_neg hvalid, if_neg hlt, Option.map_some']

/-- The serialized bytes of an event that `vm_event_serialize` does not reject. -/
theorem serializedBytes_eq (e : vm_evt)
    (hv1 : ¬ (MIDI_SYSEX = e.type ∧ (e.ex_data = none ∨ 0 = e.p1)))
    (hv2 : ¬ MIDI_SYSEX_EOX = e.type) :
    serializedBytes e =
      vm_event_serialize.write e (List.replicate (vm_event_serialize.buf_size_req e) 0) := by
  unfold serializedBytes
  simp only [serialize_eval e _ _ 0 hv1 hv2 (le_refl _), Option.getD_some]

/-- With a `write` that never fails, the write loop ends with result 0 after unit
`dev` has accepted the bytes `i .. buf_size - 1` of the buffer, and no other unit
has accepted anything. -/
theorem write_loop_all (env : Env) (hnf : env.neverFails) (dev : Nat)
    (buf : List Nat) (buf_size : Nat) (hlen : buf_size ≤ buf.length)
    (hsmall : buf_size < 2 ^ 64) :
    ∀ fuel i w, i ≤ buf_size → buf_size - i < fuel →
      ∃ w', vm_backend_event_write.loop env dev buf buf_size fuel i w = some (0, w') ∧
        w'.writtenTo dev = w.writtenTo dev ++ (buf.take buf_size).drop i ∧
        ∀ u, u ≠ dev → w'.writtenTo u = w.writtenTo u := by
  intro fuel
  induction fuel with
  | zero => intro i w _ h; omega
  | succ fuel ih =>
    intro i w hi hf
    unfold vm_backend_event_write.loop
    by_cases hlt : i < buf_size
    · simp only [hlt, if_true]
      have hne : (buf.drop i).take (buf_size - i) ≠ [] := by
        intro h
        have := congrArg List.length h
        simp only [List.length_take, List.length_drop, List.length_nil] at this
        omega
      have hoff : ((buf.drop i).take (buf_size - i)).length = buf_size - i := by
        simp only [List.length_take, List.length_drop]
        omega
      have hchunk : (buf.drop i).take (buf_size - i) = (buf.take buf_size).drop i := by
        rw [List.drop_take]
      have hrc := hnf w.writes.length dev _ hne
      rw [hoff] at hrc
      have hsw : (sys_write env dev ((buf.drop i).take (buf_size - i)) w).1 =
          env.write_rc w.writes.length dev ((buf.drop i).take (buf_size - i)) := rfl
      have hwt := writtenTo_sys_write env dev ((buf.drop i).take (buf_size - i)) w
      generalize hrcdef : env.write_rc w.writes.length dev ((buf.drop i).take (buf_size - i)) = rc
        at hrc hsw hwt
      obtain ⟨h1, h2⟩ := hrc
      have herr : ¬ (sys_write env dev ((buf.drop i).take (buf_size - i)) w).1 = -1 := by
        rw [hsw]; omega
      simp only [herr, if_false]
      rw [hsw]
      have hnext : (((i : Int) + rc) % 2 ^ 64).toNat = i + rc.toNat := by omega
      rw [hnext]
      obtain ⟨w', hw1, hw2, hw3⟩ := ih (i + rc.toNat)
        (sys_write env dev ((buf.drop i).take (buf_size - i)) w).2 (by omega) (by omega)
      refine ⟨w', hw1, ?_, ?_⟩
      · rw [hw2, hwt dev]
        have hpos : dev = dev ∧ 0 < rc := ⟨rfl, by omega⟩
        rw [if_pos hpos, List.append_assoc, hchunk]
        congr 1
        rw [← List.drop_drop, List.take_append_drop]
      · intro u hu
        rw [hw3 u hu, hwt u]
        have hneg : ¬ (dev = u ∧ 0 < rc) := fun h => hu h.1.symm
        rw [if_neg hneg, List.append_nil]
    · simp only [hlt, if_false]
      have hd : (buf.take buf_size).drop i = [] := by
        apply List.drop_eq_nil_of_le
        rw [List.length_take]; omega
      exact ⟨w, rfl, by rw [hd, List.append_nil], fun _ _ => rfl⟩

/-- With a `write` that never fails, `vm_backend_event_write` of an event that
`vm_event_serialize` accepts makes unit `dev` accept the serialized bytes. -/
theorem backend_write_all (env : Env) (hnf : env.neverFails) (fuel : Nat)
    (hfuel : 1032 < fuel) (f : vm_fd) (dev : Nat) (e : vm_evt) (w : World)
    (hdev : dev < f.devs_count)
    (hv1 : ¬ (MIDI_SYSEX = e.type ∧ (e.ex_data = none ∨ 0 = e.p1)))
    (hv2 : ¬ MIDI_SYSEX_EOX = e.type) (hreq : vm_event_serialize.buf_size_req e ≤ 1032) :
    ∃ w', vm_backend_event_write env fuel (some f) dev (some e) w = some (0, w') ∧
      w'.writtenTo dev = w.writtenTo dev ++ serializedBytes e ∧
      ∀ u, u ≠ dev → w'.writtenTo u = w.writtenTo u := by
  have hM : MIDI_SYSEX_MAX_MSG_SIZE + 8 = 1032 := rfl
  have hd : ¬ dev ≥ f.devs_count := by omega
  unfold vm_backend_event_write
  simp only [hd, if_false]
  rw [hM, serialize_eval e _ 1032 0 hv1 hv2 hreq]
  simp only [ne_eq, not_true_eq_false, if_false, Option.getD_some]
  have hlen : (vm_event_serialize.write e (List.replicate 1032 0)).length = 1032 := by
    rw [serialize_write_length, List.length_replicate]
  obtain ⟨w', hw1, hw2, hw3⟩ := write_loop_all env hnf dev
    (vm_event_serialize.write e (List.replicate 1032 0)) (vm_event_serialize.buf_size_req e)
    (by omega) (by omega) fuel 0 w (Nat.zero_le _) (by omega)
  refine ⟨w', hw1, ?_, hw3⟩
  rw [hw2, List.drop_zero, serialize_write_take, List.take_replicate,
    Nat.min_eq_left hreq, serializedBytes_eq e hv1 hv2]

/-- An event that `vm_event_serialize` rejects with `EINVAL` is not written. -/
theorem backend_write_rejected (env : Env) (fuel : Nat) (f : vm_fd) (dev : Nat) (e : vm_evt)
    (w : World) (hinv : MIDI_SYSEX = e.type ∧ (e.ex_data = none ∨ 0 = e.p1)) :
    vm_backend_event_write env fuel (some f) dev (some e) w = some (EINVAL, w) := by
  unfold vm_backend_event_write
  by_cases hd : dev ≥ f.devs_count
  · simp only [hd, if_true]
  · have hs : vm_event_serialize (some e) (some (List.replicate (MIDI_SYSEX_MAX_MSG_SIZE + 8) 0))
        (MIDI_SYSEX_MAX_MSG_SIZE + 8) (some 0) =
        (EINVAL, some (List.replicate (MIDI_SYSEX_MAX_MSG_SIZE + 8) 0), some 0) := by
      unfold vm_event_serialize
      have hc : (some (List.replicate (MIDI_SYSEX_MAX_MSG_SIZE + 8) 0) = none ∧
          0 ≠ MIDI_SYSEX_MAX_MSG_SIZE + 8) ∨ (some 0 = none) ∨
          (MIDI_SYSEX = e.type ∧ (e.ex_data = none ∨ 0 = e.p1)) ∨ MIDI_SYSEX_EOX = e.type :=
        Or.inr (Or.inr (Or.inl hinv))
      simp only [if_pos hc]
    have hne : (0 : Nat) ≠ EINVAL := by decide
    simp only [hd, if_false, hs, hne, ne_eq, not_false_eq_true, if_true]

/-! ## vm_sequencer_event_handle: channel common records -/

theorem neverFails_acceptAll (clock : Option timespec) : (Env.acceptAll clock).neverFails := by
  intro k dev bytes hb
  have : 0 < bytes.length := List.length_pos.mpr hb
  simp only [Env.acceptAll]
  omega

/-- C24: for a complete CHN_COMMON record (opcode 0x92) with `dev < devs_count`
and `mtype` one of 0xB0, 0xC0, 0xD0, 0xE0, `vm_sequencer_event_handle` passes to
`vm_backend_event_write` for unit `dev` the event that the specification gives
(control change with `p2` the 16-bit value at bytes 6-7, program change and
channel pressure with `p2 = 0`, pitch bend with `p1` the 16-bit value at bytes
6-7), and, the downstream `write` never failing, unit `dev` accepts exactly the
bytes `vm_event_serialize` produces for that event while no other unit accepts
anything; for every other `mtype` the record is dropped with nothing written. -/
theorem vm_sequencer_event_handle_chn_common (env : Env) (fuel : Nat) (f : vm_fd)
    (pbuf : List Nat) (buf_size : Nat) (w : World)
    (h0 : pbuf.getD 0 0 = EV_CHN_COMMON) (hsz : 8 ≤ buf_size)
    (hdev : pbuf.getD 1 0 < f.devs_count) (hnf : env.neverFails) (hfuel : 1032 < fuel) :
    ((pbuf.getD 2 0 = 0xB0 ∨ pbuf.getD 2 0 = 0xC0 ∨ pbuf.getD 2 0 = 0xD0 ∨
        pbuf.getD 2 0 = 0xE0) →
      vm_sequencer_event_handle env fuel (some f) (some pbuf) buf_size w =
        (vm_backend_event_write env fuel (some f) (pbuf.getD 1 0)
          (some (chnCommonEventOf pbuf)) w).map (fun r => (8, some f, r.2)) ∧
      ∃ w', vm_sequencer_event_handle env fuel (some f) (some pbuf) buf_size w =
          some (8, some f, w') ∧
        w'.writtenTo (pbuf.getD 1 0) =
          w.writtenTo (pbuf.getD 1 0) ++ serializedBytes (chnCommonEventOf pbuf) ∧
        ∀ u, u ≠ pbuf.getD 1 0 → w'.writtenTo u = w.writtenTo u) ∧
    (¬ (pbuf.getD 2 0 = 0xB0 ∨ pbuf.getD 2 0 = 0xC0 ∨ pbuf.getD 2 0 = 0xD0 ∨
        pbuf.getD 2 0 = 0xE0) →
      vm_sequencer_event_handle env fuel (some f) (some pbuf) buf_size w =
        some (8, some f, w)) := by
  have hpos : ¬ 0 = buf_size := by omega
  have h128 : 128 ≤ pbuf.getD 0 0 := by rw [h0]; decide
  have hnlt : ¬ buf_size < 8 := by omega
  have hn1 : ¬ pbuf.getD 0 0 = SEQ_MIDIPUTC := by rw [h0]; decide
  have hn2 : ¬ pbuf.getD 0 0 = EV_TIMING := by rw [h0]; decide
  have hd : ¬ f.devs_count ≤ pbuf.getD 1 0 := by omega
  have h16 : load_u16 pbuf 6 = pbuf.getD 6 0 + 256 * pbuf.getD 7 0 := by
    show pbuf.getD 6 0 + pbuf.getD 7 0 * 2 ^ 8 = _
    omega
  constructor
  · intro hty
    have hcall : vm_sequencer_event_handle env fuel (some f) (some pbuf) buf_size w =
        (vm_backend_event_write env fuel (some f) (pbuf.getD 1 0)
          (some (chnCommonEventOf pbuf)) w).map (fun r => (8, some f, r.2)) := by
      unfold vm_sequencer_event_handle chnCommonEventOf
      simp only [hpos, if_false, if_pos h128, hnlt, if_neg hn1, if_neg hn2, if_pos h0,
        if_neg hd, h16, vm_evt.zero, MIDI_CTL_CHANGE, MIDI_PGM_CHANGE, MIDI_CHN_PRESSURE,
        MIDI_PITCH_BEND]
      generalize pbuf.getD 2 0 = m at hty ⊢
      rcases hty with rfl | rfl | rfl | rfl <;> simp
    refine ⟨hcall, ?_⟩
    have htype : (chnCommonEventOf pbuf).type = pbuf.getD 2 0 := by
      unfold chnCommonEventOf
      simp only
      split_ifs with a b
      · exact a.symm
      · exact b.symm
      · rfl
    have hv1 : ¬ (MIDI_SYSEX = (chnCommonEventOf pbuf).type ∧
        ((chnCommonEventOf pbuf).ex_data = none ∨ 0 = (chnCommonEventOf pbuf).p1)) := by
      rintro ⟨h, _⟩
      rw [htype] at h
      simp only [MIDI_SYSEX] at h
      omega
    have hv2 : ¬ MIDI_SYSEX_EOX = (chnCommonEventOf pbuf).type := by
      intro h
      rw [htype] at h
      simp only [MIDI_SYSEX_EOX] at h
      omega
    have hreq : vm_event_serialize.buf_size_req (chnCommonEventOf pbuf) ≤ 1032 := by
      have hlt : MIDI_SYSEX > (chnCommonEventOf pbuf).type := by
        rw [htype]
        simp only [MIDI_SYSEX]
        omega
      unfold vm_event_serialize.buf_size_req
      rw [if_pos hlt]
      have := MIDI_TYPE2LEN_le (chnCommonEventOf pbuf).type
      omega
    obtain ⟨w', hw1, hw2, hw3⟩ := backend_write_all env hnf fuel hfuel f (pbuf.getD 1 0)
      (chnCommonEventOf pbuf) w hdev hv1 hv2 hreq
    refine ⟨w', ?_, hw2, hw3⟩
    rw [hcall, hw1]
    rfl
  · intro hty
    have t1 : ¬ pbuf.getD 2 0 = MIDI_CTL_CHANGE := fun h => hty (Or.inl h)
    have t2 : ¬ (pbuf.getD 2 0 = MIDI_PGM_CHANGE ∨ pbuf.getD 2 0 = MIDI_CHN_PRESSURE) := by
      rintro (h | h)
      · exact hty (Or.inr (Or.inl h))
      · exact hty (Or.inr (Or.inr (Or.inl h)))
    have t3 : ¬ pbuf.getD 2 0 = MIDI_PITCH_BEND := fun h => hty (Or.inr (Or.inr (Or.inr h)))
    unfold vm_sequencer_event_handle
    simp only [hpos, if_false, if_pos h128, hnlt, if_neg hn1, if_neg hn2, if_pos h0,
      if_neg hd, if_neg t1, if_neg t2, if_neg t3]

/-- C24, witness: the control-change record `92 00 B0 01 07 00 34 12` for unit 0 of
one. -/
theorem vm_sequencer_event_handle_chn_common_witness :
    ∃ w', vm_sequencer_event_handle (Env.acceptAll none) 1033 (some (vm_fd.opened 0 1))
        (some [0x92, 0, 0xB0, 1, 7, 0, 0x34, 0x12]) 8 World.empty =
          some (8, some (vm_fd.opened 0 1), w') ∧
      w'.writtenTo 0 = World.empty.writtenTo 0 ++
        serializedBytes (chnCommonEventOf [0x92, 0, 0xB0, 1, 7, 0, 0x34, 0x12]) := by
  obtain ⟨w', h1, h2, _⟩ := ((vm_sequencer_event_handle_chn_common (Env.acceptAll none) 1033
    (vm_fd.opened 0 1) [0x92, 0, 0xB0, 1, 7, 0, 0x34, 0x12] 8 World.empty rfl (by decide)
    (by decide) (neverFails_acceptAll none) (by decide)).1 (Or.inl rfl)).2
  exact ⟨w', h1, h2⟩

end Sequencer

namespace Sequencer

/-! ## vm_sequencer_event_handle: SysEx records -/

theorem sysex_len_step (pbuf : List Nat) (p : Nat) (hp : p < 6)
    (hb : ¬ pbuf.getD (2 + p) 0 = 0xff) :
    vm_sequencer_event_handle.sysex_len pbuf p =
      vm_sequencer_event_handle.sysex_len pbuf (p + 1) := by
  rw [vm_sequencer_event_handle.sysex_len]
  have hc : p < 6 ∧ 0xff ≠ pbuf.getD (2 + p) 0 := ⟨hp, fun h => hb h.symm⟩
  rw [if_pos hc]

theorem sysex_len_stop (pbuf : List Nat) (p : Nat)
    (hb : ¬ p < 6 ∨ pbuf.getD (2 + p) 0 = 0xff) :
    vm_sequencer_event_handle.sysex_len pbuf p = p := by
  rw [vm_sequencer_event_handle.sysex_len]
  have hc : ¬ (p < 6 ∧ 0xff ≠ pbuf.getD (2 + p) 0) := by
    rintro ⟨h1, h2⟩
    rcases hb with h | h
    · exact h h1
    · exact h2 h.symm
  rw [if_neg hc]

theorem sysex_len_spec_aux (pbuf : List Nat) :
    ∀ n p, 6 - p = n → p ≤ 6 → (∀ i, i < p → ¬ pbuf.getD (2 + i) 0 = 0xff) →
      ∃ k, k ≤ 6 ∧ vm_sequencer_event_handle.sysex_len pbuf p = k ∧
        (∀ i, i < k → ¬ pbuf.getD (2 + i) 0 = 0xff) ∧
        (k < 6 → pbuf.getD (2 + k) 0 = 0xff) := by
  intro n
  induction n with
  | zero =>
    intro p hn hp hpre
    have h6 : ¬ p < 6 := by omega
    exact ⟨p, hp, sysex_len_stop pbuf p (Or.inl h6), hpre, fun h => absurd h h6⟩
  | succ n ih =>
    intro p hn hp hpre
    have h6 : p < 6 := by omega
    by_cases hb : pbuf.getD (2 + p) 0 = 0xff
    · exact ⟨p, hp, sysex_len_stop pbuf p (Or.inr hb), hpre, fun _ => hb⟩
    · rw [sysex_len_step pbuf p h6 hb]
      refine ih (p + 1) (by omega) (by omega) ?_
      intro i hi
      by_cases hip : i = p
      · rw [hip]; exact hb
      · exact hpre i (by omega)

theorem find_range6 (q : Nat → Bool) (k : Nat) (hk : k ≤ 6)
    (hlt : ∀ i, i < k → q i = false) (hat : k < 6 → q k = true) :
    ((List.range 6).find? q).getD 6 = k := by
  have hr : List.range 6 = [0, 1, 2, 3, 4, 5] := by decide
  rw [hr]
  have hcases : k = 0 ∨ k = 1 ∨ k = 2 ∨ k = 3 ∨ k = 4 ∨ k = 5 ∨ k = 6 := by omega
  rcases hcases with rfl | rfl | rfl | rfl | rfl | rfl | rfl
  · rw [List.find?_cons_of_pos _ (hat (by decide))]; rfl
  · rw [List.find?_cons_of_neg _ (by rw [hlt 0 (by decide)]; decide),
      List.find?_cons_of_pos _ (hat (by decide))]; rfl
  · rw [List.find?_cons_of_neg _ (by rw [hlt 0 (by decide)]; decide),
      List.find?_cons_of_neg _ (by rw [hlt 1 (by decide)]; decide),
      List.find?_cons_of_pos _ (hat (by decide))]; rfl
  · rw [List.find?_cons_of_neg _ (by rw [hlt 0 (by decide)]; decide),
      List.find?_cons_of_neg _ (by rw [hlt 1 (by decide)]; decide),
      List.find?_cons_of_neg _ (by rw [hlt 2 (by decide)]; decide),
      List.find?_cons_of_pos _ (hat (by decide))]; rfl
  · rw [List.find?_cons_of_neg _ (by rw [hlt 0 (by decide)]; decide),
      List.find?_cons_of_neg _ (by rw [hlt 1 (by decide)]; decide),
      List.find?_cons_of_neg _ (by rw [hlt 2 (by decide)]; decide),
      List.find?_cons_of_neg _ (by rw [hlt 3 (by decide)]; decide),
      List.find?_cons_of_pos _ (hat (by decide))]; rfl
  · rw [List.find?_cons_of_neg _ (by rw [hlt 0 (by decide)]; decide),
      List.find?_cons_of_neg _ (by rw [hlt 1 (by decide)]; decide),
      List.find?_cons_of_neg _ (by rw [hlt 2 (by decide)]; decide),
      List.find?_cons_of_neg _ (by rw [hlt 3 (by decide)]; decide),
      List.find?_cons_of_neg _ (by rw [hlt 4 (by decide)]; decide),
      List.find?_cons_of_pos _ (hat (by decide))]; rfl
  · rw [List.find?_cons_of_neg _ (by rw [hlt 0 (by decide)]; decide),
      List.find?_cons_of_neg _ (by rw [hlt 1 (by decide)]; decide),
      List.find?_cons_of_neg _ (by rw [hlt 2 (by decide)]; decide),
      List.find?_cons_of_neg _ (by rw [hlt 3 (by decide)]; decide),
      List.find?_cons_of_neg _ (by rw [hlt 4 (by decide)]; decide),
      List.find?_cons_of_neg _ (by rw [hlt 5 (by decide)]; decide)]; rfl

/-- The loop of the `case EV_SYSEX` branch finds the index of the first 0xFF
among record bytes 2..7, or 6. -/
theorem sysex_len_eq (pbuf : List Nat) :
    vm_sequencer_event_handle.sysex_len pbuf 0 = specSysexLen pbuf ∧
      specSysexLen pbuf ≤ 6 := by
  obtain ⟨k, hk, hlen, hlt, hat⟩ := sysex_len_spec_aux pbuf 6 0 rfl (by decide)
    (fun i hi => absurd hi (Nat.not_lt_zero i))
  have hspec : specSysexLen pbuf = k := by
    unfold specSysexLen
    exact find_range6 _ k hk (fun i hi => decide_eq_false (hlt i hi))
      (fun h => decide_eq_true (hat h))
  rw [hspec]
  exact ⟨hlen, hk⟩

theorem getD_drop_two (pbuf : List Nat) (i : Nat) :
    (pbuf.drop 2).getD i 0 = pbuf.getD (2 + i) 0 := by
  simp only [List.getD_eq_getElem?_getD, List.getElem?_drop]

/-- C25: for a complete SYSEX record (opcode 0x94) with `dev < devs_count`, the
payload length `n` found by the handler is the index of the first 0xFF among
record bytes 2..7, or 6 when there is none; when `n ≥ 1`, the downstream `write`
never failing, unit `dev` accepts exactly 0xF0, record bytes 2 to `n + 1`
unchanged and in order, then 0xF7, and no other unit accepts anything; when
`n = 0` nothing is written. -/
theorem vm_sequencer_event_handle_sysex (env : Env) (fuel : Nat) (f : vm_fd)
    (pbuf : List Nat) (buf_size : Nat) (w : World)
    (h0 : pbuf.getD 0 0 = EV_SYSEX) (hsz : 8 ≤ buf_size)
    (hdev : pbuf.getD 1 0 < f.devs_count) (hnf : env.neverFails) (hfuel : 1032 < fuel) :
    vm_sequencer_event_handle.sysex_len pbuf 0 = specSysexLen pbuf ∧
    (1 ≤ specSysexLen pbuf →
      ∃ w', vm_sequencer_event_handle env fuel (some f) (some pbuf) buf_size w =
          some (8, some f, w') ∧
        w'.writtenTo (pbuf.getD 1 0) =
          w.writtenTo (pbuf.getD 1 0) ++
            (0xF0 :: (sysexPayload pbuf (specSysexLen pbuf) ++ [0xF7])) ∧
        ∀ u, u ≠ pbuf.getD 1 0 → w'.writtenTo u = w.writtenTo u) ∧
    (specSysexLen pbuf = 0 →
      vm_sequencer_event_handle env fuel (some f) (some pbuf) buf_size w =
        some (8, some f, w)) := by
  have hpos : ¬ 0 = buf_size := by omega
  have h128 : 128 ≤ pbuf.getD 0 0 := by rw [h0]; decide
  have hnlt : ¬ buf_size < 8 := by omega
  have hn1 : ¬ pbuf.getD 0 0 = SEQ_MIDIPUTC := by rw [h0]; decide
  have hn2 : ¬ pbuf.getD 0 0 = EV_TIMING := by rw [h0]; decide
  have hn3 : ¬ pbuf.getD 0 0 = EV_CHN_COMMON := by rw [h0]; decide
  have hn4 : ¬ pbuf.getD 0 0 = EV_CHN_VOICE := by rw [h0]; decide
  have hd : ¬ f.devs_count ≤ pbuf.getD 1 0 := by omega
  obtain ⟨hlen, hle⟩ := sysex_len_eq pbuf
  have hcall : vm_sequencer_event_handle env fuel (some f) (some pbuf) buf_size w =
      (vm_backend_event_write env fuel (some f) (pbuf.getD 1 0)
        (some { type := 0xF0, chan := 0, p1 := specSysexLen pbuf, p2 := 0,
                ex_data := some (pbuf.drop 2) }) w).map (fun r => (8, some f, r.2)) := by
    unfold vm_sequencer_event_handle
    simp only [hpos, if_false, if_pos h128, hnlt, if_neg hn1, if_neg hn2, if_neg hn3,
      if_neg hn4, if_pos h0, if_neg hd, hlen, vm_evt.zero, MIDI_SYSEX]
  refine ⟨hlen, ?_, ?_⟩
  · intro hn
    have hv1 : ¬ (MIDI_SYSEX = (0xF0 : Nat) ∧
        ((some (pbuf.drop 2) : Option (List Nat)) = none ∨ 0 = specSysexLen pbuf)) := by
      rintro ⟨_, h | h⟩
      · cases h
      · omega
    have hv2 : ¬ MIDI_SYSEX_EOX = (0xF0 : Nat) := by decide
    have hreq : vm_event_serialize.buf_size_req
        { type := 0xF0, chan := 0, p1 := specSysexLen pbuf, p2 := 0,
          ex_data := some (pbuf.drop 2) } = specSysexLen pbuf + 2 := by
      unfold vm_event_serialize.buf_size_req
      have hgt : ¬ MIDI_SYSEX > 0xF0 := by decide
      have heq : MIDI_SYSEX = 0xF0 := rfl
      simp only [if_neg hgt, if_pos heq]
      rw [Nat.mod_eq_of_lt (by omega)]; omega
    obtain ⟨w', hw1, hw2, hw3⟩ := backend_write_all env hnf fuel hfuel f (pbuf.getD 1 0)
      { type := 0xF0, chan := 0, p1 := specSysexLen pbuf, p2 := 0,
        ex_data := some (pbuf.drop 2) } w hdev hv1 hv2 (by rw [hreq]; omega)
    refine ⟨w', ?_, ?_, hw3⟩
    · rw [hcall, hw1]; rfl
    · rw [hw2, serializedBytes_eq _ hv1 hv2, hreq,
        serialize_write_sysex (pbuf.drop 2) _ (specSysexLen pbuf) 0 0 (by omega)
          (by rw [List.length_replicate])]
      unfold sysexPayload
      simp only [getD_drop_two]
  · intro hn
    rw [hcall, backend_write_rejected env fuel f _ _ w ⟨rfl, Or.inr hn.symm⟩]
    rfl

/-- C25, witness: the record `94 00 01 02 03 FF 00 00` (three payload bytes) for
unit 0 of one. -/
theorem vm_sequencer_event_handle_sysex_witness :
    vm_sequencer_event_handle.sysex_len [0x94, 0, 1, 2, 3, 0xFF, 0, 0] 0 = 3 ∧
    ∃ w', vm_sequencer_event_handle (Env.acceptAll none) 1033 (some (vm_fd.opened 0 1))
        (some [0x94, 0, 1, 2, 3, 0xFF, 0, 0]) 8 World.empty =
          some (8, some (vm_fd.opened 0 1), w') ∧
      w'.writtenTo 0 = [0xF0, 1, 2, 3, 0xF7] := by
  have h := vm_sequencer_event_handle_sysex (Env.acceptAll none) 1033
    (vm_fd.opened 0 1) [0x94, 0, 1, 2, 3, 0xFF, 0, 0] 8 World.empty rfl (by decide)
    (by decide) (neverFails_acceptAll none) (by decide)
  have hs : specSysexLen [0x94, 0, 1, 2, 3, 0xFF, 0, 0] = 3 := by decide
  refine ⟨h.1.trans hs, ?_⟩
  obtain ⟨w', h1, h2, _⟩ := h.2.1 (by rw [hs]; decide)
  refine ⟨w', h1, h2.trans ?_⟩
  rw [hs]
  decide

end Sequencer

namespace Sequencer

/-! ## vm_sequencer_event_handle: shape of the result -/

/-- The result of `vm_sequencer_event_handle` on an open handle: the value
returned is between 1 and `buf_size` for a non-empty buffer, and the call either
changes nothing, or runs the timing branch, or makes one `write`, or is one call of
`vm_backend_event_write` that leaves the handle unchanged. -/
theorem handle_shape (env : Env) (fuel : Nat) (f : vm_fd) (pbuf : List Nat)
    (buf_size : Nat) (w : World) :
    ∃ r, (0 < buf_size → 1 ≤ r ∧ r ≤ buf_size) ∧
      (vm_sequencer_event_handle env fuel (some f) (some pbuf) buf_size w =
          some (r, some f, w) ∨
        vm_sequencer_event_handle env fuel (some f) (some pbuf) buf_size w =
          some (r, some (vm_sequencer_event_handle.timing env f pbuf w).1,
            (vm_sequencer_event_handle.timing env f pbuf w).2) ∨
        (∃ dev b, vm_sequencer_event_handle env fuel (some f) (some pbuf) buf_size w =
          some (r, some f, (sys_write env dev b w).2)) ∨
        (∃ dev e, vm_sequencer_event_handle env fuel (some f) (some pbuf) buf_size w =
          (vm_backend_event_write env fuel (some f) dev (some e) w).map
            (fun x => (r, some f, x.2)))) := by
  by_cases hz : 0 = buf_size
  · refine ⟨buf_size, fun h => by omega, Or.inl ?_⟩
    unfold vm_sequencer_event_handle
    simp only [hz, if_true]
  by_cases hlt : buf_size < (if 128 ≤ pbuf.getD 0 0 then 8 else 4)
  · refine ⟨buf_size, fun h => by omega, Or.inl ?_⟩
    unfold vm_sequencer_event_handle
    simp only [hz, if_false, hlt, if_true]
  have hev : 0 < buf_size → 1 ≤ (if 128 ≤ pbuf.getD 0 0 then 8 else 4) ∧
      (if 128 ≤ pbuf.getD 0 0 then 8 else 4) ≤ buf_size := by
    intro _
    split_ifs at hlt ⊢ <;> omega
  have hnlt : ¬ buf_size < (if 128 ≤ pbuf.getD 0 0 then 8 else 4) := hlt
  by_cases h1 : pbuf.getD 0 0 = SEQ_MIDIPUTC
  · refine ⟨(if 128 ≤ pbuf.getD 0 0 then 8 else 4), hev, ?_⟩
    unfold vm_sequencer_event_handle
    simp only [hz, if_false, hnlt]
    simp only [if_pos h1]
    generalize (if 128 ≤ pbuf.getD 0 0 then 8 else 4) = ev
    split_ifs
    · exact Or.inl rfl
    · exact Or.inr (Or.inr (Or.inl ⟨_, _, rfl⟩))
  by_cases h2 : pbuf.getD 0 0 = EV_TIMING
  · refine ⟨(if 128 ≤ pbuf.getD 0 0 then 8 else 4), hev, Or.inr (Or.inl ?_)⟩
    unfold vm_sequencer_event_handle
    simp only [hz, if_false, hnlt]
    simp only [if_neg h1, if_pos h2]
  by_cases h3 : pbuf.getD 0 0 = EV_CHN_COMMON
  · refine ⟨(if 128 ≤ pbuf.getD 0 0 then 8 else 4), hev, ?_⟩
    unfold vm_sequencer_event_handle
    simp only [hz, if_false, hnlt]
    simp only [if_neg h1, if_neg h2, if_pos h3]
    generalize (if 128 ≤ pbuf.getD 0 0 then 8 else 4) = ev
    split_ifs <;>
      first
        | exact Or.inl rfl
        | exact Or.inr (Or.inr (Or.inr ⟨_, _, rfl⟩))
  by_cases h4 : pbuf.getD 0 0 = EV_CHN_VOICE
  · refine ⟨(if 128 ≤ pbuf.getD 0 0 then 8 else 4), hev, ?_⟩
    unfold vm_sequencer_event_handle
    simp only [hz, if_false, hnlt]
    simp only [if_neg h1, if_neg h2, if_neg h3, if_pos h4]
    generalize (if 128 ≤ pbuf.getD 0 0 then 8 else 4) = ev
    split_ifs <;>
      first
        | exact Or.inl rfl
        | exact Or.inr (Or.inr (Or.inr ⟨_, _, rfl⟩))
  by_cases h5 : pbuf.getD 0 0 = EV_SYSEX
  · refine ⟨(if 128 ≤ pbuf.getD 0 0 then 8 else 4), hev, ?_⟩
    unfold vm_sequencer_event_handle
    simp only [hz, if_false, hnlt]
    simp only [if_neg h1, if_neg h2, if_neg h3, if_neg h4, if_pos h5]
    generalize (if 128 ≤ pbuf.getD 0 0 then 8 else 4) = ev
    split_ifs <;>
      first
        | exact Or.inl rfl
        | exact Or.inr (Or.inr (Or.inr ⟨_, _, rfl⟩))
  by_cases h6 : pbuf.getD 0 0 = SEQ_FULLSIZE
  · refine ⟨buf_size, fun h => by omega, Or.inl ?_⟩
    unfold vm_sequencer_event_handle
    simp only [hz, if_false, hnlt]
    simp only [if_neg h1, if_neg h2, if_neg h3, if_neg h4, if_neg h5, if_pos h6]
  · refine ⟨(if 128 ≤ pbuf.getD 0 0 then 8 else 4), hev, Or.inl ?_⟩
    unfold vm_sequencer_event_handle
    simp only [hz, if_false, hnlt]
    simp only [if_neg h1, if_neg h2, if_neg h3, if_neg h4, if_neg h5, if_neg h6]

/-- The timing branch keeps `tx_busy` and the bounds of the timer fields. -/
theorem timing_keeps (env : Env) (f : vm_fd) (pbuf : List Nat) (w : World) :
    (vm_sequencer_event_handle.timing env f pbuf w).1.tx_busy = f.tx_busy ∧
    (timerInv f → timerInv (vm_sequencer_event_handle.timing env f pbuf w).1) := by
  unfold vm_sequencer_event_handle.timing timerInv
  simp only
  split_ifs <;> refine ⟨rfl, fun h => ?_⟩ <;> simp only <;> omega

/-- If `vm_sequencer_event_handle` returns, the value is between 1 and `buf_size`
for a non-empty buffer, and the handle keeps `tx_busy` and the timer bounds. -/
theorem handle_result (env : Env) (fuel : Nat) (f : vm_fd) (pbuf : List Nat)
    (buf_size : Nat) (w : World) (r : Nat) (f' : Option vm_fd) (w' : World)
    (h : vm_sequencer_event_handle env fuel (some f) (some pbuf) buf_size w =
      some (r, f', w')) :
    (0 < buf_size → 1 ≤ r ∧ r ≤ buf_size) ∧
    ∃ f1, f' = some f1 ∧ f1.tx_busy = f.tx_busy ∧ (timerInv f → timerInv f1) := by
  obtain ⟨r0, hb, hs⟩ := handle_shape env fuel f pbuf buf_size w
  rcases hs with hs | hs | ⟨dev, b, hs⟩ | ⟨dev, e, hs⟩
  · rw [hs] at h
    simp only [Option.some.injEq, Prod.mk.injEq] at h
    obtain ⟨rfl, rfl, _⟩ := h
    exact ⟨hb, f, rfl, rfl, fun h => h⟩
  · rw [hs] at h
    simp only [Option.some.injEq, Prod.mk.injEq] at h
    obtain ⟨rfl, rfl, _⟩ := h
    exact ⟨hb, _, rfl, (timing_keeps env f pbuf w).1, (timing_keeps env f pbuf w).2⟩
  · rw [hs] at h
    simp only [Option.some.injEq, Prod.mk.injEq] at h
    obtain ⟨rfl, rfl, _⟩ := h
    exact ⟨hb, f, rfl, rfl, fun h => h⟩
  · rw [hs] at h
    cases hbw : vm_backend_event_write env fuel (some f) dev (some e) w with
    | none => rw [hbw] at h; cases h
    | some x =>
      rw [hbw] at h
      simp only [Option.map_some', Option.some.injEq, Prod.mk.injEq] at h
      obtain ⟨rfl, rfl, _⟩ := h
      exact ⟨hb, f, rfl, rfl, fun h => h⟩

/-- With a well-behaved `write` and more than 1032 units of fuel,
`vm_sequencer_event_handle` returns. -/
theorem handle_returns (env : Env) (hwb : env.wellBehaved) (fuel : Nat) (hfuel : 1032 < fuel)
    (f : vm_fd) (pbuf : List Nat) (buf_size : Nat) (w : World) :
    ∃ r f' w', vm_sequencer_event_handle env fuel (some f) (some pbuf) buf_size w =
      some (r, some f', w') := by
  obtain ⟨r0, _, hs⟩ := handle_shape env fuel f pbuf buf_size w
  rcases hs with hs | hs | ⟨dev, b, hs⟩ | ⟨dev, e, hs⟩
  · exact ⟨_, _, _, hs⟩
  · exact ⟨_, _, _, hs⟩
  · exact ⟨_, _, _, hs⟩
  · obtain ⟨x, hx⟩ := vm_backend_event_write_returns env hwb fuel hfuel (some f) dev (some e) w
    rw [hx] at hs
    exact ⟨_, _, _, hs⟩

/-! ## The sequencer's vm_write -/

/-- If the record loop returns, the handle keeps `tx_busy` and the timer
bounds. -/
theorem records_result (env : WriteEnv) (fuel base : Nat) (buf : List Nat) (buf_size : Nat) :
    ∀ (lfuel j : Nat) (fd : vm_fd) (w : World) (res : Nat × vm_fd × World),
      vm_write.records env fuel base buf buf_size lfuel j fd w = some res →
      res.2.1.tx_busy = fd.tx_busy ∧ (timerInv fd → timerInv res.2.1) := by
  intro lfuel
  induction lfuel with
  | zero =>
    intro j fd w res h
    unfold vm_write.records at h
    cases h
  | succ lfuel ih =>
    intro j fd w res h
    unfold vm_write.records at h
    by_cases hlt : j < buf_size
    · simp only [hlt, if_true] at h
      cases hh : vm_sequencer_event_handle (env.handler (base + j)) fuel (some fd)
          (some (buf.drop j)) (buf_size - j) w with
      | none => rw [hh] at h; cases h
      | some x =>
        obtain ⟨r, f', w'⟩ := x
        obtain ⟨_, f1, hf1, hbusy, hinv⟩ := handle_result _ _ _ _ _ _ _ _ _ hh
        subst hf1
        rw [hh] at h
        simp only at h
        obtain ⟨h1, h2⟩ := ih _ _ _ _ h
        exact ⟨h1.trans hbusy, fun hi => h2 (hinv hi)⟩
    · simp only [hlt, if_false, Option.some.injEq] at h
      subst h
      exact ⟨rfl, fun hi => hi⟩

/-- With well-behaved `write`s, more than 1032 units of fuel for the downstream
write loop and more loop fuel than bytes left, the record loop ends with
`j = buf_size`. -/
theorem records_returns (env : WriteEnv) (hwb : ∀ k, (env.handler k).wellBehaved)
    (fuel : Nat) (hfuel : 1032 < fuel) (base : Nat) (buf : List Nat) (buf_size : Nat)
    (hsmall : buf_size < 2 ^ 64) :
    ∀ (lfuel j : Nat) (fd : vm_fd) (w : World), j ≤ buf_size → buf_size - j < lfuel →
      ∃ fd' w', vm_write.records env fuel base buf buf_size lfuel j fd w =
        some (buf_size, fd', w') := by
  intro lfuel
  induction lfuel with
  | zero => intro j fd w _ h; omega
  | succ lfuel ih =>
    intro j fd w hj hf
    unfold vm_write.records
    by_cases hlt : j < buf_size
    · simp only [hlt, if_true]
      obtain ⟨r, f', w', hh⟩ := handle_returns (env.handler (base + j)) (hwb _) fuel hfuel fd
        (buf.drop j) (buf_size - j) w
      obtain ⟨hb, _⟩ := handle_result _ _ _ _ _ _ _ _ _ hh
      obtain ⟨hr1, hr2⟩ := hb (by omega)
      rw [hh]
      simp only
      have hmod : (j + r) % 2 ^ 64 = j + r := Nat.mod_eq_of_lt (by omega)
      rw [hmod]
      exact ih (j + r) f' w' (by omega) (by omega)
    · simp only [hlt, if_false]
      have : j = buf_size := by omega
      subst this
      exact ⟨fd, w, rfl⟩

theorem seq_write_outer_done (env : WriteEnv) (fuel lfuel : Nat) (peer : List Nat)
    (len i : Nat) (fd : vm_fd) (retval : Int) (copies : Nat) (w : World) (h : ¬ i < len) :
    vm_write.outer env fuel lfuel peer len i fd retval copies w = some (fd, retval, w) := by
  rw [vm_write.outer]
  simp only [dif_neg h]

theorem seq_write_outer_err (env : WriteEnv) (fuel lfuel : Nat) (peer : List Nat)
    (len i : Nat) (fd : vm_fd) (retval : Int) (copies : Nat) (w : World) (h : i < len)
    (herr : env.copy_in copies ≠ 0) :
    vm_write.outer env fuel lfuel peer len i fd retval copies w =
      some ({ fd with tx_busy := 0 }, env.copy_in copies, w) := by
  rw [vm_write.outer]
  simp only [dif_pos h, herr, ne_eq, not_false_eq_true, if_true]

theorem seq_write_outer_none (env : WriteEnv) (fuel lfuel : Nat) (peer : List Nat)
    (len i : Nat) (fd : vm_fd) (retval : Int) (copies : Nat) (w : World) (h : i < len)
    (hok : env.copy_in copies = 0)
    (hrec : vm_write.records env fuel i ((peer.drop i).take (min VM_WRITE_BUF_SZ (len - i)))
      (min VM_WRITE_BUF_SZ (len - i)) lfuel 0 { fd with tx_busy := 0 } w = none) :
    vm_write.outer env fuel lfuel peer len i fd retval copies w = none := by
  rw [vm_write.outer]
  simp only [dif_pos h, hok, ne_eq, not_true_eq_false, if_false, hrec]

theorem seq_write_outer_step (env : WriteEnv) (fuel lfuel : Nat) (peer : List Nat)
    (len i : Nat) (fd : vm_fd) (retval : Int) (copies : Nat) (w : World) (h : i < len)
    (hok : env.copy_in copies = 0) (res : Nat × vm_fd × World)
    (hrec : vm_write.records env fuel i ((peer.drop i).take (min VM_WRITE_BUF_SZ (len - i)))
      (min VM_WRITE_BUF_SZ (len - i)) lfuel 0 { fd with tx_busy := 0 } w = some res) :
    vm_write.outer env fuel lfuel peer len i fd retval copies w =
      vm_write.outer env fuel lfuel peer len (i + VM_WRITE_BUF_SZ) res.2.1
        (DevMidi.int_of_size
          ((DevMidi.size_of_int retval + min VM_WRITE_BUF_SZ (len - i)) % 2 ^ 64))
        (copies + 1) res.2.2 := by
  rw [vm_write.outer]
  simp only [dif_pos h, hok, ne_eq, not_true_eq_false, if_false, hrec]

/-- If the outer loop returns, the handle keeps the timer bounds. -/
theorem outer_result (env : WriteEnv) (fuel lfuel : Nat) (peer : List Nat) (len : Nat) :
    ∀ (n i : Nat) (fd : vm_fd) (retval : Int) (copies : Nat) (w : World)
      (res : vm_fd × Int × World), len - i ≤ n →
      vm_write.outer env fuel lfuel peer len i fd retval copies w = some res →
      (timerInv fd → timerInv res.1) := by
  intro n
  induction n with
  | zero =>
    intro i fd retval copies w res hn h
    have hdone : ¬ i < len := by omega
    rw [seq_write_outer_done _ _ _ _ _ _ _ _ _ _ hdone] at h
    simp only [Option.some.injEq] at h
    subst h
    exact fun hi => hi
  | succ n ih =>
    intro i fd retval copies w res hn h
    by_cases hlt : i < len
    · by_cases herr : env.copy_in copies ≠ 0
      · rw [seq_write_outer_err _ _ _ _ _ _ _ _ _ _ hlt herr] at h
        simp only [Option.some.injEq] at h
        subst h
        exact fun hi => hi
      · have hok : env.copy_in copies = 0 := by
          by_contra hc; exact herr hc
        cases hrec : vm_write.records env fuel i
            ((peer.drop i).take (min VM_WRITE_BUF_SZ (len - i)))
            (min VM_WRITE_BUF_SZ (len - i)) lfuel 0 { fd with tx_busy := 0 } w with
        | none =>
          rw [seq_write_outer_none _ _ _ _ _ _ _ _ _ _ hlt hok hrec] at h
          cases h
        | some r =>
          rw [seq_write_outer_step _ _ _ _ _ _ _ _ _ _ hlt hok r hrec] at h
          have h1 := (records_result _ _ _ _ _ _ _ _ _ _ hrec).2
          have h2 := ih _ _ _ _ _ _ (by simp only [VM_WRITE_BUF_SZ]; omega) h
          exact fun hi => h2 (h1 hi)
    · rw [seq_write_outer_done _ _ _ _ _ _ _ _ _ _ hlt] at h
      simp only [Option.some.injEq] at h
      subst h
      exact fun hi => hi

/-- With well-behaved `write`s and enough fuel the outer loop returns; when every
copy-in succeeds it returns `retval` plus the number of bytes left and leaves
`tx_busy` clear if it was clear. -/
theorem outer_returns (env : WriteEnv) (hwb : ∀ k, (env.handler k).wellBehaved)
    (fuel lfuel : Nat) (hfuel : 1032 < fuel) (hlfuel : 4096 < lfuel) (peer : List Nat)
    (len : Nat) :
    ∀ (n i : Nat) (fd : vm_fd) (retval : Int) (copies : Nat) (w : World), len - i ≤ n →
      ∃ fd' rv w', vm_write.outer env fuel lfuel peer len i fd retval copies w =
          some (fd', rv, w') ∧
        ((∀ k, env.copy_in k = 0) → 0 ≤ retval → retval + ((len - i : Nat) : Int) < 2 ^ 31 →
          rv = retval + ((len - i : Nat) : Int) ∧ (fd.tx_busy = 0 → fd'.tx_busy = 0)) := by
  intro n
  induction n with
  | zero =>
    intro i fd retval copies w hn
    have hdone : ¬ i < len := by omega
    rw [seq_write_outer_done _ _ _ _ _ _ _ _ _ _ hdone]
    refine ⟨fd, retval, w, rfl, fun _ _ _ => ⟨?_, fun h => h⟩⟩
    have : len - i = 0 := by omega
    simp [this]
  | succ n ih =>
    intro i fd retval copies w hn
    by_cases hlt : i < len
    · by_cases herr : env.copy_in copies ≠ 0
      · rw [seq_write_outer_err _ _ _ _ _ _ _ _ _ _ hlt herr]
        exact ⟨_, _, _, rfl, fun hc _ _ => absurd (hc copies) herr⟩
      · have hok : env.copy_in copies = 0 := by
          by_contra hc; exact herr hc
        have hmin : min VM_WRITE_BUF_SZ (len - i) ≤ 4096 := by
          simp only [VM_WRITE_BUF_SZ]; omega
        obtain ⟨fd1, w1, hrec⟩ := records_returns env hwb fuel hfuel i
          ((peer.drop i).take (min VM_WRITE_BUF_SZ (len - i)))
          (min VM_WRITE_BUF_SZ (len - i)) (by omega) lfuel 0 { fd with tx_busy := 0 } w
          (Nat.zero_le _) (by omega)
        rw [seq_write_outer_step _ _ _ _ _ _ _ _ _ _ hlt hok _ hrec]
        obtain ⟨fd', rv, w', hres, hval⟩ := ih (i + VM_WRITE_BUF_SZ) fd1
          (DevMidi.int_of_size
            ((DevMidi.size_of_int retval + min VM_WRITE_BUF_SZ (len - i)) % 2 ^ 64))
          (copies + 1) w1 (by simp only [VM_WRITE_BUF_SZ]; omega)
        refine ⟨fd', rv, w', hres, fun hc h0 h1 => ?_⟩
        have hsum : min VM_WRITE_BUF_SZ (len - i) + (len - (i + VM_WRITE_BUF_SZ)) = len - i := by
          simp only [VM_WRITE_BUF_SZ]; omega
        have hadd := DevMidi.retval_add retval (min VM_WRITE_BUF_SZ (len - i)) h0 (by omega)
        rw [hadd] at hval
        obtain ⟨hv1, hv2⟩ := hval hc (by omega) (by omega)
        have hbusy := (records_result _ _ _ _ _ _ _ _ _ _ hrec).1
        refine ⟨by rw [hv1]; omega, fun _ => hv2 (by rw [hbusy])⟩
    · rw [seq_write_outer_done _ _ _ _ _ _ _ _ _ _ hlt]
      refine ⟨fd, retval, w, rfl, fun _ _ _ => ⟨?_, fun h => h⟩⟩
      have : len - i = 0 := by omega
      simp [this]

theorem wellBehaved_acceptAll (clock : Option timespec) : (Env.acceptAll clock).wellBehaved := by
  intro k dev bytes hb
  right
  have : 0 < bytes.length := List.length_pos.mpr hb
  simp only [Env.acceptAll]
  omega

/-- C30 (progress of the sequencer write loop): every downstream `write` being
well behaved (it fails or accepts at least one byte), for every handle and every
buffer of `buf_size ≥ 1` bytes `vm_sequencer_event_handle` returns a value `r`
with `1 ≤ r ≤ buf_size`; the record loop of `vm_write` ends for every chunk with
`j` equal to the chunk length; and a write of `len` bytes on a handle whose
`tx_busy` is clear, every copy-in succeeding, returns `len` and leaves `tx_busy`
clear. -/
theorem vm_write_sequencer_progress (env : WriteEnv) (fuel lfuel : Nat) (f : vm_fd)
    (hwb : ∀ k, (env.handler k).wellBehaved) (hfuel : 1032 < fuel) (hlfuel : 4096 < lfuel) :
    (∀ k pbuf buf_size w, 1 ≤ buf_size →
      ∃ r f' w', vm_sequencer_event_handle (env.handler k) fuel (some f) (some pbuf)
          buf_size w = some (r, some f', w') ∧ 1 ≤ r ∧ r ≤ buf_size) ∧
    (∀ base buf buf_size w, buf_size ≤ VM_WRITE_BUF_SZ →
      ∃ f' w', vm_write.records env fuel base buf buf_size lfuel 0 f w =
        some (buf_size, f', w')) ∧
    (∀ peer len w, f.tx_busy = 0 → len < 2 ^ 31 → (∀ k, env.copy_in k = 0) →
      ∃ f' w', vm_write env fuel lfuel (some f) peer len w = some (some f', (len : Int), w') ∧
        f'.tx_busy = 0) := by
  refine ⟨?_, ?_, ?_⟩
  · intro k pbuf buf_size w hb
    obtain ⟨r, f', w', hh⟩ := handle_returns (env.handler k) (hwb k) fuel hfuel f pbuf buf_size w
    obtain ⟨hr, _⟩ := handle_result _ _ _ _ _ _ _ _ _ hh
    exact ⟨r, f', w', hh, hr (by omega)⟩
  · intro base buf buf_size w hb
    simp only [VM_WRITE_BUF_SZ] at hb
    exact records_returns env hwb fuel hfuel base buf buf_size (by omega) lfuel 0 f w
      (Nat.zero_le _) (by omega)
  · intro peer len w hbusy hlen hc
    obtain ⟨fd', rv, w', hres, hval⟩ := outer_returns env hwb fuel lfuel hfuel hlfuel peer len
      len 0 f 0 0 w (by omega)
    obtain ⟨hv1, hv2⟩ := hval hc (le_refl 0) (by simp only [Nat.sub_zero]; omega)
    refine ⟨fd', w', ?_, hv2 hbusy⟩
    unfold vm_write
    simp only [hbusy, ne_eq, not_true_eq_false, if_false, hres, Option.map_some', hv1]
    simp

/-- C30, witness: a write of 18 bytes (a TEMPO record, a SYSEX record and a
truncated record) on a freshly opened handle with one unit returns 18. -/
theorem vm_write_sequencer_progress_witness :
    ∃ f' w', vm_write WriteEnv.ok 1033 4097 (some (vm_fd.opened 0 1))
        [0x81, 6, 0, 0, 0xff, 0xff, 0, 0, 0x94, 0, 1, 2, 3, 0xff, 0, 0, 5, 9] 18 World.empty =
          some (some f', ((18 : Nat) : Int), w') ∧ f'.tx_busy = 0 :=
  (vm_write_sequencer_progress WriteEnv.ok 1033 4097 (vm_fd.opened 0 1)
    (fun _ => wellBehaved_acceptAll none) (by decide) (by decide)).2.2
    [0x81, 6, 0, 0, 0xff, 0xff, 0, 0, 0x94, 0, 1, 2, 3, 0xff, 0, 0, 5, 9] 18 World.empty
    rfl (by decide) (fun _ => rfl)

end Sequencer

namespace Sequencer

/-! ## Timer bounds over writes and timer ioctls -/

/-- The call of the record handler made by `vm_ioctl`: if it returns, the
handle keeps the timer bounds. -/
theorem ioctl_result (env : Env) (fuel : Nat) (fd : vm_fd) (cmd : IoctlCmd) (err : Int)
    (data : List Nat) (len : Nat) (w : World) (res : Int × vm_fd × World)
    (h : vm_ioctl env fuel fd cmd err data len w = some res) :
    timerInv fd → timerInv res.2.1 := by
  unfold vm_ioctl at h
  by_cases herr : err ≠ 0
  · rw [if_pos herr] at h
    simp only [Option.some.injEq] at h
    subst h
    exact fun hi => hi
  · rw [if_neg herr] at h
    cases cmd <;>
      (simp only at h
       split at h
       · next r fd1 w1 heq =>
         obtain ⟨_, f1, hf1, _, hinv⟩ := handle_result _ _ _ _ _ _ _ _ _ heq
         simp only [Option.some.injEq] at hf1 h
         subst hf1
         subst h
         exact hinv
       · cases h)

/-- With a well-behaved `write` and enough fuel `vm_ioctl` returns. -/
theorem ioctl_returns (env : Env) (hwb : env.wellBehaved) (fuel : Nat) (hfuel : 1032 < fuel)
    (fd : vm_fd) (cmd : IoctlCmd) (err : Int) (data : List Nat) (len : Nat) (w : World) :
    ∃ res, vm_ioctl env fuel fd cmd err data len w = some res := by
  have key := fun buf n => handle_returns env hwb fuel hfuel fd buf n w
  unfold vm_ioctl
  by_cases herr : err ≠ 0
  · rw [if_pos herr]
    exact ⟨_, rfl⟩
  · rw [if_neg herr]
    cases cmd <;>
      (simp only
       split
       · exact ⟨_, rfl⟩
       · next hne =>
         exact absurd (key _ _) (fun hk => Exists.elim hk (fun r hr => Exists.elim hr
           (fun f' hf => Exists.elim hf (fun w' hh => hne r f' w' hh)))))

/-- If `vm_write` returns, the handle keeps the timer bounds. -/
theorem write_result (env : WriteEnv) (fuel lfuel : Nat) (f : vm_fd) (peer : List Nat)
    (len : Nat) (w : World) (f' : vm_fd) (rv : Int) (w' : World)
    (h : vm_write env fuel lfuel (some f) peer len w = some (some f', rv, w')) :
    timerInv f → timerInv f' := by
  unfold vm_write at h
  by_cases hbusy : f.tx_busy ≠ 0
  · simp only [hbusy, ne_eq, not_false_eq_true, if_true, Option.some.injEq,
      Prod.mk.injEq] at h
    obtain ⟨rfl, _, _⟩ := h
    exact fun hi => hi
  · simp only [hbusy, if_false] at h
    cases ho : vm_write.outer env fuel lfuel peer len 0 f 0 0 w with
    | none => rw [ho] at h; cases h
    | some r =>
      rw [ho] at h
      simp only [Option.map_some', Option.some.injEq, Prod.mk.injEq] at h
      obtain ⟨rfl, _, _⟩ := h
      exact outer_result env fuel lfuel peer len len 0 f 0 0 w r (by omega) ho

/-- With well-behaved `write`s and enough fuel `vm_write` returns with a
handle. -/
theorem write_returns (env : WriteEnv) (hwb : ∀ k, (env.handler k).wellBehaved)
    (fuel lfuel : Nat) (hfuel : 1032 < fuel) (hlfuel : 4096 < lfuel) (f : vm_fd)
    (peer : List Nat) (len : Nat) (w : World) :
    ∃ f' rv w', vm_write env fuel lfuel (some f) peer len w = some (some f', rv, w') := by
  unfold vm_write
  by_cases hbusy : f.tx_busy ≠ 0
  · simp only [hbusy, ne_eq, not_false_eq_true, if_true]
    exact ⟨_, _, _, rfl⟩
  · simp only [hbusy, if_false]
    obtain ⟨fd', rv, w', hres, _⟩ := outer_returns env hwb fuel lfuel hfuel hlfuel peer len
      len 0 f 0 0 w (by omega)
    rw [hres]
    exact ⟨_, _, _, rfl⟩

theorem step_result (fuel lfuel : Nat) (s s1 : vm_fd × World) (op : SeqOp)
    (h : SeqOp.step fuel lfuel s op = some s1) : timerInv s.1 → timerInv s1.1 := by
  cases op with
  | write env peer len =>
    unfold SeqOp.step at h
    simp only at h
    cases hw : vm_write env fuel lfuel (some s.1) peer len s.2 with
    | none => rw [hw] at h; cases h
    | some x =>
      obtain ⟨f', rv, w'⟩ := x
      cases f' with
      | none => rw [hw] at h; cases h
      | some f1 =>
        rw [hw] at h
        simp only [Option.some.injEq] at h
        subst h
        exact write_result env fuel lfuel s.1 peer len s.2 f1 rv w' hw
  | ioctl env cmd err data len =>
    unfold SeqOp.step at h
    simp only at h
    cases hi : vm_ioctl env fuel s.1 cmd err data len s.2 with
    | none => rw [hi] at h; cases h
    | some x =>
      rw [hi] at h
      simp only [Option.map_some', Option.some.injEq] at h
      subst h
      exact ioctl_result env fuel s.1 cmd err data len s.2 x hi

theorem step_returns (fuel lfuel : Nat) (hfuel : 1032 < fuel) (hlfuel : 4096 < lfuel)
    (s : vm_fd × World) (op : SeqOp) (hwb : op.wellBehaved) :
    ∃ s1, SeqOp.step fuel lfuel s op = some s1 := by
  cases op with
  | write env peer len =>
    obtain ⟨f', rv, w', h⟩ := write_returns env hwb fuel lfuel hfuel hlfuel s.1 peer len s.2
    unfold SeqOp.step
    simp only
    rw [h]
    exact ⟨_, rfl⟩
  | ioctl env cmd err data len =>
    obtain ⟨res, h⟩ := ioctl_returns env hwb fuel hfuel s.1 cmd err data len s.2
    unfold SeqOp.step
    simp only
    rw [h]
    exact ⟨_, rfl⟩

theorem run_result (fuel lfuel : Nat) (ops : List SeqOp) :
    ∀ (s s1 : vm_fd × World), SeqOp.run fuel lfuel ops s = some s1 →
      timerInv s.1 → timerInv s1.1 := by
  induction ops with
  | nil =>
    intro s s1 h
    unfold SeqOp.run at h
    simp only [Option.some.injEq] at h
    subst h
    exact fun hi => hi
  | cons op ops ih =>
    intro s s1 h
    unfold SeqOp.run at h
    cases hs : SeqOp.step fuel lfuel s op with
    | none => rw [hs] at h; cases h
    | some s2 =>
      rw [hs] at h
      exact fun hi => ih s2 s1 h (step_result fuel lfuel s s2 op hs hi)

theorem run_returns (fuel lfuel : Nat) (hfuel : 1032 < fuel) (hlfuel : 4096 < lfuel)
    (ops : List SeqOp) :
    ∀ (s : vm_fd × World), (∀ op ∈ ops, op.wellBehaved) →
      ∃ s1, SeqOp.run fuel lfuel ops s = some s1 := by
  induction ops with
  | nil => intro s _; exact ⟨s, rfl⟩
  | cons op ops ih =>
    intro s hwb
    obtain ⟨s2, hs⟩ := step_returns fuel lfuel hfuel hlfuel s op
      (hwb op (List.mem_cons_self op ops))
    unfold SeqOp.run
    rw [hs]
    exact ih s2 (fun o ho => hwb o (List.mem_cons_of_mem op ho))

/-- C28 (timer bounds invariant): from the state set by the sequencer's `vm_open`
(`base = 100`, `tempo = 60`), after any sequence of `vm_write` calls (any records)
and of the ioctls SNDCTL_TMR_TIMEBASE, SNDCTL_TMR_TEMPO, START, STOP, CONTINUE and
OUTOFBAND, the handle has `1 ≤ base ≤ 1000` and `8 ≤ tempo ≤ 360`, so that the
divisor `tempo * base` of `vm_timer_wait` (in `uint64_t`) is not zero; and, every
downstream `write` being well behaved, every such sequence runs to its end. -/
theorem vm_timer_bounds_invariant (fuel lfuel : Nat) (ops : List SeqOp) (fflags : Int)
    (n : Nat) :
    (∀ s, SeqOp.run fuel lfuel ops (vm_fd.opened fflags n, World.empty) = some s →
      timerInv s.1 ∧ (s.1.timer_tempo * s.1.timer_base) % 2 ^ 64 ≠ 0) ∧
    ((∀ op ∈ ops, op.wellBehaved) → 1032 < fuel → 4096 < lfuel →
      ∃ s, SeqOp.run fuel lfuel ops (vm_fd.opened fflags n, World.empty) = some s) := by
  constructor
  · intro s hs
    have h0 : timerInv (vm_fd.opened fflags n) := by
      unfold timerInv vm_fd.opened
      simp only
      omega
    have hinv := run_result fuel lfuel ops _ s hs h0
    refine ⟨hinv, ?_⟩
    obtain ⟨b1, b2, t1, t2⟩ := hinv
    have hlo : 8 ≤ s.1.timer_tempo * s.1.timer_base :=
      Nat.mul_le_mul t1 b1
    have hhi : s.1.timer_tempo * s.1.timer_base ≤ 360 * 1000 :=
      Nat.mul_le_mul t2 b2
    rw [Nat.mod_eq_of_lt (by omega)]
    omega
  · intro hwb hfuel hlfuel
    exact run_returns fuel lfuel hfuel hlfuel ops _ hwb

/-- C28, witness: SNDCTL_TMR_TIMEBASE with the value 0, then a write holding a
TEMPO record with the value 65535, a SYSEX record and a truncated record. -/
theorem vm_timer_bounds_invariant_witness :
    ∃ s, SeqOp.run 1033 4097
        [SeqOp.ioctl (Env.acceptAll none) IoctlCmd.SNDCTL_TMR_TIMEBASE 0 [0, 0, 0, 0] 4,
          SeqOp.write WriteEnv.ok
            [0x81, 6, 0, 0, 0xff, 0xff, 0, 0, 0x94, 0, 1, 2, 3, 0xff, 0, 0, 5, 9] 18]
        (vm_fd.opened 0 1, World.empty) = some s ∧
      timerInv s.1 ∧ (s.1.timer_tempo * s.1.timer_base) % 2 ^ 64 ≠ 0 := by
  have h := vm_timer_bounds_invariant 1033 4097
    [SeqOp.ioctl (Env.acceptAll none) IoctlCmd.SNDCTL_TMR_TIMEBASE 0 [0, 0, 0, 0] 4,
      SeqOp.write WriteEnv.ok
        [0x81, 6, 0, 0, 0xff, 0xff, 0, 0, 0x94, 0, 1, 2, 3, 0xff, 0, 0, 5, 9] 18] 0 1
  have hwb : ∀ op ∈
      [SeqOp.ioctl (Env.acceptAll none) IoctlCmd.SNDCTL_TMR_TIMEBASE 0 [0, 0, 0, 0] 4,
        SeqOp.write WriteEnv.ok
          [0x81, 6, 0, 0, 0xff, 0xff, 0, 0, 0x94, 0, 1, 2, 3, 0xff, 0, 0, 5, 9] 18],
      op.wellBehaved := by
    intro op hop
    simp only [List.mem_cons, List.mem_singleton, List.not_mem_nil, or_false] at hop
    rcases hop with rfl | rfl
    · exact wellBehaved_acceptAll none
    · exact fun _ => wellBehaved_acceptAll none
  obtain ⟨s, hs⟩ := h.2 hwb (by decide) (by decide)
  exact ⟨s, hs, h.1 s hs⟩

end Sequencer

end VirtualMidi
